import Mathlib

/-!
# REST-API: authentication core

A shallow embedding of `src/src/auth_service.cpp` (password hashing, token
issue and verification) and of `APIRoutes::authenticate_request` from
`src/src/api_routes.cpp`, together with the parts of the C++ standard library
and of the JSON library that these functions call.

Conventions.
* A `std::string` is a list of bytes (`Str`), each byte a natural number below 256.
* `int` is 32-bit, `long` and `size_t` are 64-bit, plain `char` is signed
  (the LP64 Linux ABI the project builds for); wrap-around is written out
  with `%`.
* A C++ exception is the `error` side of `Except Exc`.
* The wall clock read by `std::chrono::system_clock::now()` is an explicit
  argument `now`, in whole seconds since the epoch.
-/

namespace RestApi

/-- A `std::string`: its bytes in order. -/
abbrev Str := List Nat

/-- The bytes of an ASCII literal. -/
def lit (s : String) : Str := s.data.map Char.toNat

/-- The exceptions (all derived from `std::exception`) that the modelled code can raise. -/
inductive Exc where
  /-- Thrown by `std::stoi` when no conversion could be performed. -/
  | invalid_argument
  /-- Thrown by `std::stoi` when the value does not fit an `int`. -/
  | out_of_range
  /-- A `json::parse_error` (syntax error in the input). -/
  | parse_error
  /-- A `json::type_error` with its numeric id (302, 305, 316). -/
  | type_error (id : Nat)
  /-- A `json::out_of_range` (number overflow while parsing, id 406). -/
  | json_out_of_range
  deriving DecidableEq, Repr

deriving instance DecidableEq for Except

/-- Cast to 32-bit `int` (two's complement wrap-around). -/
def wrap32 (v : Int) : Int := (v + 2 ^ 31) % 2 ^ 32 - 2 ^ 31

/-- Cast to 64-bit `long` (two's complement wrap-around). -/
def wrap64 (v : Int) : Int := (v + 2 ^ 63) % 2 ^ 64 - 2 ^ 63

/-! ## Credential hasher (`hash_password`, `verify_password`) -/

/-- The multiplier of the 64-bit Murmur hash used by `std::hash<std::string>`. -/
def hash_mul : Nat := 0xc6a4a7935bd1e995

/-- The seed `std::hash` passes to `_Hash_bytes`. -/
def hash_seed : Nat := 0xc70f6907

/-- The helper `shift_mix(v) = v ^ (v >> 47)`. -/
def shift_mix (v : Nat) : Nat := v ^^^ (v >>> 47)

/-- Little-endian value of a block of bytes (`unaligned_load` / `load_bytes`). -/
def load_bytes : Str → Nat
  | [] => 0
  | b :: bs => b + 256 * load_bytes bs

/-- The main loop of `_Hash_bytes`: one step per aligned 8-byte block, then the tail. -/
def hash_loop : Nat → Str → Nat → Nat
  | 0, _, h => h
  | fuel + 1, s, h =>
    if 8 ≤ s.length then
      let data := (shift_mix ((load_bytes (s.take 8) * hash_mul) % 2 ^ 64) * hash_mul) % 2 ^ 64
      hash_loop fuel (s.drop 8) (((h ^^^ data) * hash_mul) % 2 ^ 64)
    else if s.length ≠ 0 then
      ((h ^^^ load_bytes s) * hash_mul) % 2 ^ 64
    else h

/-- The function `std::hash<std::string>` of libstdc++ on a 64-bit target:
`_Hash_bytes(data, len, 0xc70f6907)`. -/
def std_hash (s : Str) : Nat :=
  let h0 := hash_seed ^^^ ((s.length * hash_mul) % 2 ^ 64)
  let h1 := hash_loop (s.length + 1) s h0
  let h2 := (shift_mix h1 * hash_mul) % 2 ^ 64
  shift_mix h2

/-- One lower-case hexadecimal digit. -/
def hex_digit (d : Nat) : Nat := if d < 10 then 48 + d else 87 + d

/-- Most significant digit first, hexadecimal digits of a positive number in front of `acc`. -/
def hex_aux : Nat → Nat → Str → Str
  | 0, _, acc => acc
  | fuel + 1, n, acc =>
    if n < 16 then hex_digit n :: acc else hex_aux fuel (n / 16) (hex_digit (n % 16) :: acc)

/-- What `ss << std::hex << n` writes: lower-case hexadecimal, no prefix, no padding. -/
def to_hex (n : Nat) : Str := hex_aux (n + 1) n []

/-- The salt appended by `hash_password`. -/
def salt : Str := lit "salt123"

/-- Model of `AuthService::hash_password`. -/
def hash_password (password : Str) : Str :=
  let hash := std_hash (password ++ salt)
  to_hex hash

/-- Model of `AuthService::verify_password`. -/
def verify_password (password : Str) (stored_hash : Str) : Bool :=
  hash_password password == stored_hash

/-! ## C++ standard library pieces used by the token codec -/

/-- Most significant digit first, decimal digits of a number in front of `acc`. -/
def dec_aux : Nat → Nat → Str → Str
  | 0, _, acc => acc
  | fuel + 1, n, acc =>
    if n < 10 then (48 + n) :: acc else dec_aux fuel (n / 10) ((48 + n % 10) :: acc)

/-- Decimal text of a natural number. -/
def dec (n : Nat) : Str := dec_aux (n + 1) n []

/-- Model of `std::to_string` on a signed integer (also the text the JSON library
writes for an integer). -/
def to_string (v : Int) : Str :=
  if v < 0 then 45 :: dec v.natAbs else dec v.toNat

/-- The C locale `isspace`: space, `\t`, `\n`, `\v`, `\f`, `\r`. -/
def isspace (c : Nat) : Bool := c == 32 || (9 ≤ c && c ≤ 13)

/-- The C locale `isdigit`. -/
def isdigit (c : Nat) : Bool := 48 ≤ c && c ≤ 57

/-- Value of a run of decimal digits, most significant first. -/
def digits_value (ds : Str) : Nat := ds.foldl (fun a c => 10 * a + (c - 48)) 0

/-- Whether `std::stoi` reads a minus sign: the first character after the
leading white space is `-`. -/
def stoi_sign (s : Str) : Bool := (s.dropWhile isspace).head? == some 45

/-- The digits `std::stoi` reads: after the leading white space and one
optional sign (`-` or `+`), the longest run of decimal digits. -/
def stoi_digits (s : Str) : Str :=
  let s1 := s.dropWhile isspace
  let s2 := if s1.head? == some 45 || s1.head? == some 43 then s1.tail else s1
  s2.takeWhile isdigit

/-- Model of `std::stoi(s)` (base 10): leading white space is skipped, one optional
sign is read, then the longest run of digits; whatever follows is ignored.
No digit gives `invalid_argument`; a value outside `int` gives `out_of_range`. -/
def stoi (s : Str) : Except Exc Int :=
  let ds := stoi_digits s
  if ds.isEmpty then .error .invalid_argument
  else
    let v : Int := if stoi_sign s then - (digits_value ds : Int) else (digits_value ds : Int)
    if v < -2 ^ 31 || 2 ^ 31 - 1 < v then .error .out_of_range else .ok v

/-- The segments that `while (std::getline(ss, segment, '.'))` yields, in order;
`cur` is the part of the current segment already read. -/
def getline_segments : Str → Str → List Str
  | [], cur => if cur.isEmpty then [] else [cur]
  | c :: rest, cur => if c = 46 then cur :: getline_segments rest [] else getline_segments rest (cur ++ [c])

/-- Cast of an `int` to `char`, the char seen as a byte. -/
def int_to_char (v : Int) : Nat := (v % 256).toNat

/-- Cast of a (signed) `char` to `int`. -/
def char_to_int (c : Nat) : Int := if c < 128 then (c : Int) else (c : Int) - 256

/-! ## The JSON library: values, lexer, parser, conversions, serializer -/

/-- A `nlohmann::json` value. An object keeps its members as a key/value list
with unique keys. A floating-point number keeps the text it was read from. -/
inductive Json where
  | null
  | boolean (b : Bool)
  | number_integer (v : Int)
  | number_unsigned (v : Nat)
  | number_float (text : Str)
  | string (s : Str)
  | array (l : List Json)
  | object (m : List (Str × Json))

/-- The library's `is_number()`. -/
def Json.is_number : Json → Bool
  | .number_integer _ => true
  | .number_unsigned _ => true
  | .number_float _ => true
  | _ => false

/-- The library's `is_boolean()`. -/
def Json.is_boolean : Json → Bool
  | .boolean _ => true
  | _ => false

/-- The library's `is_string()`. -/
def Json.is_string : Json → Bool
  | .string _ => true
  | _ => false

/-- The library's `is_object()`. -/
def Json.is_object : Json → Bool
  | .object _ => true
  | _ => false

/-- The tokens the lexer hands to the parser. -/
inductive Token where
  | begin_array | begin_object | end_array | end_object
  | name_separator | value_separator
  | literal_true | literal_false | literal_null
  | value_string (s : Str)
  | value_unsigned (v : Nat)
  | value_integer (v : Int)
  | value_float (text : Str)
  | end_of_input

/-- Floating-point behaviour of the platform, which the embedding does not
compute: whether `strtod` of a number text is finite, the results of casting
the parsed `double` to `long` and to `int`, and the text written for it. -/
structure FloatSem where
  finite : Str → Bool
  to_long : Str → Int
  to_int : Str → Int
  to_text : Str → Str

/-- Byte in the closed range `[lo, hi]`. -/
def in_range (c lo hi : Nat) : Bool := lo ≤ c && c ≤ hi

/-- Value of one hexadecimal digit, if it is one. -/
def hex_value (c : Nat) : Option Nat :=
  if in_range c 48 57 then some (c - 48)
  else if in_range c 65 70 then some (c - 55)
  else if in_range c 97 102 then some (c - 87)
  else none

/-- The lexer's `get_codepoint`: the number written by four hexadecimal digits. -/
def get_codepoint (a b c d : Nat) : Option Nat :=
  match hex_value a, hex_value b, hex_value c, hex_value d with
  | some x, some y, some z, some w => some (((x * 16 + y) * 16 + z) * 16 + w)
  | _, _, _, _ => none

/-- UTF-8 encoding of a code point, as the lexer appends it after a `\u` escape. -/
def encode_utf8 (cp : Nat) : Str :=
  if cp < 0x80 then [cp]
  else if cp ≤ 0x7FF then [0xC0 ||| (cp >>> 6), 0x80 ||| (cp &&& 0x3F)]
  else if cp ≤ 0xFFFF then
    [0xE0 ||| (cp >>> 12), 0x80 ||| ((cp >>> 6) &&& 0x3F), 0x80 ||| (cp &&& 0x3F)]
  else
    [0xF0 ||| (cp >>> 18), 0x80 ||| ((cp >>> 12) &&& 0x3F),
     0x80 ||| ((cp >>> 6) &&& 0x3F), 0x80 ||| (cp &&& 0x3F)]

/-- The character a one-letter escape stands for. -/
def simple_escape (e : Nat) : Option Nat :=
  if e = 34 then some 34          -- \"
  else if e = 92 then some 92     -- \\
  else if e = 47 then some 47     -- \/
  else if e = 98 then some 8      -- \b
  else if e = 102 then some 12    -- \f
  else if e = 110 then some 10    -- \n
  else if e = 114 then some 13    -- \r
  else if e = 116 then some 9     -- \t
  else none

/-- For a UTF-8 lead byte: how many continuation bytes follow and the range
the first of them must lie in (the others lie in `[0x80, 0xBF]`). Bytes
`0x80..0xC1` and `0xF5..0xFF` start no well-formed sequence. -/
def utf8_tail (c : Nat) : Option (Nat × Nat × Nat) :=
  if in_range c 0xC2 0xDF then some (1, 0x80, 0xBF)
  else if c = 0xE0 then some (2, 0xA0, 0xBF)
  else if in_range c 0xE1 0xEC || in_range c 0xEE 0xEF then some (2, 0x80, 0xBF)
  else if c = 0xED then some (2, 0x80, 0x9F)
  else if c = 0xF0 then some (3, 0x90, 0xBF)
  else if in_range c 0xF1 0xF3 then some (3, 0x80, 0xBF)
  else if c = 0xF4 then some (3, 0x80, 0x8F)
  else none

/-- One well-formed multi-byte UTF-8 sequence starting with the lead byte `c`:
its bytes and the input after it. -/
def utf8_sequence (c : Nat) (rest : Str) : Option (Str × Str) :=
  match utf8_tail c with
  | none => none
  | some (n, lo, hi) =>
    let bs := rest.take n
    if bs.length = n && bs.head?.all (fun b => in_range b lo hi)
        && bs.tail.all (fun b => in_range b 0x80 0xBF) then
      some (c :: bs, rest.drop n)
    else none

/-- The lexer after `\u`: four hexadecimal digits, and for a high surrogate a
second `\uXXXX` holding a low surrogate; the UTF-8 bytes of the code point. -/
def unicode_escape (rest : Str) : Option (Str × Str) :=
  match rest with
  | h1 :: h2 :: h3 :: h4 :: rest2 =>
    match get_codepoint h1 h2 h3 h4 with
    | none => none
    | some cp1 =>
      if in_range cp1 0xD800 0xDBFF then
        if rest2.take 2 = [92, 117] then
          match rest2.drop 2 with
          | l1 :: l2 :: l3 :: l4 :: rest3 =>
            match get_codepoint l1 l2 l3 l4 with
            | none => none
            | some cp2 =>
              if in_range cp2 0xDC00 0xDFFF then
                some (encode_utf8 ((cp1 <<< 10) + cp2 - 0x35FDC00), rest3)
              else none
          | _ => none
        else none
      else if in_range cp1 0xDC00 0xDFFF then none
      else some (encode_utf8 cp1, rest2)
  | _ => none

/-- One step of the lexer inside a string, at a character `c` that is not the
closing quote: the bytes it adds to the string and the input left; `none` is a
lexical error (bad escape, unescaped control character, ill-formed UTF-8). -/
def string_step (c : Nat) (rest : Str) : Option (Str × Str) :=
  if c = 92 then
    match rest with
    | [] => none
    | e :: rest1 =>
      if e = 117 then unicode_escape rest1
      else
        match simple_escape e with
        | some ch => some ([ch], rest1)
        | none => none
  else if c ≤ 0x1F then none
  else if c ≤ 0x7F then some ([c], rest)
  else utf8_sequence c rest

/-- The lexer's `scan_string`, entered after the opening quote: the bytes of the
string (escapes resolved, UTF-8 checked) and the input after the closing quote.
Each step reads at least one character, so `fuel` = length of the input is enough. -/
def scan_string : Nat → Str → Str → Except Exc (Str × Str)
  | 0, _, _ => .error .parse_error
  | _ + 1, [], _ => .error .parse_error
  | fuel + 1, c :: rest, acc =>
    if c = 34 then .ok (acc, rest)
    else
      match string_step c rest with
      | none => .error .parse_error
      | some (bytes, rest1) => scan_string fuel rest1 (acc ++ bytes)

/-- The exponent part of a number, entered after `e` or `E`: the text consumed
(an optional sign and at least one digit) and the rest of the input. -/
def scan_exponent (inp : Str) : Except Exc (Str × Str) :=
  let sign := if inp.head? == some 43 || inp.head? == some 45 then inp.take 1 else []
  let s1 := inp.drop sign.length
  let ds := s1.takeWhile isdigit
  if ds.isEmpty then .error .parse_error
  else .ok (sign ++ ds, s1.dropWhile isdigit)

/-- The lexer's `scan_number`, entered at a `-` or a digit. An integer text that
fits `uint64_t` (no sign) or `int64_t` (with `-`) gives an integer token; a
text with a fraction or an exponent, or an integer that does not fit, gives a
floating-point token. -/
def scan_number (inp : Str) : Except Exc (Token × Str) :=
  let neg := inp.head? == some 45
  let s0 := if neg then inp.tail else inp
  match s0 with
  | [] => .error .parse_error
  | d :: s1 =>
    if !isdigit d then .error .parse_error
    else
      let int_ds := if d = 48 then [d] else d :: s1.takeWhile isdigit
      let s2 := if d = 48 then s1 else s1.dropWhile isdigit
      let sign := if neg then [45] else []
      match s2 with
      | 46 :: s3 =>
        let fr := s3.takeWhile isdigit
        let s4 := s3.dropWhile isdigit
        if fr.isEmpty then .error .parse_error
        else if s4.head? == some 101 || s4.head? == some 69 then
          match scan_exponent s4.tail with
          | .error e => .error e
          | .ok (ex, s5) => .ok (.value_float (sign ++ int_ds ++ [46] ++ fr ++ s4.take 1 ++ ex), s5)
        else .ok (.value_float (sign ++ int_ds ++ [46] ++ fr), s4)
      | _ =>
        if s2.head? == some 101 || s2.head? == some 69 then
          match scan_exponent s2.tail with
          | .error e => .error e
          | .ok (ex, s5) => .ok (.value_float (sign ++ int_ds ++ s2.take 1 ++ ex), s5)
        else if neg then
          if digits_value int_ds ≤ 2 ^ 63 then .ok (.value_integer (- (digits_value int_ds : Int)), s2)
          else .ok (.value_float (sign ++ int_ds), s2)
        else
          if digits_value int_ds < 2 ^ 64 then .ok (.value_unsigned (digits_value int_ds), s2)
          else .ok (.value_float int_ds, s2)

/-- The lexer's `scan_literal`: the input must continue with `text`. -/
def scan_literal (text : Str) (tok : Token) (inp : Str) : Except Exc (Token × Str) :=
  if inp.take text.length = text then .ok (tok, inp.drop text.length) else .error .parse_error

/-- JSON white space: space, `\t`, `\n`, `\r`. -/
def is_json_space (c : Nat) : Bool := c == 32 || c == 9 || c == 10 || c == 13

/-- The lexer's `scan`: skip white space, then read one token. A zero byte, like
the end of the input, reads as `end_of_input`. -/
def scan (inp : Str) : Except Exc (Token × Str) :=
  match inp.dropWhile is_json_space with
  | [] => .ok (.end_of_input, [])
  | c :: rest =>
    if c = 91 then .ok (.begin_array, rest)
    else if c = 93 then .ok (.end_array, rest)
    else if c = 123 then .ok (.begin_object, rest)
    else if c = 125 then .ok (.end_object, rest)
    else if c = 58 then .ok (.name_separator, rest)
    else if c = 44 then .ok (.value_separator, rest)
    else if c = 116 then scan_literal (lit "rue") .literal_true rest
    else if c = 102 then scan_literal (lit "alse") .literal_false rest
    else if c = 110 then scan_literal (lit "ull") .literal_null rest
    else if c = 34 then
      match scan_string rest.length rest [] with
      | .error e => .error e
      | .ok (str, rest1) => .ok (.value_string str, rest1)
    else if c = 45 || isdigit c then scan_number (c :: rest)
    else if c = 0 then .ok (.end_of_input, rest)
    else .error .parse_error

/-- The order of `std::string` keys in a `std::map`: lexicographic on bytes. -/
def str_lt : Str → Str → Bool
  | [], [] => false
  | [], _ :: _ => true
  | _ :: _, [] => false
  | a :: as, b :: bs => a < b || (a == b && str_lt as bs)

/-- Assignment `m[key] = v` on the members of an object, which a `std::map`
keeps sorted by key: the value of an existing key is replaced. -/
def object_set : List (Str × Json) → Str → Json → List (Str × Json)
  | [], key, v => [(key, v)]
  | (k, x) :: m, key, v =>
    if k = key then (key, v) :: m
    else if str_lt key k then (key, v) :: (k, x) :: m
    else (k, x) :: object_set m key v

/-- Lookup of a key among the members of an object. -/
def object_find (m : List (Str × Json)) (key : Str) : Option Json :=
  (m.find? (fun kv => kv.1 == key)).map (fun kv => kv.2)

/-- The three mutually recursive parts of the parser, one unit of `fuel` per
nesting step or element:
`mode = 0` reads one value;
`mode = 1` reads the rest of an array after `[` when it is not empty, or after `,`;
`mode = 2` reads the rest of an object after the opening brace when it is not empty, or
after `,`.
`arr` and `obj` hold the elements and members read so far. -/
def parse_step (F : FloatSem) : Nat → Nat → Str → List Json → List (Str × Json) →
    Except Exc (Json × Str)
  | 0, _, _, _, _ => .error .parse_error
  | fuel + 1, mode, inp, arr, obj =>
    if mode = 0 then
      match scan inp with
      | .error e => .error e
      | .ok (tok, rest) =>
        match tok with
        | .begin_object =>
          match scan rest with
          | .ok (.end_object, rest1) => .ok (.object [], rest1)
          | _ => parse_step F fuel 2 rest [] []
        | .begin_array =>
          match scan rest with
          | .ok (.end_array, rest1) => .ok (.array [], rest1)
          | _ => parse_step F fuel 1 rest [] []
        | .value_float text =>
          if F.finite text then .ok (.number_float text, rest) else .error .json_out_of_range
        | .literal_false => .ok (.boolean false, rest)
        | .literal_true => .ok (.boolean true, rest)
        | .literal_null => .ok (.null, rest)
        | .value_integer v => .ok (.number_integer v, rest)
        | .value_unsigned v => .ok (.number_unsigned v, rest)
        | .value_string str => .ok (.string str, rest)
        | _ => .error .parse_error
    else if mode = 1 then
      match parse_step F fuel 0 inp [] [] with
      | .error e => .error e
      | .ok (v, rest) =>
        match scan rest with
        | .ok (.value_separator, rest1) => parse_step F fuel 1 rest1 (arr ++ [v]) []
        | .ok (.end_array, rest1) => .ok (.array (arr ++ [v]), rest1)
        | .ok _ => .error .parse_error
        | .error e => .error e
    else
      match scan inp with
      | .ok (.value_string key, rest) =>
        match scan rest with
        | .ok (.name_separator, rest1) =>
          match parse_step F fuel 0 rest1 [] [] with
          | .error e => .error e
          | .ok (v, rest2) =>
            match scan rest2 with
            | .ok (.value_separator, rest3) => parse_step F fuel 2 rest3 [] (object_set obj key v)
            | .ok (.end_object, rest3) => .ok (.object (object_set obj key v), rest3)
            | .ok _ => .error .parse_error
            | .error e => .error e
        | .ok _ => .error .parse_error
        | .error e => .error e
      | .ok _ => .error .parse_error
      | .error e => .error e

/-- Model of `json::parse(text)`: an optional byte-order mark, one value, then
the end of the input. -/
def parse (F : FloatSem) (text : Str) : Except Exc Json :=
  let inp := if text.take 3 = [0xEF, 0xBB, 0xBF] then text.drop 3 else text
  match parse_step F (2 * inp.length + 2) 0 inp [] [] with
  | .error e => .error e
  | .ok (v, rest) =>
    match scan rest with
    | .ok (.end_of_input, _) => .ok v
    | .ok _ => .error .parse_error
    | .error e => .error e

/-- The non-const `payload[key]` used as a value: a null payload becomes an
object and a missing key reads as null; a payload that is neither raises
`type_error` 305. -/
def index (payload : Json) (key : Str) : Except Exc Json :=
  match payload with
  | .null => .ok .null
  | .object m => .ok ((object_find m key).getD .null)
  | _ => .error (.type_error 305)

/-- The conversion `get<long>()`; `long` is the library's own integer type, so
only the three number kinds convert. -/
def get_long (F : FloatSem) : Json → Except Exc Int
  | .number_unsigned v => .ok (wrap64 v)
  | .number_integer v => .ok (wrap64 v)
  | .number_float text => .ok (wrap64 (F.to_long text))
  | _ => .error (.type_error 302)

/-- The implicit conversion to `int`: numbers and booleans convert. -/
def get_int (F : FloatSem) : Json → Except Exc Int
  | .number_unsigned v => .ok (wrap32 v)
  | .number_integer v => .ok (wrap32 v)
  | .number_float text => .ok (wrap32 (F.to_int text))
  | .boolean b => .ok (if b then 1 else 0)
  | _ => .error (.type_error 302)

/-- The implicit conversion to `std::string`: only a string converts. -/
def get_string : Json → Except Exc Str
  | .string s => .ok s
  | _ => .error (.type_error 302)

/-- What the serializer writes for one ASCII character: `"`, `\` and control
characters are escaped, the others are copied. -/
def escape_ascii (c : Nat) : Str :=
  if c = 8 then [92, 98]
  else if c = 9 then [92, 116]
  else if c = 10 then [92, 110]
  else if c = 12 then [92, 102]
  else if c = 13 then [92, 114]
  else if c = 34 then [92, 34]
  else if c = 92 then [92, 92]
  else if c ≤ 0x1F then [92, 117, 48, 48, hex_digit (c / 16), hex_digit (c % 16)]
  else [c]

/-- The serializer's `dump_escaped` with the default settings: the bytes of
every code point are copied, ASCII characters through `escape_ascii`, and
input that is not well-formed UTF-8 raises `type_error` 316.
Each step reads at least one byte, so `fuel` = length of the input is enough. -/
def dump_escaped : Nat → Str → Except Exc Str
  | 0, _ => .ok []
  | _ + 1, [] => .ok []
  | fuel + 1, c :: rest =>
    if c ≤ 0x7F then
      match dump_escaped fuel rest with
      | .ok r => .ok (escape_ascii c ++ r)
      | .error e => .error e
    else
      match utf8_sequence c rest with
      | none => .error (.type_error 316)
      | some (bytes, rest1) =>
        match dump_escaped fuel rest1 with
        | .ok r => .ok (bytes ++ r)
        | .error e => .error e

/-- A string between quotes, as the serializer writes it. -/
def dump_string (s : Str) : Except Exc Str :=
  match dump_escaped s.length s with
  | .ok r => .ok (34 :: r ++ [34])
  | .error e => .error e

mutual
/-- Model of `json::dump()` with its default arguments (compact output). -/
def dump (F : FloatSem) : Json → Except Exc Str
  | .null => .ok (lit "null")
  | .boolean b => .ok (if b then lit "true" else lit "false")
  | .number_integer v => .ok (to_string v)
  | .number_unsigned v => .ok (dec v)
  | .number_float text => .ok (F.to_text text)
  | .string s => dump_string s
  | .array l =>
    match dump_elements F l with
    | .ok r => .ok (91 :: r ++ [93])
    | .error e => .error e
  | .object m =>
    match dump_members F m with
    | .ok r => .ok (123 :: r ++ [125])
    | .error e => .error e
/-- The elements of an array, separated by commas. -/
def dump_elements (F : FloatSem) : List Json → Except Exc Str
  | [] => .ok []
  | [x] => dump F x
  | x :: y :: l =>
    match dump F x with
    | .error e => .error e
    | .ok a =>
      match dump_elements F (y :: l) with
      | .ok r => .ok (a ++ 44 :: r)
      | .error e => .error e
/-- The members of an object as `"key":value`, separated by commas. -/
def dump_members (F : FloatSem) : List (Str × Json) → Except Exc Str
  | [] => .ok []
  | [(k, x)] =>
    match dump_string k with
    | .error e => .error e
    | .ok ks =>
      match dump F x with
      | .ok a => .ok (ks ++ 58 :: a)
      | .error e => .error e
  | (k, x) :: y :: m =>
    match dump_string k with
    | .error e => .error e
    | .ok ks =>
      match dump F x with
      | .error e => .error e
      | .ok a =>
        match dump_members F (y :: m) with
        | .ok r => .ok (ks ++ 58 :: a ++ 44 :: r)
        | .error e => .error e
end

/-! ## Session token codec (`generate_jwt_token`, `verify_jwt_token`) -/

/-- The constant `AuthService::JWT_EXPIRY_HOURS`. -/
def JWT_EXPIRY_HOURS : Int := 24

/-- The loop `for (char c : token) encoded += std::to_string(static_cast<int>(c)) + "."`. -/
def encode : Str → Str
  | [] => []
  | c :: token => to_string (char_to_int c) ++ 46 :: encode token

/-- Model of `AuthService::generate_jwt_token`, the clock reading `now`. -/
def generate_jwt_token (F : FloatSem) (now : Int) (user_id : Int) (username : Str) :
    Except Exc Str :=
  let payload := object_set [] (lit "user_id") (.number_integer user_id)
  let payload := object_set payload (lit "username") (.string username)
  let timestamp := now
  let payload := object_set payload (lit "exp")
    (.number_integer (wrap64 (timestamp + JWT_EXPIRY_HOURS * 3600)))
  match dump F (.object payload) with
  | .error e => .error e
  | .ok token => .ok (encode token)

/-- The decoding loop of `verify_jwt_token`: every non-empty segment is read with
`std::stoi` and cast to `char`. -/
def decode_segments : List Str → Str → Except Exc Str
  | [], decoded => .ok decoded
  | segment :: segs, decoded =>
    if !segment.isEmpty then
      match stoi segment with
      | .error e => .error e
      | .ok v => decode_segments segs (decoded ++ [int_to_char v])
    else decode_segments segs decoded

/-- The `try` block of `verify_jwt_token`. -/
def verify_try (F : FloatSem) (now : Int) (token : Str) : Except Exc (Option (Int × Str)) :=
  match decode_segments (getline_segments token []) [] with
  | .error e => .error e
  | .ok decoded =>
    if decoded.isEmpty then .ok none
    else
      match parse F decoded with
      | .error e => .error e
      | .ok payload =>
        let timestamp := now
        match (index payload (lit "exp")).bind (get_long F) with
        | .error e => .error e
        | .ok exp =>
          if exp < timestamp then .ok none
          else
            match (index payload (lit "user_id")).bind (get_int F) with
            | .error e => .error e
            | .ok user_id =>
              match (index payload (lit "username")).bind get_string with
              | .error e => .error e
              | .ok username => .ok (some (user_id, username))

/-- Model of `AuthService::verify_jwt_token`, the clock reading `now`: whatever
the `try` block throws is caught and turned into absence. -/
def verify_jwt_token (F : FloatSem) (now : Int) (token : Str) : Option (Int × Str) :=
  match verify_try F now token with
  | .ok r => r
  | .error _ => none

/-! ## Request authenticator (`APIRoutes::authenticate_request`) -/

/-- What a handler reads of a `crow::request`: the value `get_header_value`
returns for `Authorization` (empty when the header is missing) and the body. -/
structure Request where
  authorization : Str
  body : Str

/-- The regex atom `.` (ECMAScript grammar): any character but `\n` and `\r`. -/
def regex_dot (c : Nat) : Bool := c != 10 && c != 13

/-- The backtracking of `\s+(.+)` against the whole of `s`: `\s+` holds `k`
characters, the group must match all that follows; on failure `\s+` gives one
character back. The result is the text of the group. -/
def bearer_backtrack (s : Str) : Nat → Option Str
  | 0 => none
  | k + 1 =>
    let group := s.drop (k + 1)
    if !group.isEmpty && group.all regex_dot then some group else bearer_backtrack s k

/-- Model of `std::regex_match(auth_header, matches, bearer_regex)` for the
regex `Bearer\s+(.+)`: the text of `matches[1]` when the whole header matches.
`\s+` is greedy, so it first takes the longest run of white space. -/
def bearer_regex_match (auth_header : Str) : Option Str :=
  if auth_header.take 6 = lit "Bearer" then
    let s := auth_header.drop 6
    bearer_backtrack s (s.takeWhile isspace).length
  else none

/-- Model of `APIRoutes::authenticate_request`, the clock reading `now`. -/
def authenticate_request (F : FloatSem) (now : Int) (req : Request) : Option (Int × Str) :=
  let auth_header := req.authorization
  if auth_header.isEmpty then none
  else
    match bearer_regex_match auth_header with
    | none => none
    | some token => verify_jwt_token F now token

/-- A `FloatSem` for inputs that hold no floating-point number; none of its
fields is consulted on such inputs. -/
def no_floats : FloatSem :=
  { finite := fun _ => true, to_long := fun _ => 0, to_int := fun _ => 0, to_text := fun t => t }

/-- Value of a hexadecimal digit character written by `hex_digit`. -/
def unhex (c : Nat) : Nat := if c < 58 then c - 48 else c - 87

/-- Well-formed UTF-8: a sequence of ASCII bytes and well-formed multi-byte
sequences (`fuel` = length of the input is enough). -/
def well_formed_utf8 : Nat → Str → Bool
  | 0, s => s.isEmpty
  | _ + 1, [] => true
  | fuel + 1, c :: rest =>
    if c ≤ 0x7F then well_formed_utf8 fuel rest
    else
      match utf8_sequence c rest with
      | none => false
      | some (_, rest1) => well_formed_utf8 fuel rest1

/-- The byte string is well-formed UTF-8. -/
def is_utf8 (s : Str) : Bool := well_formed_utf8 s.length s

/-- How a payload byte `b` relates to the byte `b1` that `std::stoi` and the cast
to `char` read from its segment once a character of the segment was replaced
by one that ends the number: `b1` comes from a proper prefix of the decimal
text of `b` (seen as a signed `char`). -/
def tamper_rel (b b1 : Nat) : Bool :=
  if b < 128 then
    1 ≤ b1 && b1 ≤ 12 && (b1 != 9 || (90 ≤ b && b ≤ 99)) && (b1 != 10 || (100 ≤ b && b ≤ 109))
  else 244 ≤ b1 && b1 ≤ 255 && (b1 != 244 || b ≤ 136)

/-- Whether reading a damaged segment either fails or yields a byte related to
the original one by `tamper_rel`. -/
def tamper_outcome (b : Nat) (r : Except Exc Int) : Bool :=
  match r with
  | .error _ => true
  | .ok v => tamper_rel b (int_to_char v)

/-- The text `generate_jwt_token` encodes: the compact dump of the payload object,
with `esc` the escaped user name. -/
def payload_text (exp user_id : Int) (esc : Str) : Str :=
  lit "\x7b\"exp\":" ++ (to_string exp ++ (lit ",\"user_id\":" ++ (to_string user_id ++
    (lit ",\"username\":\"" ++ (esc ++ lit "\"\x7d")))))

/-! ## More of the JSON library (`contains`, `empty`, `value`, `get<bool>`) -/

/-- The library's `contains(key)`: whether the value is an object with that key. -/
def Json.contains (j : Json) (key : Str) : Bool :=
  match j with
  | .object m => (object_find m key).isSome
  | _ => false

/-- The library's `empty()`: true for null and for an array or object without
elements, false for every other value. -/
def Json.empty : Json → Bool
  | .null => true
  | .array l => l.isEmpty
  | .object m => m.isEmpty
  | _ => false

/-- The library's `value(key, default_value)`: the member with that key when the
object has one, the default otherwise; `type_error` 306 on anything but an object.
The caller converts the result to the type it asks for. -/
def value (j : Json) (key : Str) (default_value : Json) : Except Exc Json :=
  match j with
  | .object m => .ok ((object_find m key).getD default_value)
  | _ => .error (.type_error 306)

/-- The implicit conversion to `bool`: only a boolean converts. -/
def get_bool : Json → Except Exc Bool
  | .boolean b => .ok b
  | _ => .error (.type_error 302)

/-- Whether the exception derives from `nlohmann::json::exception`. -/
def is_json_exception : Exc → Bool
  | .parse_error => true
  | .type_error _ => true
  | .json_out_of_range => true
  | _ => false

/-! ## The store (`Database`, over what SQLite answers) -/

/-- The columns `database.cpp` reads from a row of `users`: `id` is what
`sqlite3_column_int` returns, the others what `sqlite3_column_text` returns
(taken to be no null pointer). -/
structure UserRow where
  id : Int
  username : Str
  email : Str
  password_hash : Str
  created_at : Str
  deriving DecidableEq

/-- The columns `database.cpp` reads from a row of `tasks`: `id`, `completed`
and `user_id` are what `sqlite3_column_int` returns, the others what
`sqlite3_column_text` returns (taken to be no null pointer). -/
structure TaskRow where
  id : Int
  title : Str
  description : Str
  completed : Int
  user_id : Int
  created_at : Str
  updated_at : Str
  deriving DecidableEq

/-- What SQLite answers to the prepared statements of `database.cpp`, with `σ`
the content of the database file. A `SELECT` gives the rows it steps through
(none when the statement cannot be prepared) and leaves the content as it is;
the other statements give whether `sqlite3_step` returned `SQLITE_DONE`, and
the new content. The arguments are the bound parameters, in binding order. -/
structure Sqlite (σ : Type) where
  select_user_by_id : σ → Int → Option UserRow
  select_user_by_username : σ → Str → Option UserRow
  select_users : σ → List UserRow
  insert_user : σ → Str → Str → Str → Bool × σ
  update_user : σ → Str → Str → Int → Bool × σ
  delete_user : σ → Int → Bool × σ
  insert_task : σ → Str → Str → Int → Bool × σ
  select_task_by_id : σ → Int → Option TaskRow
  select_tasks_by_user : σ → Int → List TaskRow
  select_tasks : σ → List TaskRow
  update_task : σ → Str → Str → Int → Int → Bool × σ
  delete_task : σ → Int → Bool × σ

/-- One call of a method of `Database`, with its arguments. -/
inductive DbCall where
  | create_user (username email password_hash : Str)
  | get_user_by_id (user_id : Int)
  | get_user_by_username (username : Str)
  | get_all_users
  | update_user (user_id : Int) (username email : Str)
  | delete_user (user_id : Int)
  | create_task (title description : Str) (user_id : Int)
  | get_task_by_id (task_id : Int)
  | get_tasks_by_user (user_id : Int)
  | get_all_tasks
  | update_task (task_id : Int) (title description : Str) (completed : Bool)
  | delete_task (task_id : Int)
  deriving DecidableEq

/-- The state a handler runs in: the content of the database, and the calls made
on the `Database` object so far (each method of `Database` records its call). -/
structure World (σ : Type) where
  store : σ
  calls : List DbCall
  deriving DecidableEq

/-- The text `sqlite3_bind_text(stmt, i, s.c_str(), -1, ...)` binds: the bytes
of `s` up to its first zero byte. -/
def c_str (s : Str) : Str := s.takeWhile (fun c => c != 0)

/-- Model of `Database::row_to_json_user`. -/
def row_to_json_user (row : UserRow) : Json :=
  let user := object_set [] (lit "id") (.number_integer row.id)
  let user := object_set user (lit "username") (.string row.username)
  let user := object_set user (lit "email") (.string row.email)
  let user := object_set user (lit "created_at") (.string row.created_at)
  .object user

/-- Model of `Database::row_to_json_task`. -/
def row_to_json_task (row : TaskRow) : Json :=
  let task := object_set [] (lit "id") (.number_integer row.id)
  let task := object_set task (lit "title") (.string row.title)
  let task := object_set task (lit "description") (.string row.description)
  let task := object_set task (lit "completed") (.boolean (row.completed == 1))
  let task := object_set task (lit "user_id") (.number_integer row.user_id)
  let task := object_set task (lit "created_at") (.string row.created_at)
  let task := object_set task (lit "updated_at") (.string row.updated_at)
  .object task

/-- Model of `Database::create_user`. -/
def Database.create_user {σ : Type} (S : Sqlite σ) (w : World σ)
    (username email password_hash : Str) : Bool × World σ :=
  let r := S.insert_user w.store (c_str username) (c_str email) (c_str password_hash)
  (r.1, { store := r.2, calls := w.calls ++ [.create_user username email password_hash] })

/-- Model of `Database::get_user_by_id`. -/
def Database.get_user_by_id {σ : Type} (S : Sqlite σ) (w : World σ) (user_id : Int) :
    Json × World σ :=
  let w1 : World σ := { store := w.store, calls := w.calls ++ [.get_user_by_id user_id] }
  match S.select_user_by_id w.store user_id with
  | some row => (row_to_json_user row, w1)
  | none => (.null, w1)

/-- Model of `Database::get_user_by_username`. -/
def Database.get_user_by_username {σ : Type} (S : Sqlite σ) (w : World σ) (username : Str) :
    Json × World σ :=
  let w1 : World σ := { store := w.store, calls := w.calls ++ [.get_user_by_username username] }
  match S.select_user_by_username w.store (c_str username) with
  | some row =>
    let user := object_set [] (lit "id") (.number_integer row.id)
    let user := object_set user (lit "username") (.string row.username)
    let user := object_set user (lit "email") (.string row.email)
    let user := object_set user (lit "password_hash") (.string row.password_hash)
    let user := object_set user (lit "created_at") (.string row.created_at)
    (.object user, w1)
  | none => (.null, w1)

/-- Model of `Database::get_all_users`. -/
def Database.get_all_users {σ : Type} (S : Sqlite σ) (w : World σ) : List Json × World σ :=
  ((S.select_users w.store).map row_to_json_user,
    { store := w.store, calls := w.calls ++ [.get_all_users] })

/-- Model of `Database::update_user`. -/
def Database.update_user {σ : Type} (S : Sqlite σ) (w : World σ) (user_id : Int)
    (username email : Str) : Bool × World σ :=
  let r := S.update_user w.store (c_str username) (c_str email) user_id
  (r.1, { store := r.2, calls := w.calls ++ [.update_user user_id username email] })

/-- Model of `Database::delete_user`. -/
def Database.delete_user {σ : Type} (S : Sqlite σ) (w : World σ) (user_id : Int) :
    Bool × World σ :=
  let r := S.delete_user w.store user_id
  (r.1, { store := r.2, calls := w.calls ++ [.delete_user user_id] })

/-- Model of `Database::create_task`. -/
def Database.create_task {σ : Type} (S : Sqlite σ) (w : World σ) (title description : Str)
    (user_id : Int) : Bool × World σ :=
  let r := S.insert_task w.store (c_str title) (c_str description) user_id
  (r.1, { store := r.2, calls := w.calls ++ [.create_task title description user_id] })

/-- Model of `Database::get_task_by_id`. -/
def Database.get_task_by_id {σ : Type} (S : Sqlite σ) (w : World σ) (task_id : Int) :
    Json × World σ :=
  let w1 : World σ := { store := w.store, calls := w.calls ++ [.get_task_by_id task_id] }
  match S.select_task_by_id w.store task_id with
  | some row => (row_to_json_task row, w1)
  | none => (.null, w1)

/-- Model of `Database::get_tasks_by_user`. -/
def Database.get_tasks_by_user {σ : Type} (S : Sqlite σ) (w : World σ) (user_id : Int) :
    List Json × World σ :=
  ((S.select_tasks_by_user w.store user_id).map row_to_json_task,
    { store := w.store, calls := w.calls ++ [.get_tasks_by_user user_id] })

/-- Model of `Database::get_all_tasks`. -/
def Database.get_all_tasks {σ : Type} (S : Sqlite σ) (w : World σ) : List Json × World σ :=
  ((S.select_tasks w.store).map row_to_json_task,
    { store := w.store, calls := w.calls ++ [.get_all_tasks] })

/-- Model of `Database::update_task`. -/
def Database.update_task {σ : Type} (S : Sqlite σ) (w : World σ) (task_id : Int)
    (title description : Str) (completed : Bool) : Bool × World σ :=
  let r := S.update_task w.store (c_str title) (c_str description) (if completed then 1 else 0)
    task_id
  (r.1, { store := r.2, calls := w.calls ++ [.update_task task_id title description completed] })

/-- Model of `Database::delete_task`. -/
def Database.delete_task {σ : Type} (S : Sqlite σ) (w : World σ) (task_id : Int) :
    Bool × World σ :=
  let r := S.delete_task w.store task_id
  (r.1, { store := r.2, calls := w.calls ++ [.delete_task task_id] })

/-! ## Responses and the handlers (`APIRoutes`) -/

/-- What a handler returns: the status code, the body and the headers it added. -/
structure Response where
  code : Int
  body : Str
  headers : List (Str × Str)
  deriving DecidableEq

/-- Model of `APIRoutes::create_error_response(message, code)`. -/
def create_error_response (message : Str) (code : Int) : Json :=
  .object (object_set (object_set [] (lit "success") (.boolean false)) (lit "error")
    (.object (object_set (object_set [] (lit "message") (.string message)) (lit "code")
      (.number_integer code))))

/-- Model of `APIRoutes::create_success_response(message, data)`; a call without
`data` passes the default, an empty object. -/
def create_success_response (message : Str) (data : Json) : Json :=
  let response := object_set (object_set [] (lit "success") (.boolean true)) (lit "message")
    (.string message)
  if !data.empty then .object (object_set response (lit "data") data) else .object response

/-- The response `crow::response(code, j.dump())` with the headers added to it. -/
def reply (F : FloatSem) (code : Int) (j : Json) (headers : List (Str × Str)) :
    Except Exc Response :=
  match dump F j with
  | .ok body => .ok { code := code, body := body, headers := headers }
  | .error e => .error e

/-- The two statements `auto error = create_error_response(message); return
crow::response(code, error.dump());` of the handlers: the envelope is always
built with the default `code = 400` of the declaration in `api_routes.h`. -/
def error_reply (F : FloatSem) (code : Int) (message : Str) : Except Exc Response :=
  reply F code (create_error_response message 400) []

/-- The header `Content-Type: application/json`. -/
def content_type : Str × Str := (lit "Content-Type", lit "application/json")

/-- The header `Access-Control-Allow-Origin: *`. -/
def allow_origin : Str × Str := (lit "Access-Control-Allow-Origin", lit "*")

/-- The clauses `catch (const nlohmann::json::exception&)` and `catch (const
std::exception&)` that end most handlers. -/
def catch_json_std (F : FloatSem) (r : Except Exc Response) : Except Exc Response :=
  match r with
  | .ok res => .ok res
  | .error e =>
    if is_json_exception e then error_reply F 400 (lit "Invalid JSON format")
    else error_reply F 500 (lit "Internal server error")

/-- The single clause `catch (const std::exception&)` of the other handlers. -/
def catch_std (F : FloatSem) (r : Except Exc Response) : Except Exc Response :=
  match r with
  | .ok res => .ok res
  | .error _ => error_reply F 500 (lit "Internal server error")

/-- The class `[a-zA-Z]`. -/
def is_alpha (c : Nat) : Bool := (65 ≤ c && c ≤ 90) || (97 ≤ c && c ≤ 122)

/-- The class `[a-zA-Z0-9._%+-]`. -/
def email_local_char (c : Nat) : Bool :=
  is_alpha c || isdigit c || c == 46 || c == 95 || c == 37 || c == 43 || c == 45

/-- The class `[a-zA-Z0-9.-]`. -/
def email_domain_char (c : Nat) : Bool := is_alpha c || isdigit c || c == 46 || c == 45

/-- Model of `std::regex_match(email, email_regex)` for the regex
`[a-zA-Z0-9._%+-]+@[a-zA-Z0-9.-]+\.[a-zA-Z]{2,}`: some way of cutting the whole
text into the five parts of the regex. `i` is the length of the local part and
`j` the length of the part between `@` and the last `.`. -/
def email_regex_match (email : Str) : Bool :=
  (List.range (email.length + 1)).any fun i =>
    (List.range (email.length + 1)).any fun j =>
      let loc := email.take i
      let rest := email.drop i
      let dom := (rest.drop 1).take j
      let rest2 := (rest.drop 1).drop j
      let tld := rest2.drop 1
      !loc.isEmpty && loc.all email_local_char && rest.head? == some 64 &&
        !dom.isEmpty && dom.all email_domain_char && rest2.head? == some 46 &&
        decide (2 ≤ tld.length) && tld.all is_alpha

/-- The `try` block of `APIRoutes::register_user`. -/
def register_user_try {σ : Type} (F : FloatSem) (S : Sqlite σ) (w : World σ) (req : Request) :
    Except Exc Response × World σ :=
  match parse F req.body with
  | .error e => (.error e, w)
  | .ok json_data =>
    if !json_data.contains (lit "username") || !json_data.contains (lit "email")
        || !json_data.contains (lit "password") then
      (error_reply F 400 (lit "Missing required fields: username, email, password"), w)
    else
      match (index json_data (lit "username")).bind get_string with
      | .error e => (.error e, w)
      | .ok username =>
        match (index json_data (lit "email")).bind get_string with
        | .error e => (.error e, w)
        | .ok email =>
          match (index json_data (lit "password")).bind get_string with
          | .error e => (.error e, w)
          | .ok password =>
            if !email_regex_match email then
              (error_reply F 400 (lit "Invalid email format"), w)
            else
              let existing_user := Database.get_user_by_username S w username
              if !existing_user.1.empty then
                (error_reply F 409 (lit "Username already exists"), existing_user.2)
              else
                let password_hash := hash_password password
                let success := Database.create_user S existing_user.2 username email password_hash
                if success.1 then
                  (reply F 201 (create_success_response (lit "User registered successfully")
                    (.object [])) [content_type], success.2)
                else (error_reply F 500 (lit "Failed to create user"), success.2)

/-- Model of `APIRoutes::register_user`. -/
def register_user {σ : Type} (F : FloatSem) (S : Sqlite σ) (w : World σ) (req : Request) :
    Except Exc Response × World σ :=
  let r := register_user_try F S w req
  (catch_json_std F r.1, r.2)

/-- The `try` block of `APIRoutes::login`, the clock reading `now`. -/
def login_try {σ : Type} (F : FloatSem) (now : Int) (S : Sqlite σ) (w : World σ)
    (req : Request) : Except Exc Response × World σ :=
  match parse F req.body with
  | .error e => (.error e, w)
  | .ok json_data =>
    if !json_data.contains (lit "username") || !json_data.contains (lit "password") then
      (error_reply F 400 (lit "Missing username or password"), w)
    else
      match (index json_data (lit "username")).bind get_string with
      | .error e => (.error e, w)
      | .ok username =>
        match (index json_data (lit "password")).bind get_string with
        | .error e => (.error e, w)
        | .ok password =>
          let user := Database.get_user_by_username S w username
          if user.1.empty then (error_reply F 401 (lit "Invalid credentials"), user.2)
          else
            match (index user.1 (lit "password_hash")).bind get_string with
            | .error e => (.error e, user.2)
            | .ok stored_hash =>
              if !verify_password password stored_hash then
                (error_reply F 401 (lit "Invalid credentials"), user.2)
              else
                match (index user.1 (lit "id")).bind (get_int F) with
                | .error e => (.error e, user.2)
                | .ok user_id =>
                  match generate_jwt_token F now user_id username with
                  | .error e => (.error e, user.2)
                  | .ok token =>
                    match index user.1 (lit "id"), index user.1 (lit "username"),
                        index user.1 (lit "email") with
                    | .ok id, .ok name, .ok email =>
                      let user_data := object_set [] (lit "id") id
                      let user_data := object_set user_data (lit "username") name
                      let user_data := object_set user_data (lit "email") email
                      let user_data := object_set user_data (lit "token") (.string token)
                      (reply F 200 (create_success_response (lit "Login successful")
                        (.object user_data)) [content_type], user.2)
                    | .error e, _, _ => (.error e, user.2)
                    | _, .error e, _ => (.error e, user.2)
                    | _, _, .error e => (.error e, user.2)

/-- Model of `APIRoutes::login`, the clock reading `now`. -/
def login {σ : Type} (F : FloatSem) (now : Int) (S : Sqlite σ) (w : World σ) (req : Request) :
    Except Exc Response × World σ :=
  let r := login_try F now S w req
  (catch_json_std F r.1, r.2)

/-- Model of `APIRoutes::get_users`. -/
def get_users {σ : Type} (F : FloatSem) (S : Sqlite σ) (w : World σ) :
    Except Exc Response × World σ :=
  let users := Database.get_all_users S w
  (catch_std F (reply F 200 (create_success_response (lit "Users retrieved successfully")
    (.array users.1)) [content_type, allow_origin]), users.2)

/-- Model of `APIRoutes::get_user`. -/
def get_user {σ : Type} (F : FloatSem) (S : Sqlite σ) (w : World σ) (user_id : Int) :
    Except Exc Response × World σ :=
  let user := Database.get_user_by_id S w user_id
  (catch_std F
    (if user.1.empty then error_reply F 404 (lit "User not found")
     else reply F 200 (create_success_response (lit "User retrieved successfully") user.1)
      [content_type, allow_origin]), user.2)

/-- The `try` block of `APIRoutes::update_user`. -/
def update_user_try {σ : Type} (F : FloatSem) (S : Sqlite σ) (w : World σ) (req : Request)
    (user_id : Int) : Except Exc Response × World σ :=
  match parse F req.body with
  | .error e => (.error e, w)
  | .ok json_data =>
    if !json_data.contains (lit "username") || !json_data.contains (lit "email") then
      (error_reply F 400 (lit "Missing required fields: username, email"), w)
    else
      match (index json_data (lit "username")).bind get_string with
      | .error e => (.error e, w)
      | .ok username =>
        match (index json_data (lit "email")).bind get_string with
        | .error e => (.error e, w)
        | .ok email =>
          let success := Database.update_user S w user_id username email
          if success.1 then
            (reply F 200 (create_success_response (lit "User updated successfully") (.object []))
              [content_type], success.2)
          else (error_reply F 500 (lit "Failed to update user"), success.2)

/-- Model of `APIRoutes::update_user`, the clock reading `now`. -/
def update_user {σ : Type} (F : FloatSem) (now : Int) (S : Sqlite σ) (w : World σ)
    (req : Request) (user_id : Int) : Except Exc Response × World σ :=
  match authenticate_request F now req with
  | none => (error_reply F 401 (lit "Authentication required"), w)
  | some auth_result =>
    let authenticated_user_id := auth_result.1
    if authenticated_user_id ≠ user_id then
      (error_reply F 403 (lit "Unauthorized to update this user"), w)
    else
      let r := update_user_try F S w req user_id
      (catch_json_std F r.1, r.2)

/-- Model of `APIRoutes::delete_user`, the clock reading `now`. -/
def delete_user {σ : Type} (F : FloatSem) (now : Int) (S : Sqlite σ) (w : World σ)
    (req : Request) (user_id : Int) : Except Exc Response × World σ :=
  match authenticate_request F now req with
  | none => (error_reply F 401 (lit "Authentication required"), w)
  | some auth_result =>
    let authenticated_user_id := auth_result.1
    if authenticated_user_id ≠ user_id then
      (error_reply F 403 (lit "Unauthorized to delete this user"), w)
    else
      let success := Database.delete_user S w user_id
      (catch_std F
        (if success.1 then
          reply F 200 (create_success_response (lit "User deleted successfully") (.object []))
            [content_type]
         else error_reply F 500 (lit "Failed to delete user")), success.2)

/-- Model of `APIRoutes::get_tasks`. -/
def get_tasks {σ : Type} (F : FloatSem) (S : Sqlite σ) (w : World σ) :
    Except Exc Response × World σ :=
  let tasks := Database.get_all_tasks S w
  (catch_std F (reply F 200 (create_success_response (lit "Tasks retrieved successfully")
    (.array tasks.1)) [content_type, allow_origin]), tasks.2)

/-- The `try` block of `APIRoutes::create_task`, `user_id` the authenticated id. -/
def create_task_try {σ : Type} (F : FloatSem) (S : Sqlite σ) (w : World σ) (req : Request)
    (user_id : Int) : Except Exc Response × World σ :=
  match parse F req.body with
  | .error e => (.error e, w)
  | .ok json_data =>
    if !json_data.contains (lit "title") then
      (error_reply F 400 (lit "Missing required field: title"), w)
    else
      match (index json_data (lit "title")).bind get_string with
      | .error e => (.error e, w)
      | .ok title =>
        match (value json_data (lit "description") (.string (lit ""))).bind get_string with
        | .error e => (.error e, w)
        | .ok description =>
          let success := Database.create_task S w title description user_id
          if success.1 then
            (reply F 201 (create_success_response (lit "Task created successfully") (.object []))
              [content_type], success.2)
          else (error_reply F 500 (lit "Failed to create task"), success.2)

/-- Model of `APIRoutes::create_task`, the clock reading `now`. -/
def create_task {σ : Type} (F : FloatSem) (now : Int) (S : Sqlite σ) (w : World σ)
    (req : Request) : Except Exc Response × World σ :=
  match authenticate_request F now req with
  | none => (error_reply F 401 (lit "Authentication required"), w)
  | some auth_result =>
    let user_id := auth_result.1
    let r := create_task_try F S w req user_id
    (catch_json_std F r.1, r.2)

/-- Model of `APIRoutes::get_task`. -/
def get_task {σ : Type} (F : FloatSem) (S : Sqlite σ) (w : World σ) (task_id : Int) :
    Except Exc Response × World σ :=
  let task := Database.get_task_by_id S w task_id
  (catch_std F
    (if task.1.empty then error_reply F 404 (lit "Task not found")
     else reply F 200 (create_success_response (lit "Task retrieved successfully") task.1)
      [content_type, allow_origin]), task.2)

/-- The `try` block of `APIRoutes::update_task`, `authenticated_user_id` being
`auth_result->first`. -/
def update_task_try {σ : Type} (F : FloatSem) (S : Sqlite σ) (w : World σ) (req : Request)
    (task_id : Int) (authenticated_user_id : Int) : Except Exc Response × World σ :=
  let existing_task := Database.get_task_by_id S w task_id
  if existing_task.1.empty then (error_reply F 404 (lit "Task not found"), existing_task.2)
  else
    match (index existing_task.1 (lit "user_id")).bind (get_int F) with
    | .error e => (.error e, existing_task.2)
    | .ok task_user_id =>
      if task_user_id ≠ authenticated_user_id then
        (error_reply F 403 (lit "Unauthorized to update this task"), existing_task.2)
      else
        match parse F req.body with
        | .error e => (.error e, existing_task.2)
        | .ok json_data =>
          match (index existing_task.1 (lit "title")).bind
              (fun d => (value json_data (lit "title") d).bind get_string) with
          | .error e => (.error e, existing_task.2)
          | .ok title =>
            match (index existing_task.1 (lit "description")).bind
                (fun d => (value json_data (lit "description") d).bind get_string) with
            | .error e => (.error e, existing_task.2)
            | .ok description =>
              match (index existing_task.1 (lit "completed")).bind
                  (fun d => (value json_data (lit "completed") d).bind get_bool) with
              | .error e => (.error e, existing_task.2)
              | .ok completed =>
                let success := Database.update_task S existing_task.2 task_id title description
                  completed
                if success.1 then
                  (reply F 200 (create_success_response (lit "Task updated successfully")
                    (.object [])) [content_type], success.2)
                else (error_reply F 500 (lit "Failed to update task"), success.2)

/-- Model of `APIRoutes::update_task`, the clock reading `now`. -/
def update_task {σ : Type} (F : FloatSem) (now : Int) (S : Sqlite σ) (w : World σ)
    (req : Request) (task_id : Int) : Except Exc Response × World σ :=
  match authenticate_request F now req with
  | none => (error_reply F 401 (lit "Authentication required"), w)
  | some auth_result =>
    let r := update_task_try F S w req task_id auth_result.1
    (catch_json_std F r.1, r.2)

/-- The `try` block of `APIRoutes::delete_task`, `authenticated_user_id` being
`auth_result->first`. -/
def delete_task_try {σ : Type} (F : FloatSem) (S : Sqlite σ) (w : World σ)
    (task_id : Int) (authenticated_user_id : Int) : Except Exc Response × World σ :=
  let existing_task := Database.get_task_by_id S w task_id
  if existing_task.1.empty then (error_reply F 404 (lit "Task not found"), existing_task.2)
  else
    match (index existing_task.1 (lit "user_id")).bind (get_int F) with
    | .error e => (.error e, existing_task.2)
    | .ok task_user_id =>
      if task_user_id ≠ authenticated_user_id then
        (error_reply F 403 (lit "Unauthorized to delete this task"), existing_task.2)
      else
        let success := Database.delete_task S existing_task.2 task_id
        if success.1 then
          (reply F 200 (create_success_response (lit "Task deleted successfully") (.object []))
            [content_type], success.2)
        else (error_reply F 500 (lit "Failed to delete task"), success.2)

/-- Model of `APIRoutes::delete_task`, the clock reading `now`. -/
def delete_task {σ : Type} (F : FloatSem) (now : Int) (S : Sqlite σ) (w : World σ)
    (req : Request) (task_id : Int) : Except Exc Response × World σ :=
  match authenticate_request F now req with
  | none => (error_reply F 401 (lit "Authentication required"), w)
  | some auth_result =>
    let r := delete_task_try F S w task_id auth_result.1
    (catch_std F r.1, r.2)

/-- Model of `APIRoutes::get_user_tasks`. -/
def get_user_tasks {σ : Type} (F : FloatSem) (S : Sqlite σ) (w : World σ) (user_id : Int) :
    Except Exc Response × World σ :=
  let tasks := Database.get_tasks_by_user S w user_id
  (catch_std F (reply F 200 (create_success_response (lit "User tasks retrieved successfully")
    (.array tasks.1)) [content_type, allow_origin]), tasks.2)

/-- The routes `APIRoutes::setup_routes` registers, with the integer of the path. -/
inductive Route where
  | options
  | health
  | register
  | login
  | get_users
  | get_user (user_id : Int)
  | update_user (user_id : Int)
  | delete_user (user_id : Int)
  | get_tasks
  | create_task
  | get_task (task_id : Int)
  | update_task (task_id : Int)
  | delete_task (task_id : Int)
  | get_user_tasks (user_id : Int)

/-- Model of the lambdas `APIRoutes::setup_routes` registers: the response to a
request on a route, the clock reading `now`. -/
def setup_routes {σ : Type} (F : FloatSem) (now : Int) (S : Sqlite σ) (w : World σ)
    (route : Route) (req : Request) : Except Exc Response × World σ :=
  match route with
  | .options =>
    (.ok { code := 200, body := [], headers := [allow_origin,
      (lit "Access-Control-Allow-Methods", lit "GET, POST, PUT, DELETE, OPTIONS"),
      (lit "Access-Control-Allow-Headers", lit "Content-Type, Authorization")] }, w)
  | .health =>
    (reply F 200 (create_success_response (lit "API is running") (.object []))
      [content_type, allow_origin], w)
  | .register => register_user F S w req
  | .login => login F now S w req
  | .get_users => get_users F S w
  | .get_user user_id => get_user F S w user_id
  | .update_user user_id => update_user F now S w req user_id
  | .delete_user user_id => delete_user F now S w req user_id
  | .get_tasks => get_tasks F S w
  | .create_task => create_task F now S w req
  | .get_task task_id => get_task F S w task_id
  | .update_task task_id => update_task F now S w req task_id
  | .delete_task task_id => delete_task F now S w req task_id
  | .get_user_tasks user_id => get_user_tasks F S w user_id

/-- A database content for the closed examples: the rows of the two tables. -/
structure Tables where
  users : List UserRow
  tasks : List TaskRow
  deriving DecidableEq

/-- One behaviour of SQLite, used in the closed examples: the statements of
`database.cpp` on `Tables`. An `INSERT` into `users` fails on a user name or
an e-mail already present; ids count up from 1; the time stamps are left empty. -/
def tables_sqlite : Sqlite Tables :=
  { select_user_by_id := fun t user_id => t.users.find? (fun r => r.id == user_id),
    select_user_by_username := fun t username => t.users.find? (fun r => r.username == username),
    select_users := fun t => t.users,
    insert_user := fun t username email password_hash =>
      if t.users.any (fun r => r.username == username || r.email == email) then (false, t)
      else (true, ⟨t.users ++ [⟨t.users.length + 1, username, email, password_hash, []⟩], t.tasks⟩),
    update_user := fun t username email user_id =>
      (true, ⟨t.users.map (fun r => if r.id == user_id then
        ⟨r.id, username, email, r.password_hash, r.created_at⟩ else r), t.tasks⟩),
    delete_user := fun t user_id => (true, ⟨t.users.filter (fun r => r.id != user_id), t.tasks⟩),
    insert_task := fun t title description user_id =>
      (true, ⟨t.users, t.tasks ++ [⟨t.tasks.length + 1, title, description, 0, user_id, [], []⟩]⟩),
    select_task_by_id := fun t task_id => t.tasks.find? (fun r => r.id == task_id),
    select_tasks_by_user := fun t user_id => t.tasks.filter (fun r => r.user_id == user_id),
    select_tasks := fun t => t.tasks,
    update_task := fun t title description completed task_id =>
      (true, ⟨t.users, t.tasks.map (fun r => if r.id == task_id then
        ⟨r.id, title, description, completed, r.user_id, r.created_at, r.updated_at⟩ else r)⟩),
    delete_task := fun t task_id => (true, ⟨t.users, t.tasks.filter (fun r => r.id != task_id)⟩) }

/-- The text of the error envelope for a message that the serializer copies
unchanged (`esc` is the escaped message in general). -/
def error_body (esc : Str) : Str :=
  lit "\x7b\"error\":\x7b\"code\":400,\"message\":\"" ++ (esc ++ lit "\"\x7d,\"success\":false\x7d")

/-- What a `try` block of a handler evaluates to: an exception, an error reply
whose status is one of `codes`, or a success reply with status 200 or 201. -/
def try_outcome (F : FloatSem) (codes : List Int) (r : Except Exc Response) : Prop :=
  (∃ e, r = .error e) ∨ (∃ c m, c ∈ codes ∧ r = error_reply F c m) ∨
    (∃ c j h, (c = 200 ∨ c = 201) ∧ r = reply F c j h)

/-- What a handler answers: a response with status 200 or 201, or a response
whose status is in `codes` and whose body is an error envelope with `code` 400. -/
def handler_outcome (F : FloatSem) (codes : List Int) (r : Except Exc Response) : Prop :=
  ∃ res, r = .ok res ∧ (res.code = 200 ∨ res.code = 201 ∨
    (res.code ∈ codes ∧ ∃ message, dump F (create_error_response message 400) = .ok res.body))

/-! # Properties -/

/-! ## Facts about the credential hasher -/

theorem unhex_hex_digit (d : Nat) (h : d < 16) : unhex (hex_digit d) = d := by
  unfold unhex hex_digit
  split <;> split <;> omega

theorem hex_aux_value (fuel : Nat) : ∀ (n : Nat) (acc : Str), n < fuel →
    (hex_aux fuel n acc).foldl (fun a c => 16 * a + unhex c) 0
      = acc.foldl (fun a c => 16 * a + unhex c) n := by
  induction fuel with
  | zero => intro n acc h; omega
  | succ fuel ih =>
    intro n acc h
    unfold hex_aux
    split
    · rename_i h16
      simp [List.foldl, unhex_hex_digit n h16]
    · rename_i h16
      have hlt : n / 16 < fuel := by omega
      rw [ih (n / 16) _ hlt]
      simp only [List.foldl]
      rw [unhex_hex_digit (n % 16) (Nat.mod_lt _ (by decide))]
      congr 1
      omega

theorem to_hex_injective (n m : Nat) (h : to_hex n = to_hex m) : n = m := by
  have hn := hex_aux_value (n + 1) n [] (Nat.lt_succ_self n)
  have hm := hex_aux_value (m + 1) m [] (Nat.lt_succ_self m)
  unfold to_hex at h
  rw [h, hm] at hn
  simpa using hn.symm

/-- C7. For every secret `s`, `verify_password(s, hash_password(s))` is true. -/
theorem verify_password_accepts_own_hash (s : Str) :
    verify_password s (hash_password s) = true := by
  simp [verify_password]

/-- C8 (as stated, refuted). Two different secrets, `"password12345678"` and a
16-byte string, have the same `hash_password`, so `verify_password` accepts
the first against the stored hash of the second. -/
theorem verify_password_collision :
    lit "password12345678"
        ≠ [112, 97, 48, 141, 18, 85, 26, 243, 49, 50, 118, 26, 154, 80, 143, 169]
      ∧ verify_password (lit "password12345678")
          (hash_password [112, 97, 48, 141, 18, 85, 26, 243, 49, 50, 118, 26, 154, 80, 143, 169])
        = true := by
  decide!

/-- C8 (amended). `verify_password(s, hash_password(o))` is true exactly when
`s + "salt123"` and `o + "salt123"` have the same `std::hash` value: the
hexadecimal rendering loses nothing, so a secret is rejected against the hash
of every secret whose salted hash differs. -/
theorem verify_password_iff_same_hash (s o : Str) :
    verify_password s (hash_password o) = true ↔ std_hash (s ++ salt) = std_hash (o ++ salt) := by
  simp only [verify_password, hash_password, beq_iff_eq]
  constructor
  · intro h
    exact to_hex_injective _ _ h
  · intro h
    rw [h]

/-! ## Decimal text and `std::stoi` -/

theorem dec_aux_append (fuel : Nat) : ∀ (n : Nat) (acc : Str),
    dec_aux fuel n acc = dec_aux fuel n [] ++ acc := by
  induction fuel with
  | zero => intro n acc; simp [dec_aux]
  | succ fuel ih =>
    intro n acc
    unfold dec_aux
    split
    · simp
    · rw [ih (n / 10) ((48 + n % 10) :: acc), ih (n / 10) [48 + n % 10]]
      simp

theorem dec_aux_digits (fuel : Nat) : ∀ (n : Nat), ∀ c ∈ dec_aux fuel n [], isdigit c = true := by
  induction fuel with
  | zero => intro n c hc; simp [dec_aux] at hc
  | succ fuel ih =>
    intro n c hc
    unfold dec_aux at hc
    split at hc
    · simp at hc
      subst hc
      simp [isdigit]; omega
    · rw [dec_aux_append] at hc
      simp at hc
      rcases hc with hc | hc
      · exact ih _ c hc
      · subst hc
        simp [isdigit]; omega

theorem dec_aux_head (fuel : Nat) : ∀ (n : Nat), n < fuel →
    ∃ d ds, dec_aux fuel n [] = d :: ds ∧ (n = 0 → d = 48 ∧ ds = []) ∧ (0 < n → d ≠ 48) := by
  induction fuel with
  | zero => intro n h; omega
  | succ fuel ih =>
    intro n h
    unfold dec_aux
    split
    · exact ⟨48 + n, [], rfl, fun h0 => ⟨by omega, rfl⟩, fun hp => by omega⟩
    · rename_i h10
      obtain ⟨d, ds, hd, _, h2⟩ := ih (n / 10) (by omega)
      rw [dec_aux_append, hd]
      exact ⟨d, ds ++ [48 + n % 10], by simp, by omega, fun _ => h2 (by omega)⟩

theorem dec_aux_value (fuel : Nat) : ∀ (n : Nat) (acc : Str), n < fuel →
    (dec_aux fuel n acc).foldl (fun a c => 10 * a + (c - 48)) 0
      = acc.foldl (fun a c => 10 * a + (c - 48)) n := by
  induction fuel with
  | zero => intro n acc h; omega
  | succ fuel ih =>
    intro n acc h
    unfold dec_aux
    split
    · simp [List.foldl]
    · rw [ih (n / 10) _ (by omega)]
      simp only [List.foldl]
      congr 1
      omega

theorem dec_digits (n : Nat) : ∀ c ∈ dec n, isdigit c = true := dec_aux_digits _ n

theorem dec_value (n : Nat) : digits_value (dec n) = n := by
  simpa [digits_value, dec] using dec_aux_value (n + 1) n [] (Nat.lt_succ_self n)

theorem dec_head (n : Nat) :
    ∃ d ds, dec n = d :: ds ∧ (n = 0 → d = 48 ∧ ds = []) ∧ (0 < n → d ≠ 48) :=
  dec_aux_head (n + 1) n (Nat.lt_succ_self n)

theorem takeWhile_digits_append (ds rest : Str) (c : Nat) (hds : ∀ x ∈ ds, isdigit x = true)
    (hc : isdigit c = false) :
    (ds ++ c :: rest).takeWhile isdigit = ds ∧ (ds ++ c :: rest).dropWhile isdigit = c :: rest := by
  induction ds with
  | nil => simp [List.takeWhile, List.dropWhile, hc]
  | cons d ds ih =>
    have hd := hds d (by simp)
    have := ih (fun x hx => hds x (by simp [hx]))
    simp [List.takeWhile, List.dropWhile, hd, this]

theorem takeWhile_digits_all (ds : Str) (hds : ∀ x ∈ ds, isdigit x = true) :
    ds.takeWhile isdigit = ds := by
  induction ds with
  | nil => rfl
  | cons d ds ih =>
    have hd := hds d (by simp)
    simp [List.takeWhile, hd, ih (fun x hx => hds x (by simp [hx]))]

/-- `std::stoi` reads back what `std::to_string` wrote for an `int`. -/
theorem stoi_to_string (v : Int) (hlo : -2 ^ 31 ≤ v) (hhi : v < 2 ^ 31) :
    stoi (to_string v) = .ok v := by
  unfold to_string
  split
  · rename_i hneg
    have hdig := dec_digits v.natAbs
    have hval := dec_value v.natAbs
    have htw := takeWhile_digits_all _ hdig
    obtain ⟨d, ds, hd, _, _⟩ := dec_head v.natAbs
    have hne : dec v.natAbs ≠ [] := by simp [hd]
    unfold stoi stoi_digits stoi_sign
    simp [List.dropWhile, isspace, htw, hval, hne]
    rw [abs_of_neg hneg, if_neg (by omega)]
    simp
  · rename_i hneg
    have hdig := dec_digits v.toNat
    have hval := dec_value v.toNat
    obtain ⟨d, ds, hd, _, _⟩ := dec_head v.toNat
    have htw := takeWhile_digits_all _ hdig
    have hdd : isdigit d = true := hdig d (by simp [hd])
    have hd1 : 48 ≤ d ∧ d ≤ 57 := by simpa [isdigit] using hdd
    unfold stoi stoi_digits stoi_sign
    rw [hd] at htw hval
    rw [hd]
    have hsp : isspace d = false := by simp [isspace]; omega
    have h45 : d ≠ 45 := by omega
    have h43 : d ≠ 43 := by omega
    simp [List.dropWhile, hsp, h45, h43, htw, hval]
    rw [if_neg (by omega)]
    simp
    omega

/-! ## The segment encoding and its decoding -/

theorem getline_segments_append (s : Str) (hs : ∀ c ∈ s, c ≠ 46) : ∀ (cur rest : Str),
    getline_segments (s ++ 46 :: rest) cur = (cur ++ s) :: getline_segments rest [] := by
  induction s with
  | nil => intro cur rest; simp [getline_segments]
  | cons c s ih =>
    intro cur rest
    have hc : c ≠ 46 := hs c (by simp)
    simp [getline_segments, hc, ih (fun x hx => hs x (by simp [hx]))]

theorem to_string_chars (v : Int) : ∀ c ∈ to_string v, c = 45 ∨ isdigit c = true := by
  intro c hc
  unfold to_string at hc
  split at hc
  · simp at hc
    rcases hc with hc | hc
    · exact Or.inl hc
    · exact Or.inr (dec_digits _ c hc)
  · exact Or.inr (dec_digits _ c hc)

theorem to_string_no_dot (v : Int) : ∀ c ∈ to_string v, c ≠ 46 := by
  intro c hc
  rcases to_string_chars v c hc with h | h
  · omega
  · simp [isdigit] at h; omega

theorem to_string_ne_nil (v : Int) : to_string v ≠ [] := by
  unfold to_string
  split
  · simp
  · obtain ⟨d, ds, hd, _, _⟩ := dec_head v.toNat
    simp [hd]

theorem getline_segments_encode (t : Str) :
    getline_segments (encode t) [] = t.map (fun c => to_string (char_to_int c)) := by
  induction t with
  | nil => simp [encode, getline_segments]
  | cons c t ih =>
    simp only [encode, List.map]
    rw [getline_segments_append _ (to_string_no_dot _), ih]
    simp

theorem int_to_char_char_to_int (c : Nat) (h : c < 256) : int_to_char (char_to_int c) = c := by
  unfold int_to_char char_to_int
  split <;> omega

theorem decode_segments_map (t : Str) (ht : ∀ c ∈ t, c < 256) : ∀ (acc : Str),
    decode_segments (t.map (fun c => to_string (char_to_int c))) acc = .ok (acc ++ t) := by
  induction t with
  | nil => intro acc; simp [decode_segments]
  | cons c t ih =>
    intro acc
    have hc : c < 256 := ht c (by simp)
    have hst : stoi (to_string (char_to_int c)) = .ok (char_to_int c) := by
      apply stoi_to_string <;> (unfold char_to_int; split <;> omega)
    simp only [List.map, decode_segments]
    simp [to_string_ne_nil, hst, int_to_char_char_to_int c hc,
      ih (fun x hx => ht x (by simp [hx]))]

/-- Decoding the segments of `encode t` gives `t` back. -/
theorem decode_encode (t : Str) (ht : ∀ c ∈ t, c < 256) :
    decode_segments (getline_segments (encode t) []) [] = .ok t := by
  rw [getline_segments_encode, decode_segments_map t ht]
  simp

/-! ## Strings through the serializer and the lexer -/

theorem get_codepoint_control : ∀ c, c < 32 →
    get_codepoint 48 48 (hex_digit (c / 16)) (hex_digit (c % 16)) = some c := by
  decide

/-- The lexer reads the escape written for an ASCII character back as that character. -/
theorem string_step_escape_ascii (c : Nat) (hc : c ≤ 0x7F) (tail : Str) :
    ∃ x out, escape_ascii c = x :: out ∧ x ≠ 34 ∧ string_step x (out ++ tail) = some ([c], tail) := by
  unfold escape_ascii
  by_cases h8 : c = 8
  · subst h8; exact ⟨92, [98], rfl, by decide, rfl⟩
  by_cases h9 : c = 9
  · subst h9; exact ⟨92, [116], rfl, by decide, rfl⟩
  by_cases h10 : c = 10
  · subst h10; exact ⟨92, [110], rfl, by decide, rfl⟩
  by_cases h12 : c = 12
  · subst h12; exact ⟨92, [102], rfl, by decide, rfl⟩
  by_cases h13 : c = 13
  · subst h13; exact ⟨92, [114], rfl, by decide, rfl⟩
  by_cases h34 : c = 34
  · subst h34; exact ⟨92, [34], rfl, by decide, rfl⟩
  by_cases h92 : c = 92
  · subst h92; exact ⟨92, [92], rfl, by decide, rfl⟩
  by_cases h1f : c ≤ 0x1F
  · refine ⟨92, [117, 48, 48, hex_digit (c / 16), hex_digit (c % 16)], by simp [*], by decide, ?_⟩
    have hcp := get_codepoint_control c (by omega)
    have e1 : in_range c 0xD800 0xDBFF = false := by simp [in_range]; omega
    have e2 : in_range c 0xDC00 0xDFFF = false := by simp [in_range]; omega
    have e3 : encode_utf8 c = [c] := by simp [encode_utf8]; omega
    simp [string_step, unicode_escape, hcp, e1, e2, e3]
  · refine ⟨c, [], by simp [*], h34, ?_⟩
    simp [string_step, h92, h1f, hc]

/-- The lexer accepts a multi-byte sequence that the serializer accepted. -/
theorem utf8_sequence_split (c : Nat) (rest bytes rest1 : Str)
    (h : utf8_sequence c rest = some (bytes, rest1)) :
    ∃ bs, bytes = c :: bs ∧ rest = bs ++ rest1 ∧ bs ≠ [] ∧
      ∀ tail, utf8_sequence c (bs ++ tail) = some (c :: bs, tail) := by
  unfold utf8_sequence at h
  cases ht : utf8_tail c with
  | none => simp [ht] at h
  | some t =>
    obtain ⟨n, lo, hi⟩ := t
    simp only [ht] at h
    split at h
    · rename_i hcond
      simp only [Option.some.injEq, Prod.mk.injEq] at h
      obtain ⟨h1, h2⟩ := h
      have hn : 1 ≤ n := by
        unfold utf8_tail at ht
        split at ht
        · simp at ht; omega
        split at ht
        · simp at ht; omega
        split at ht
        · simp at ht; omega
        split at ht
        · simp at ht; omega
        split at ht
        · simp at ht; omega
        split at ht
        · simp at ht; omega
        split at ht
        · simp at ht; omega
        · simp at ht
      simp only [Bool.and_eq_true, decide_eq_true_eq] at hcond
      obtain ⟨⟨hlen, hhead⟩, htail⟩ := hcond
      refine ⟨rest.take n, h1.symm, ?_, ?_, ?_⟩
      · rw [← h2]; exact (List.take_append_drop n rest).symm
      · intro hnil
        rw [hnil] at hlen
        simp at hlen
        omega
      · intro tail
        unfold utf8_sequence
        simp only [ht]
        have htk : (List.take n rest ++ tail).take n = List.take n rest := by
          rw [List.take_append_of_le_length (by omega)]
          exact List.take_eq_self_iff _ |>.mpr (by omega)
        have hdr : (List.take n rest ++ tail).drop n = tail := by
          rw [List.drop_append_of_le_length (by omega)]
          rw [List.drop_eq_nil_of_le (by omega)]
          simp
        simp only [htk, hdr]
        simp [hlen, hhead, htail]
    · simp at h

theorem utf8_tail_lead (c : Nat) (t : Nat × Nat × Nat) (h : utf8_tail c = some t) :
    0xC2 ≤ c ∧ c ≤ 0xF4 := by
  unfold utf8_tail at h
  simp only [in_range, Bool.and_eq_true, decide_eq_true_eq, Bool.or_eq_true] at h
  split at h
  · omega
  split at h
  · omega
  split at h
  · omega
  split at h
  · omega
  split at h
  · omega
  split at h
  · omega
  split at h
  · omega
  · simp at h

theorem scan_string_step (k c : Nat) (rest acc bytes rest1 : Str) (hc : c ≠ 34)
    (h : string_step c rest = some (bytes, rest1)) :
    scan_string (k + 1) (c :: rest) acc = scan_string k rest1 (acc ++ bytes) := by
  simp [scan_string, hc, h]

/-- The lexer reads a string written by the serializer back unchanged. -/
theorem scan_string_dump_escaped (fuel : Nat) : ∀ (u esc tail acc : Str) (fuel1 : Nat),
    u.length ≤ fuel → dump_escaped fuel u = .ok esc → esc.length + 1 ≤ fuel1 →
    scan_string fuel1 (esc ++ 34 :: tail) acc = .ok (acc ++ u, tail) := by
  induction fuel with
  | zero =>
    intro u esc tail acc fuel1 hu h hf
    have hu0 : u = [] := List.length_eq_zero.mp (by omega)
    subst hu0
    simp only [dump_escaped, Except.ok.injEq] at h
    subst h
    obtain ⟨k, rfl⟩ : ∃ k, fuel1 = k + 1 := ⟨fuel1 - 1, by omega⟩
    simp [scan_string]
  | succ fuel ih =>
    intro u esc tail acc fuel1 hu h hf
    obtain ⟨k, rfl⟩ : ∃ k, fuel1 = k + 1 := ⟨fuel1 - 1, by omega⟩
    match u, hu, h with
    | [], _, h =>
      simp only [dump_escaped, Except.ok.injEq] at h
      subst h
      simp [scan_string]
    | c :: u1, hu, h =>
      simp only [dump_escaped] at h
      split at h
      · rename_i hc
        cases hr : dump_escaped fuel u1 with
        | error e => simp [hr] at h
        | ok r =>
          simp only [hr, Except.ok.injEq] at h
          subst h
          obtain ⟨x, out, hout, hx, hstep⟩ := string_step_escape_ascii c hc (r ++ 34 :: tail)
          have e : escape_ascii c ++ r ++ 34 :: tail = x :: (out ++ (r ++ 34 :: tail)) := by
            rw [hout]; simp
          rw [e, scan_string_step k x _ acc _ _ hx hstep]
          have hlen : r.length + 1 ≤ k := by
            rw [hout] at hf
            simp at hf
            omega
          rw [ih u1 r tail (acc ++ [c]) k (by simp at hu; omega) hr hlen]
          simp
      · rename_i hc
        cases hs : utf8_sequence c u1 with
        | none => simp [hs] at h
        | some p =>
          obtain ⟨bytes, rest1⟩ := p
          simp only [hs] at h
          cases hr : dump_escaped fuel rest1 with
          | error e => simp [hr] at h
          | ok r =>
            simp only [hr, Except.ok.injEq] at h
            subst h
            obtain ⟨bs, hb1, hb2, _, hb3⟩ := utf8_sequence_split c u1 bytes rest1 hs
            subst hb1
            have hc34 : c ≠ 34 := by omega
            have hc92 : c ≠ 92 := by omega
            have hc1f : ¬ c ≤ 0x1F := by omega
            have hstep : string_step c (bs ++ (r ++ 34 :: tail)) = some (c :: bs, r ++ 34 :: tail) := by
              simp only [string_step, hc34, hc92, hc1f, hc, if_false]
              exact hb3 _
            have e : c :: bs ++ r ++ 34 :: tail = c :: (bs ++ (r ++ 34 :: tail)) := by simp
            rw [e, scan_string_step k c _ acc _ _ hc34 hstep]
            have hlen : r.length + 1 ≤ k := by
              simp at hf
              omega
            have hu1 : rest1.length ≤ fuel := by
              rw [hb2] at hu
              simp at hu
              omega
            rw [ih rest1 r tail (acc ++ c :: bs) k hu1 hr hlen, hb2]
            simp

/-! ## The fuel of the JSON model is never exhausted -/

theorem utf8_sequence_length (c : Nat) (rest bytes rest1 : Str)
    (h : utf8_sequence c rest = some (bytes, rest1)) : rest1.length ≤ rest.length := by
  obtain ⟨bs, _, hb, _, _⟩ := utf8_sequence_split c rest bytes rest1 h
  rw [hb]; simp

theorem unicode_escape_length (rest bytes rest1 : Str)
    (h : unicode_escape rest = some (bytes, rest1)) : rest1.length ≤ rest.length := by
  unfold unicode_escape at h
  split at h
  · rename_i h1 h2 h3 h4 rest2
    split at h
    · simp at h
    · split at h
      · split at h
        · split at h
          · rename_i l1 l2 l3 l4 rest3 hdrop
            split at h
            · simp at h
            · split at h
              · simp only [Option.some.injEq, Prod.mk.injEq] at h
                have hl : (rest2.drop 2).length = rest3.length + 4 := by rw [hdrop]; simp
                rw [List.length_drop] at hl
                rw [← h.2]
                simp
                omega
              · simp at h
          · simp at h
        · simp at h
      · split at h
        · simp at h
        · simp only [Option.some.injEq, Prod.mk.injEq] at h
          rw [← h.2]
          simp
          omega
  · simp at h

theorem string_step_length (c : Nat) (rest bytes rest1 : Str)
    (h : string_step c rest = some (bytes, rest1)) : rest1.length ≤ rest.length := by
  unfold string_step at h
  split at h
  · split at h
    · simp at h
    · rename_i e rest2
      split at h
      · have := unicode_escape_length _ _ _ h
        simp
        omega
      · split at h
        · simp only [Option.some.injEq, Prod.mk.injEq] at h
          rw [← h.2]
          simp
        · simp at h
  · split at h
    · simp at h
    · split at h
      · simp only [Option.some.injEq, Prod.mk.injEq] at h
        rw [← h.2]
      · exact utf8_sequence_length c rest bytes rest1 h

/-- More fuel than the length of the input does not change what `scan_string` returns. -/
theorem scan_string_fuel (fuel : Nat) : ∀ (inp acc : Str), inp.length ≤ fuel →
    scan_string (fuel + 1) inp acc = scan_string fuel inp acc := by
  induction fuel with
  | zero =>
    intro inp acc h
    have : inp = [] := List.length_eq_zero.mp (by omega)
    subst this
    rfl
  | succ fuel ih =>
    intro inp acc h
    match inp, h with
    | [], _ => rfl
    | c :: rest, h =>
      simp only [scan_string]
      split
      · rfl
      · cases hs : string_step c rest with
        | none => rfl
        | some p =>
          obtain ⟨bytes, rest1⟩ := p
          have hl := string_step_length c rest bytes rest1 hs
          simp only
          exact ih rest1 _ (by simp at h; omega)

theorem scan_string_length (fuel : Nat) : ∀ (inp acc s rest : Str),
    scan_string fuel inp acc = .ok (s, rest) → rest.length < inp.length := by
  induction fuel with
  | zero => intro inp acc s rest h; simp [scan_string] at h
  | succ fuel ih =>
    intro inp acc s rest h
    match inp, h with
    | [], h => simp [scan_string] at h
    | c :: rest0, h =>
      simp only [scan_string] at h
      split at h
      · simp only [Except.ok.injEq, Prod.mk.injEq] at h
        rw [← h.2]; simp
      · cases hs : string_step c rest0 with
        | none => simp [hs] at h
        | some p =>
          obtain ⟨bytes, rest1⟩ := p
          have hl := string_step_length c rest0 bytes rest1 hs
          simp only [hs] at h
          have := ih rest1 _ s rest h
          simp
          omega

theorem scan_exponent_length (inp ex rest : Str) (h : scan_exponent inp = .ok (ex, rest)) :
    rest.length ≤ inp.length := by
  unfold scan_exponent at h
  dsimp only at h
  repeat' split at h
  all_goals try (simp at h; done)
  all_goals
    simp only [Except.ok.injEq, Prod.mk.injEq] at h
    obtain ⟨_, hr⟩ := h
    subst hr
    exact ((List.dropWhile_suffix _).trans (List.drop_suffix _ _)).length_le

theorem scan_number_length (inp : Str) (tok : Token) (rest : Str)
    (h : scan_number inp = .ok (tok, rest)) : rest.length < inp.length := by
  have a1 : ∀ l : Str, (l.dropWhile isdigit).length ≤ l.length :=
    fun l => (List.dropWhile_suffix _).length_le
  have a2 : ∀ l : Str, l.tail.length ≤ l.length := fun l => (List.tail_suffix l).length_le
  unfold scan_number at h
  dsimp only at h
  split at h
  · simp at h
  rename_i d s1 hs0
  have b0 : s1.length < inp.length := by
    have e := congrArg List.length hs0
    have := a2 inp
    split at e <;> simp at e <;> omega
  split at h
  · simp at h
  generalize hs2 : (if d = 48 then s1 else List.dropWhile isdigit s1) = s2 at h
  have b2 : s2.length ≤ s1.length := by
    rw [← hs2]
    have := a1 s1
    split <;> omega
  generalize (if d = 48 then [d] else d :: List.takeWhile isdigit s1) = int_ds at h
  generalize (if (inp.head? == some 45) = true then [45] else ([] : Str)) = sign at h
  split at h
  · rename_i s3
    have b3 : s3.length < s1.length := by
      simp at b2
      omega
    have b4 := a1 s3
    split at h
    · simp at h
    split at h
    · split at h
      · simp at h
      · rename_i ex s5 hex
        have b5 := scan_exponent_length _ _ _ hex
        have := a2 (List.dropWhile isdigit s3)
        simp only [Except.ok.injEq, Prod.mk.injEq] at h
        rw [← h.2]
        omega
    · simp only [Except.ok.injEq, Prod.mk.injEq] at h
      rw [← h.2]
      omega
  · split at h
    · split at h
      · simp at h
      · rename_i ex s5 hex
        have b5 := scan_exponent_length _ _ _ hex
        have := a2 s2
        simp only [Except.ok.injEq, Prod.mk.injEq] at h
        rw [← h.2]
        omega
    · split at h
      · split at h <;>
        · simp only [Except.ok.injEq, Prod.mk.injEq] at h
          rw [← h.2]
          omega
      · split at h <;>
        · simp only [Except.ok.injEq, Prod.mk.injEq] at h
          rw [← h.2]
          omega

theorem scan_literal_length (text : Str) (t tok : Token) (inp rest : Str)
    (h : scan_literal text t inp = .ok (tok, rest)) : rest.length ≤ inp.length := by
  unfold scan_literal at h
  split at h
  · simp only [Except.ok.injEq, Prod.mk.injEq] at h
    rw [← h.2]
    exact (List.drop_suffix _ _).length_le
  · simp at h

/-- A token never gives input back, and every token but the end of the input
reads at least one character. -/
theorem scan_length (inp : Str) (tok : Token) (rest : Str) (h : scan inp = .ok (tok, rest)) :
    rest.length ≤ inp.length ∧ (tok ≠ .end_of_input → rest.length < inp.length) := by
  unfold scan at h
  have hd : (inp.dropWhile is_json_space).length ≤ inp.length :=
    (List.dropWhile_suffix _).length_le
  generalize inp.dropWhile is_json_space = l at h hd
  cases l with
  | nil =>
    simp only [Except.ok.injEq, Prod.mk.injEq] at h
    rw [← h.1, ← h.2]
    simp
  | cons c rest0 =>
    simp only [List.length_cons] at hd
    have key : rest.length ≤ rest0.length := by
      dsimp only at h
      by_cases e1 : c = 91
      · rw [if_pos e1] at h
        simp only [Except.ok.injEq, Prod.mk.injEq] at h
        rw [← h.2]
      rw [if_neg e1] at h
      by_cases e2 : c = 93
      · rw [if_pos e2] at h
        simp only [Except.ok.injEq, Prod.mk.injEq] at h
        rw [← h.2]
      rw [if_neg e2] at h
      by_cases e3 : c = 123
      · rw [if_pos e3] at h
        simp only [Except.ok.injEq, Prod.mk.injEq] at h
        rw [← h.2]
      rw [if_neg e3] at h
      by_cases e4 : c = 125
      · rw [if_pos e4] at h
        simp only [Except.ok.injEq, Prod.mk.injEq] at h
        rw [← h.2]
      rw [if_neg e4] at h
      by_cases e5 : c = 58
      · rw [if_pos e5] at h
        simp only [Except.ok.injEq, Prod.mk.injEq] at h
        rw [← h.2]
      rw [if_neg e5] at h
      by_cases e6 : c = 44
      · rw [if_pos e6] at h
        simp only [Except.ok.injEq, Prod.mk.injEq] at h
        rw [← h.2]
      rw [if_neg e6] at h
      by_cases e7 : c = 116
      · rw [if_pos e7] at h
        exact scan_literal_length _ _ _ _ _ h
      rw [if_neg e7] at h
      by_cases e8 : c = 102
      · rw [if_pos e8] at h
        exact scan_literal_length _ _ _ _ _ h
      rw [if_neg e8] at h
      by_cases e9 : c = 110
      · rw [if_pos e9] at h
        exact scan_literal_length _ _ _ _ _ h
      rw [if_neg e9] at h
      by_cases e10 : c = 34
      · rw [if_pos e10] at h
        cases hss : scan_string rest0.length rest0 [] with
        | error e => rw [hss] at h; simp at h
        | ok p =>
          rw [hss] at h
          have := scan_string_length _ _ _ _ _ hss
          simp only [Except.ok.injEq, Prod.mk.injEq] at h
          rw [← h.2]
          omega
      rw [if_neg e10] at h
      by_cases e11 : (decide (c = 45) || isdigit c) = true
      · rw [if_pos e11] at h
        have := scan_number_length _ _ _ h
        simp only [List.length_cons] at this
        omega
      rw [if_neg e11] at h
      by_cases e12 : c = 0
      · rw [if_pos e12] at h
        simp only [Except.ok.injEq, Prod.mk.injEq] at h
        rw [← h.2]
      · rw [if_neg e12] at h
        simp at h
    exact ⟨by omega, fun _ => by omega⟩

theorem scan_length_le (inp : Str) (tok : Token) (rest : Str) (h : scan inp = .ok (tok, rest)) :
    rest.length ≤ inp.length := (scan_length inp tok rest h).1

theorem parse_step_length (F : FloatSem) (fuel : Nat) : ∀ (mode : Nat) (inp : Str)
    (arr : List Json) (obj : List (Str × Json)) (v : Json) (rest : Str),
    parse_step F fuel mode inp arr obj = .ok (v, rest) → rest.length ≤ inp.length := by
  induction fuel with
  | zero => intro mode inp arr obj v rest h; simp [parse_step] at h
  | succ fuel ih =>
    intro mode inp arr obj v rest h
    rw [parse_step] at h
    split at h
    · -- one value
      cases hs : scan inp with
      | error e => rw [hs] at h; simp at h
      | ok p =>
        obtain ⟨tok, r1⟩ := p
        have l1 := scan_length_le _ _ _ hs
        rw [hs] at h
        cases tok
        case begin_array =>
          dsimp only at h
          split at h
          · rename_i r2 hs2
            have l2 := scan_length_le _ _ _ hs2
            simp only [Except.ok.injEq, Prod.mk.injEq] at h
            rw [← h.2]; omega
          · have := ih _ _ _ _ _ _ h
            omega
        case begin_object =>
          dsimp only at h
          split at h
          · rename_i r2 hs2
            have l2 := scan_length_le _ _ _ hs2
            simp only [Except.ok.injEq, Prod.mk.injEq] at h
            rw [← h.2]; omega
          · have := ih _ _ _ _ _ _ h
            omega
        case value_float text =>
          dsimp only at h
          split at h
          · simp only [Except.ok.injEq, Prod.mk.injEq] at h
            rw [← h.2]; omega
          · simp at h
        all_goals
          dsimp only at h
          first
            | (simp at h; done)
            | (simp only [Except.ok.injEq, Prod.mk.injEq] at h
               rw [← h.2]; omega)
    · split at h
      · -- the rest of an array
        cases hv : parse_step F fuel 0 inp [] [] with
        | error e => rw [hv] at h; simp at h
        | ok p =>
          obtain ⟨v1, r1⟩ := p
          have l1 := ih _ _ _ _ _ _ hv
          rw [hv] at h
          dsimp only at h
          cases hs2 : scan r1 with
          | error e => rw [hs2] at h; simp at h
          | ok q =>
            obtain ⟨tok, r2⟩ := q
            have l2 := scan_length_le _ _ _ hs2
            rw [hs2] at h
            cases tok
            case value_separator =>
              dsimp only at h
              have := ih _ _ _ _ _ _ h
              omega
            all_goals
              dsimp only at h
              first
                | (simp at h; done)
                | (simp only [Except.ok.injEq, Prod.mk.injEq] at h
                   rw [← h.2]; omega)
      · -- the rest of an object
        cases hs1 : scan inp with
        | error e => rw [hs1] at h; simp at h
        | ok p =>
          obtain ⟨tok1, r1⟩ := p
          have l1 := scan_length_le _ _ _ hs1
          rw [hs1] at h
          cases tok1
          case value_string key =>
            dsimp only at h
            cases hs2 : scan r1 with
            | error e => rw [hs2] at h; simp at h
            | ok q =>
              obtain ⟨tok2, r2⟩ := q
              have l2 := scan_length_le _ _ _ hs2
              rw [hs2] at h
              cases tok2
              case name_separator =>
                dsimp only at h
                cases hv : parse_step F fuel 0 r2 [] [] with
                | error e => rw [hv] at h; simp at h
                | ok w =>
                  obtain ⟨v1, r3⟩ := w
                  have l3 := ih _ _ _ _ _ _ hv
                  rw [hv] at h
                  dsimp only at h
                  cases hs4 : scan r3 with
                  | error e => rw [hs4] at h; simp at h
                  | ok z =>
                    obtain ⟨tok4, r4⟩ := z
                    have l4 := scan_length_le _ _ _ hs4
                    rw [hs4] at h
                    cases tok4
                    case value_separator =>
                      dsimp only at h
                      have := ih _ _ _ _ _ _ h
                      omega
                    all_goals
                      dsimp only at h
                      first
                        | (simp at h; done)
                        | (simp only [Except.ok.injEq, Prod.mk.injEq] at h
                           rw [← h.2]; omega)
              all_goals
                dsimp only at h
                simp at h
          all_goals
            dsimp only at h
            simp at h

/-- One more unit of fuel than `2 * length + 2` changes nothing: every two
consecutive parser steps read at least one character. -/
theorem parse_step_fuel (F : FloatSem) (fuel : Nat) : ∀ (mode : Nat) (inp : Str)
    (arr : List Json) (obj : List (Str × Json)),
    2 * inp.length + (if mode = 0 then 1 else 2) ≤ fuel →
    parse_step F (fuel + 1) mode inp arr obj = parse_step F fuel mode inp arr obj := by
  induction fuel with
  | zero =>
    intro mode inp arr obj hb
    split at hb <;> omega
  | succ fuel ih =>
    intro mode inp arr obj hb
    conv_lhs => rw [parse_step]
    conv_rhs => rw [parse_step]
    by_cases hm0 : mode = 0
    · subst hm0
      simp only [if_true] at hb ⊢
      cases hs : scan inp with
      | error e => rfl
      | ok p =>
        obtain ⟨tok, r1⟩ := p
        have l1 := scan_length _ _ _ hs
        cases tok with
        | begin_array =>
          have l1s := l1.2 (by simp)
          simp only
          rw [ih 1 r1 [] [] (by simp; omega)]
        | begin_object =>
          have l1s := l1.2 (by simp)
          simp only
          rw [ih 2 r1 [] [] (by simp; omega)]
        | _ => rfl
    · simp only [hm0, if_false] at hb ⊢
      by_cases hm1 : mode = 1
      · subst hm1
        simp only [if_true]
        rw [ih 0 inp [] [] (by simp; omega)]
        cases hv : parse_step F fuel 0 inp [] [] with
        | error e => rfl
        | ok p =>
          obtain ⟨v1, r1⟩ := p
          have l1 := parse_step_length F _ _ _ _ _ _ _ hv
          simp only
          cases hs2 : scan r1 with
          | error e => rfl
          | ok q =>
            obtain ⟨tok, r2⟩ := q
            have l2 := scan_length _ _ _ hs2
            cases tok with
            | value_separator =>
              have l2s := l2.2 (by simp)
              simp only
              rw [ih 1 r2 _ [] (by simp; omega)]
            | _ => rfl
      · simp only [hm1, if_false]
        cases hs1 : scan inp with
        | error e => rfl
        | ok p =>
          obtain ⟨tok1, r1⟩ := p
          have l1 := scan_length_le _ _ _ hs1
          cases tok1 with
          | value_string key =>
            simp only
            cases hs2 : scan r1 with
            | error e => rfl
            | ok q =>
              obtain ⟨tok2, r2⟩ := q
              have l2 := scan_length_le _ _ _ hs2
              cases tok2 with
              | name_separator =>
                simp only
                rw [ih 0 r2 [] [] (by simp; omega)]
                cases hv : parse_step F fuel 0 r2 [] [] with
                | error e => rfl
                | ok w =>
                  obtain ⟨v1, r3⟩ := w
                  have l3 := parse_step_length F _ _ _ _ _ _ _ hv
                  simp only
                  cases hs4 : scan r3 with
                  | error e => rfl
                  | ok z =>
                    obtain ⟨tok4, r4⟩ := z
                    have l4 := scan_length _ _ _ hs4
                    cases tok4 with
                    | value_separator =>
                      have l4s := l4.2 (by simp)
                      simp only
                      rw [ih 2 r4 [] _ (by simp; omega)]
                    | _ => rfl
              | _ => rfl
          | _ => rfl

/-- The fuel `parse` gives the parser is never exhausted: any larger amount
gives the same result. -/
theorem parse_fuel_enough (F : FloatSem) (inp : Str) (k : Nat) :
    parse_step F (2 * inp.length + 2 + k) 0 inp [] [] = parse_step F (2 * inp.length + 2) 0 inp [] [] := by
  induction k with
  | zero => rfl
  | succ k ih =>
    rw [← ih]
    exact parse_step_fuel F _ 0 inp [] [] (by simp; omega)

/-- More fuel than the length of the input does not change what `dump_escaped` returns. -/
theorem dump_escaped_fuel (fuel : Nat) : ∀ (u : Str), u.length ≤ fuel →
    dump_escaped (fuel + 1) u = dump_escaped fuel u := by
  induction fuel with
  | zero =>
    intro u h
    have : u = [] := List.length_eq_zero.mp (by omega)
    subst this
    rfl
  | succ fuel ih =>
    intro u h
    match u, h with
    | [], _ => rfl
    | c :: rest, h =>
      simp only [dump_escaped]
      split
      · rw [ih rest (by simp at h; omega)]
      · cases hs : utf8_sequence c rest with
        | none => rfl
        | some p =>
          obtain ⟨bytes, rest1⟩ := p
          have hl := utf8_sequence_length c rest bytes rest1 hs
          simp only
          rw [ih rest1 (by simp at h; omega)]

/-! ## Integers through the serializer and the lexer -/

theorem scan_number_dec (n : Nat) (hn : n < 2 ^ 64) (c : Nat) (rest : Str)
    (hc : c = 44 ∨ c = 125) :
    scan_number (dec n ++ c :: rest) = .ok (.value_unsigned n, c :: rest) := by
  have hdig := dec_digits n
  have hval := dec_value n
  obtain ⟨d, ds, hd, h0, hpos⟩ := dec_head n
  rw [hd] at hdig hval
  have hdd : isdigit d = true := hdig d (by simp)
  have hd1 : 48 ≤ d ∧ d ≤ 57 := by simpa [isdigit] using hdd
  have h45 : d ≠ 45 := by omega
  have hcd : isdigit c = false := by
    rcases hc with hc | hc <;> subst hc <;> decide
  have htd := takeWhile_digits_append ds rest c (fun x hx => hdig x (by simp [hx])) hcd
  rw [hd]
  unfold scan_number
  by_cases hz : n = 0
  · obtain ⟨hd48, hds⟩ := h0 hz
    subst hd48 hds hz
    rcases hc with hc | hc <;> subst hc <;> simp [isdigit, digits_value]
  · have hne : d ≠ 48 := hpos (by omega)
    have hn1 : n < 18446744073709551616 := by omega
    rcases hc with hc | hc <;> subst hc <;>
      simp [h45, hdd, hne, htd.1, htd.2, hval, hn1]

theorem scan_number_neg_dec (n : Nat) (hpos : 0 < n) (hn : n ≤ 2 ^ 63) (c : Nat) (rest : Str)
    (hc : c = 44 ∨ c = 125) :
    scan_number (45 :: dec n ++ c :: rest) = .ok (.value_integer (-(n : Int)), c :: rest) := by
  have hdig := dec_digits n
  have hval := dec_value n
  obtain ⟨d, ds, hd, _, hp⟩ := dec_head n
  rw [hd] at hdig hval
  have hdd : isdigit d = true := hdig d (by simp)
  have hcd : isdigit c = false := by
    rcases hc with hc | hc <;> subst hc <;> decide
  have htd := takeWhile_digits_append ds rest c (fun x hx => hdig x (by simp [hx])) hcd
  have hne : d ≠ 48 := hp hpos
  rw [hd]
  unfold scan_number
  have hn1 : n ≤ 9223372036854775808 := by omega
  rcases hc with hc | hc <;> subst hc <;>
    simp [hdd, hne, htd.1, htd.2, hval, hn1]

/-- The lexer reads the text of a 64-bit integer back as an integer token: unsigned
when there is no sign, signed otherwise. -/
theorem scan_to_string (v : Int) (hlo : -2 ^ 63 ≤ v) (hhi : v < 2 ^ 64) (c : Nat) (rest : Str)
    (hc : c = 44 ∨ c = 125) :
    (0 ≤ v ∧ scan (to_string v ++ c :: rest) = .ok (.value_unsigned v.toNat, c :: rest)) ∨
    (v < 0 ∧ scan (to_string v ++ c :: rest) = .ok (.value_integer v, c :: rest)) := by
  by_cases hneg : v < 0
  · right
    refine ⟨hneg, ?_⟩
    have h := scan_number_neg_dec v.natAbs (by omega) (by omega) c rest hc
    have hv : -(v.natAbs : Int) = v := by omega
    rw [hv] at h
    simp only [to_string, hneg, if_true, List.cons_append]
    unfold scan
    simp only [List.cons_append] at h
    simp [List.dropWhile, is_json_space, h]
  · left
    refine ⟨by omega, ?_⟩
    have h := scan_number_dec v.toNat (by omega) c rest hc
    obtain ⟨d, ds, hd, _, _⟩ := dec_head v.toNat
    have hdd : isdigit d = true := dec_digits v.toNat d (by simp [hd])
    have hd1 : 48 ≤ d ∧ d ≤ 57 := by simpa [isdigit] using hdd
    simp only [to_string, hneg, if_false]
    rw [hd] at h ⊢
    have hsp : is_json_space d = false := by simp [is_json_space]; omega
    unfold scan
    simp only [List.cons_append, List.dropWhile, hsp]
    have e1 : d ≠ 91 := by omega
    have e2 : d ≠ 93 := by omega
    have e3 : d ≠ 123 := by omega
    have e4 : d ≠ 125 := by omega
    have e5 : d ≠ 58 := by omega
    have e6 : d ≠ 44 := by omega
    have e7 : d ≠ 116 := by omega
    have e8 : d ≠ 102 := by omega
    have e9 : d ≠ 110 := by omega
    have e10 : d ≠ 34 := by omega
    simp only [e1, e2, e3, e4, e5, e6, e7, e8, e9, e10, if_false]
    simp only [List.cons_append] at h
    simp [hdd, h]

/-! ## The payload through the serializer and the parser -/

theorem scan_begin_object (r : Str) : scan (123 :: r) = .ok (.begin_object, r) := rfl

theorem scan_end_object (r : Str) : scan (125 :: r) = .ok (.end_object, r) := rfl

theorem scan_name_separator (r : Str) : scan (58 :: r) = .ok (.name_separator, r) := rfl

theorem scan_value_separator (r : Str) : scan (44 :: r) = .ok (.value_separator, r) := rfl

theorem scan_nil : scan [] = .ok (.end_of_input, []) := rfl

/-- The lexer reads a quoted string written by the serializer as a string token. -/
theorem scan_quoted (u esc tail : Str) (h : dump_escaped u.length u = .ok esc) :
    scan (34 :: (esc ++ 34 :: tail)) = .ok (.value_string u, tail) := by
  have hs := scan_string_dump_escaped u.length u esc tail [] (esc ++ 34 :: tail).length
    (Nat.le_refl _) h (by simp)
  simp only [List.nil_append] at hs
  unfold scan
  simp only [List.dropWhile, is_json_space]
  simp only [show ((34 : Nat) == 32 || (34 : Nat) == 9 || (34 : Nat) == 10 || (34 : Nat) == 13) = false
    by decide]
  simp only [show (34 : Nat) ≠ 91 by decide, show (34 : Nat) ≠ 93 by decide,
    show (34 : Nat) ≠ 123 by decide, show (34 : Nat) ≠ 125 by decide,
    show (34 : Nat) ≠ 58 by decide, show (34 : Nat) ≠ 44 by decide,
    show (34 : Nat) ≠ 116 by decide, show (34 : Nat) ≠ 102 by decide,
    show (34 : Nat) ≠ 110 by decide, if_false, if_true, hs]

theorem parse_step_string (F : FloatSem) (k : Nat) (u esc tail : Str) (arr : List Json)
    (obj : List (Str × Json)) (h : dump_escaped u.length u = .ok esc) :
    parse_step F (k + 1) 0 (34 :: (esc ++ 34 :: tail)) arr obj = .ok (.string u, tail) := by
  rw [parse_step]
  simp [scan_quoted u esc tail h]

theorem parse_step_integer (F : FloatSem) (k : Nat) (v : Int) (hlo : -2 ^ 63 ≤ v)
    (hhi : v < 2 ^ 64) (c : Nat) (rest : Str) (hc : c = 44 ∨ c = 125) (arr : List Json)
    (obj : List (Str × Json)) :
    ∃ j, parse_step F (k + 1) 0 (to_string v ++ c :: rest) arr obj = .ok (j, c :: rest) ∧
      ((0 ≤ v ∧ j = .number_unsigned v.toNat) ∨ (v < 0 ∧ j = .number_integer v)) := by
  rcases scan_to_string v hlo hhi c rest hc with ⟨h0, hs⟩ | ⟨h0, hs⟩
  · refine ⟨.number_unsigned v.toNat, ?_, Or.inl ⟨h0, rfl⟩⟩
    rw [parse_step]
    simp [hs]
  · refine ⟨.number_integer v, ?_, Or.inr ⟨h0, rfl⟩⟩
    rw [parse_step]
    simp [hs]

theorem parse_step_open_object (F : FloatSem) (k : Nat) (inp r1 r2 key : Str) (arr : List Json)
    (obj : List (Str × Json)) (h1 : scan inp = .ok (.begin_object, r1))
    (h2 : scan r1 = .ok (.value_string key, r2)) :
    parse_step F (k + 1) 0 inp arr obj = parse_step F k 2 r1 [] [] := by
  rw [parse_step]
  simp [h1, h2]

theorem parse_step_member (F : FloatSem) (k : Nat) (inp r1 r2 r3 r4 key : Str) (v : Json)
    (arr : List Json) (obj : List (Str × Json))
    (h1 : scan inp = .ok (.value_string key, r1)) (h2 : scan r1 = .ok (.name_separator, r2))
    (h3 : parse_step F k 0 r2 [] [] = .ok (v, r3))
    (h4 : scan r3 = .ok (.value_separator, r4)) :
    parse_step F (k + 1) 2 inp arr obj = parse_step F k 2 r4 [] (object_set obj key v) := by
  rw [parse_step]
  simp [h1, h2, h3, h4]

theorem parse_step_last_member (F : FloatSem) (k : Nat) (inp r1 r2 r3 r4 key : Str) (v : Json)
    (arr : List Json) (obj : List (Str × Json))
    (h1 : scan inp = .ok (.value_string key, r1)) (h2 : scan r1 = .ok (.name_separator, r2))
    (h3 : parse_step F k 0 r2 [] [] = .ok (v, r3))
    (h4 : scan r3 = .ok (.end_object, r4)) :
    parse_step F (k + 1) 2 inp arr obj = .ok (.object (object_set obj key v), r4) := by
  rw [parse_step]
  simp [h1, h2, h3, h4]

theorem payload_members (a b c : Json) :
    object_set (object_set (object_set [] (lit "user_id") a) (lit "username") b) (lit "exp") c
      = [(lit "exp", c), (lit "user_id", a), (lit "username", b)] := rfl

theorem parsed_members (a b c : Json) :
    object_set (object_set (object_set [] (lit "exp") c) (lit "user_id") a) (lit "username") b
      = [(lit "exp", c), (lit "user_id", a), (lit "username", b)] := rfl

/-- The dump of the payload object is `payload_text`. -/
theorem dump_payload (F : FloatSem) (exp user_id : Int) (u esc : Str)
    (h : dump_escaped u.length u = .ok esc) :
    dump F (.object [(lit "exp", .number_integer exp), (lit "user_id", .number_integer user_id),
      (lit "username", .string u)]) = .ok (payload_text exp user_id esc) := by
  have k1 : dump_string (lit "exp") = .ok (lit "\"exp\"") := rfl
  have k2 : dump_string (lit "user_id") = .ok (lit "\"user_id\"") := rfl
  have k3 : dump_string (lit "username") = .ok (lit "\"username\"") := rfl
  have k4 : dump_string u = .ok (34 :: esc ++ [34]) := by simp [dump_string, h]
  have l1 : lit "\"exp\"" = [34, 101, 120, 112, 34] := rfl
  have l2 : lit "\"user_id\"" = [34, 117, 115, 101, 114, 95, 105, 100, 34] := rfl
  have l3 : lit "\"username\"" = [34, 117, 115, 101, 114, 110, 97, 109, 101, 34] := rfl
  have m1 : lit "\x7b\"exp\":" = [123, 34, 101, 120, 112, 34, 58] := rfl
  have m2 : lit ",\"user_id\":" = [44, 34, 117, 115, 101, 114, 95, 105, 100, 34, 58] := rfl
  have m3 : lit ",\"username\":\"" = [44, 34, 117, 115, 101, 114, 110, 97, 109, 101, 34, 58, 34] := rfl
  have m4 : lit "\"\x7d" = [34, 125] := rfl
  simp only [dump, dump_members, k1, k2, k3, k4, payload_text, l1, l2, l3, m1, m2, m3, m4]
  simp

/-- The parser reads `payload_text` back as the object it was written from. -/
theorem parse_payload_text (F : FloatSem) (exp user_id : Int) (u esc : Str)
    (h : dump_escaped u.length u = .ok esc)
    (he : -2 ^ 63 ≤ exp ∧ exp < 2 ^ 63) (hi : -2 ^ 31 ≤ user_id ∧ user_id < 2 ^ 31) :
    ∃ je ji, parse F (payload_text exp user_id esc)
        = .ok (.object [(lit "exp", je), (lit "user_id", ji), (lit "username", .string u)]) ∧
      ((0 ≤ exp ∧ je = .number_unsigned exp.toNat) ∨ (exp < 0 ∧ je = .number_integer exp)) ∧
      ((0 ≤ user_id ∧ ji = .number_unsigned user_id.toNat)
        ∨ (user_id < 0 ∧ ji = .number_integer user_id)) := by
  -- the pieces of the text, from the end
  let t6 : Str := [125]
  let t5 : Str := 58 :: 34 :: (esc ++ 34 :: t6)
  let t4 : Str := 34 :: (lit "username" ++ 34 :: t5)
  let t3 : Str := 58 :: (to_string user_id ++ 44 :: t4)
  let t2 : Str := 34 :: (lit "user_id" ++ 34 :: t3)
  let t1 : Str := 58 :: (to_string exp ++ 44 :: t2)
  let t0 : Str := 34 :: (lit "exp" ++ 34 :: t1)
  have htext : payload_text exp user_id esc = 123 :: t0 := by
    simp only [payload_text, t0, t1, t2, t3, t4, t5, t6]
    have m1 : lit "\x7b\"exp\":" = 123 :: 34 :: (lit "exp" ++ [34, 58]) := rfl
    have m2 : lit ",\"user_id\":" = 44 :: 34 :: (lit "user_id" ++ [34, 58]) := rfl
    have m3 : lit ",\"username\":\"" = 44 :: 34 :: (lit "username" ++ [34, 58, 34]) := rfl
    have m4 : lit "\"\x7d" = [34, 125] := rfl
    rw [m1, m2, m3, m4]
    simp
  have s0 : scan t0 = .ok (.value_string (lit "exp"), t1) := scan_quoted (lit "exp") (lit "exp") t1 rfl
  have s2 : scan t2 = .ok (.value_string (lit "user_id"), t3) :=
    scan_quoted (lit "user_id") (lit "user_id") t3 rfl
  have s4 : scan t4 = .ok (.value_string (lit "username"), t5) :=
    scan_quoted (lit "username") (lit "username") t5 rfl
  obtain ⟨n, hn⟩ : ∃ n, 2 * (123 :: t0).length + 2 = n + 5 :=
    ⟨2 * (123 :: t0).length - 3, by
      have h2 : 2 ≤ (123 :: t0).length := by simp [t0]
      omega⟩
  obtain ⟨je, pe, hje⟩ := parse_step_integer F (n + 2) exp he.1 (by omega) 44 t2 (Or.inl rfl) [] []
  obtain ⟨ji, pi, hji⟩ := parse_step_integer F (n + 1) user_id (by omega) (by omega) 44 t4
    (Or.inl rfl) [] []
  have pu : parse_step F (n + 1) 0 (34 :: (esc ++ 34 :: t6)) [] [] = .ok (.string u, t6) :=
    parse_step_string F n u esc t6 [] [] h
  refine ⟨je, ji, ?_, hje, hji⟩
  have hp : parse_step F (n + 5) 0 (123 :: t0) [] []
      = .ok (.object [(lit "exp", je), (lit "user_id", ji), (lit "username", .string u)], []) := by
    rw [parse_step_open_object F (n + 4) (123 :: t0) t0 t1 (lit "exp") [] [] (scan_begin_object t0) s0]
    rw [parse_step_member F (n + 3) t0 t1 _ _ t2 (lit "exp") je [] [] s0 (scan_name_separator _) pe
      (scan_value_separator _)]
    rw [parse_step_member F (n + 2) t2 t3 _ _ t4 (lit "user_id") ji [] _ s2 (scan_name_separator _) pi
      (scan_value_separator _)]
    rw [parse_step_last_member F (n + 1) t4 t5 _ _ [] (lit "username") (.string u) [] _ s4
      (scan_name_separator _) pu (scan_end_object _)]
    rw [parsed_members]
  unfold parse
  rw [htext]
  have hbom : (123 :: t0).take 3 ≠ [0xEF, 0xBB, 0xBF] := by
    simp [t0]
  simp only [hbom, if_false, hn, hp, scan_nil]

/-! ## The bytes of an issued token -/

theorem utf8_tail_hi (c : Nat) (n lo hi : Nat) (h : utf8_tail c = some (n, lo, hi)) :
    hi ≤ 0xBF := by
  unfold utf8_tail at h
  split at h
  · simp at h; omega
  split at h
  · simp at h; omega
  split at h
  · simp at h; omega
  split at h
  · simp at h; omega
  split at h
  · simp at h; omega
  split at h
  · simp at h; omega
  split at h
  · simp at h; omega
  · simp at h

theorem utf8_sequence_bytes (c : Nat) (rest bytes rest1 : Str)
    (h : utf8_sequence c rest = some (bytes, rest1)) : ∀ b ∈ bytes, b < 256 := by
  unfold utf8_sequence at h
  cases ht : utf8_tail c with
  | none => simp [ht] at h
  | some t =>
    obtain ⟨n, lo, hi⟩ := t
    simp only [ht] at h
    have hlead := utf8_tail_lead c _ ht
    have hhi := utf8_tail_hi c n lo hi ht
    split at h
    · rename_i hcond
      simp only [Option.some.injEq, Prod.mk.injEq] at h
      obtain ⟨h1, _⟩ := h
      simp only [Bool.and_eq_true, decide_eq_true_eq] at hcond
      obtain ⟨⟨_, hhead⟩, htail⟩ := hcond
      intro b hb
      rw [← h1] at hb
      simp only [List.mem_cons] at hb
      rcases hb with hb | hb
      · omega
      · cases hbs : List.take n rest with
        | nil => rw [hbs] at hb; simp at hb
        | cons x xs =>
          rw [hbs] at hb hhead htail
          simp only [List.mem_cons] at hb
          rcases hb with hb | hb
          · subst hb
            simp [in_range] at hhead
            omega
          · simp only [List.tail_cons, List.all_eq_true] at htail
            have := htail b hb
            simp [in_range] at this
            omega
    · simp at h

theorem escape_ascii_bytes (c : Nat) (hc : c ≤ 0x7F) : ∀ b ∈ escape_ascii c, b < 256 := by
  have hh : ∀ d, d < 16 → hex_digit d < 256 := by decide
  intro b hb
  unfold escape_ascii at hb
  have h1 := hh (c / 16) (by omega)
  have h2 := hh (c % 16) (by omega)
  repeat' split at hb
  all_goals simp at hb
  all_goals omega

theorem dump_escaped_bytes (fuel : Nat) : ∀ (u esc : Str), dump_escaped fuel u = .ok esc →
    ∀ b ∈ esc, b < 256 := by
  induction fuel with
  | zero =>
    intro u esc h b hb
    simp only [dump_escaped, Except.ok.injEq] at h
    subst h
    simp at hb
  | succ fuel ih =>
    intro u esc h b hb
    match u, h with
    | [], h =>
      simp only [dump_escaped, Except.ok.injEq] at h
      subst h
      simp at hb
    | c :: u1, h =>
      simp only [dump_escaped] at h
      split at h
      · rename_i hc
        cases hr : dump_escaped fuel u1 with
        | error e => simp [hr] at h
        | ok r =>
          simp only [hr, Except.ok.injEq] at h
          subst h
          simp only [List.mem_append] at hb
          rcases hb with hb | hb
          · exact escape_ascii_bytes c hc b hb
          · exact ih u1 r hr b hb
      · cases hs : utf8_sequence c u1 with
        | none => simp [hs] at h
        | some p =>
          obtain ⟨bytes, rest1⟩ := p
          simp only [hs] at h
          cases hr : dump_escaped fuel rest1 with
          | error e => simp [hr] at h
          | ok r =>
            simp only [hr, Except.ok.injEq] at h
            subst h
            simp only [List.mem_append] at hb
            rcases hb with hb | hb
            · exact utf8_sequence_bytes c u1 bytes rest1 hs b hb
            · exact ih rest1 r hr b hb

theorem to_string_bytes (v : Int) : ∀ b ∈ to_string v, b < 256 := by
  intro b hb
  rcases to_string_chars v b hb with h | h
  · omega
  · simp [isdigit] at h; omega

theorem payload_text_bytes (exp user_id : Int) (u esc : Str)
    (h : dump_escaped u.length u = .ok esc) : ∀ b ∈ payload_text exp user_id esc, b < 256 := by
  have m1 : ∀ b ∈ lit "\x7b\"exp\":", b < 256 := by decide
  have m2 : ∀ b ∈ lit ",\"user_id\":", b < 256 := by decide
  have m3 : ∀ b ∈ lit ",\"username\":\"", b < 256 := by decide
  have m4 : ∀ b ∈ lit "\"\x7d", b < 256 := by decide
  intro b hb
  simp only [payload_text, List.mem_append] at hb
  rcases hb with hb | hb | hb | hb | hb | hb | hb
  · exact m1 b hb
  · exact to_string_bytes _ b hb
  · exact m2 b hb
  · exact to_string_bytes _ b hb
  · exact m3 b hb
  · exact dump_escaped_bytes _ u esc h b hb
  · exact m4 b hb

/-! ## Issue and verification -/

theorem dump_escaped_of_well_formed (fuel : Nat) : ∀ (u : Str), u.length ≤ fuel →
    well_formed_utf8 fuel u = true → ∃ esc, dump_escaped fuel u = .ok esc := by
  induction fuel with
  | zero => intro u _ _; exact ⟨[], rfl⟩
  | succ fuel ih =>
    intro u hu h
    match u, hu, h with
    | [], _, _ => exact ⟨[], rfl⟩
    | c :: u1, hu, h =>
      simp only [well_formed_utf8] at h
      simp only [dump_escaped]
      split at h
      · rename_i hc
        obtain ⟨r, hr⟩ := ih u1 (by simp at hu; omega) h
        simp [hc, hr]
      · rename_i hc
        cases hs : utf8_sequence c u1 with
        | none => simp [hs] at h
        | some p =>
          obtain ⟨bytes, rest1⟩ := p
          simp only [hs] at h
          obtain ⟨bs, _, hb2, _, _⟩ := utf8_sequence_split c u1 bytes rest1 hs
          have hlen : rest1.length ≤ fuel := by
            rw [hb2] at hu
            simp at hu
            omega
          obtain ⟨r, hr⟩ := ih rest1 hlen h
          simp [hc, hr]

theorem dump_escaped_of_ill_formed (fuel : Nat) : ∀ (u : Str), u.length ≤ fuel →
    well_formed_utf8 fuel u = false → dump_escaped fuel u = .error (.type_error 316) := by
  induction fuel with
  | zero =>
    intro u hu h
    have hu0 : u = [] := List.length_eq_zero.mp (by omega)
    subst hu0
    simp [well_formed_utf8] at h
  | succ fuel ih =>
    intro u hu h
    match u, hu, h with
    | [], _, h => simp [well_formed_utf8] at h
    | c :: u1, hu, h =>
      simp only [well_formed_utf8] at h
      simp only [dump_escaped]
      split at h
      · rename_i hc
        simp [hc, ih u1 (by simp at hu; omega) h]
      · rename_i hc
        cases hs : utf8_sequence c u1 with
        | none => simp [hc]
        | some p =>
          obtain ⟨bytes, rest1⟩ := p
          simp only [hs] at h
          obtain ⟨bs, _, hb2, _, _⟩ := utf8_sequence_split c u1 bytes rest1 hs
          have hlen : rest1.length ≤ fuel := by
            rw [hb2] at hu
            simp at hu
            omega
          simp [hc, ih rest1 hlen h]

theorem generate_jwt_token_ok (F : FloatSem) (now user_id : Int) (u esc : Str)
    (h : dump_escaped u.length u = .ok esc) :
    generate_jwt_token F now user_id u
      = .ok (encode (payload_text (wrap64 (now + 86400)) user_id esc)) := by
  unfold generate_jwt_token
  simp only [payload_members]
  have e : now + JWT_EXPIRY_HOURS * 3600 = now + 86400 := by simp [JWT_EXPIRY_HOURS]
  rw [e, dump_payload F _ _ u esc h]

theorem generate_jwt_token_error (F : FloatSem) (now user_id : Int) (u : Str)
    (h : is_utf8 u = false) :
    generate_jwt_token F now user_id u = .error (.type_error 316) := by
  have hd := dump_escaped_of_ill_formed u.length u (Nat.le_refl _) h
  have k1 : dump_string (lit "exp") = .ok (lit "\"exp\"") := rfl
  have k2 : dump_string (lit "user_id") = .ok (lit "\"user_id\"") := rfl
  have k3 : dump_string (lit "username") = .ok (lit "\"username\"") := rfl
  have k4 : dump_string u = .error (.type_error 316) := by simp [dump_string, hd]
  unfold generate_jwt_token
  simp only [payload_members, dump, dump_members, k1, k2, k3, k4]

theorem wrap64_id (v : Int) (hlo : -2 ^ 63 ≤ v) (hhi : v < 2 ^ 63) : wrap64 v = v := by
  unfold wrap64; omega

theorem wrap32_id (v : Int) (hlo : -2 ^ 31 ≤ v) (hhi : v < 2 ^ 31) : wrap32 v = v := by
  unfold wrap32; omega

/-- Verification of the token that encodes `payload_text exp user_id esc`. -/
theorem verify_payload_text (F : FloatSem) (now exp user_id : Int) (u esc : Str)
    (h : dump_escaped u.length u = .ok esc)
    (he : -2 ^ 63 ≤ exp ∧ exp < 2 ^ 63) (hi : -2 ^ 31 ≤ user_id ∧ user_id < 2 ^ 31) :
    verify_jwt_token F now (encode (payload_text exp user_id esc))
      = if exp < now then none else some (user_id, u) := by
  obtain ⟨je, ji, hp, hje, hji⟩ := parse_payload_text F exp user_id u esc h he hi
  have hdec := decode_encode _ (payload_text_bytes exp user_id u esc h)
  have hne : (payload_text exp user_id esc).isEmpty = false := by
    have m1 : lit "\x7b\"exp\":" = [123, 34, 101, 120, 112, 34, 58] := rfl
    simp [payload_text, m1]
  have f1 : object_find [(lit "exp", je), (lit "user_id", ji), (lit "username", Json.string u)]
      (lit "exp") = some je := rfl
  have f2 : object_find [(lit "exp", je), (lit "user_id", ji), (lit "username", Json.string u)]
      (lit "user_id") = some ji := rfl
  have f3 : object_find [(lit "exp", je), (lit "user_id", ji), (lit "username", Json.string u)]
      (lit "username") = some (Json.string u) := rfl
  have g1 : get_long F je = .ok exp := by
    rcases hje with ⟨h0, rfl⟩ | ⟨h0, rfl⟩
    · simp only [get_long]
      rw [wrap64_id _ (by omega) (by omega)]
      congr 1; omega
    · simp only [get_long]
      rw [wrap64_id _ he.1 he.2]
  have g2 : get_int F ji = .ok user_id := by
    rcases hji with ⟨h0, rfl⟩ | ⟨h0, rfl⟩
    · simp only [get_int]
      rw [wrap32_id _ (by omega) (by omega)]
      congr 1; omega
    · simp only [get_int]
      rw [wrap32_id _ hi.1 hi.2]
  unfold verify_jwt_token verify_try
  simp only [hdec, hne, hp, index, f1, f2, f3, Option.getD, Except.bind, g1, g2, get_string]
  by_cases hlt : exp < now <;> simp [hlt]

theorem is_utf8_of_generate (F : FloatSem) (now user_id : Int) (username token : Str)
    (h : generate_jwt_token F now user_id username = .ok token) : is_utf8 username = true := by
  cases hu : is_utf8 username with
  | true => rfl
  | false =>
    rw [generate_jwt_token_error F now user_id username hu] at h
    cases h

/-- What `generate_jwt_token` returns, when it returns. -/
theorem generate_jwt_token_eq (F : FloatSem) (now user_id : Int) (username token : Str)
    (h : generate_jwt_token F now user_id username = .ok token) :
    ∃ esc, dump_escaped username.length username = .ok esc ∧
      token = encode (payload_text (wrap64 (now + 86400)) user_id esc) := by
  have hu := is_utf8_of_generate F now user_id username token h
  obtain ⟨esc, hesc⟩ := dump_escaped_of_well_formed username.length username (Nat.le_refl _) hu
  refine ⟨esc, hesc, ?_⟩
  rw [generate_jwt_token_ok F now user_id username esc hesc] at h
  injection h with h
  exact h.symm

theorem generate_jwt_token_of_utf8 (F : FloatSem) (now user_id : Int) (username : Str)
    (hu : is_utf8 username = true) :
    ∃ token, generate_jwt_token F now user_id username = .ok token := by
  obtain ⟨esc, hesc⟩ := dump_escaped_of_well_formed username.length username (Nat.le_refl _) hu
  exact ⟨_, generate_jwt_token_ok F now user_id username esc hesc⟩

/-- C1. Round trip: for every `int` user id, every user name and every clock reading
`now` (with `now + 86400` representable as `long`), `verify_jwt_token` applied at
time `now` to the token that `generate_jwt_token` produced at time `now` returns
`(user_id, username)`. A token is produced whenever the user name is well-formed
UTF-8 (otherwise the serializer throws and there is no token). -/
theorem verify_generate_round_trip (F : FloatSem) (now user_id : Int) (username : Str)
    (hid : -2 ^ 31 ≤ user_id ∧ user_id < 2 ^ 31)
    (hnow : -2 ^ 63 ≤ now ∧ now + 86400 < 2 ^ 63) :
    (is_utf8 username = true → ∃ token, generate_jwt_token F now user_id username = .ok token) ∧
    ∀ token, generate_jwt_token F now user_id username = .ok token →
      verify_jwt_token F now token = some (user_id, username) := by
  refine ⟨generate_jwt_token_of_utf8 F now user_id username, ?_⟩
  intro token hg
  obtain ⟨esc, hesc, rfl⟩ := generate_jwt_token_eq F now user_id username token hg
  have hw : wrap64 (now + 86400) = now + 86400 := wrap64_id _ (by omega) hnow.2
  rw [hw, verify_payload_text F now (now + 86400) user_id username esc hesc ⟨by omega, hnow.2⟩ hid]
  simp

theorem verify_generate_round_trip_witness :
    ∃ token, generate_jwt_token no_floats 1700000000 7 (lit "alice") = .ok token ∧
      verify_jwt_token no_floats 1700000000 token = some (7, lit "alice") := by
  have h := verify_generate_round_trip no_floats 1700000000 7 (lit "alice") (by decide) (by decide)
  obtain ⟨token, hg⟩ := h.1 (by decide)
  exact ⟨token, hg, h.2 token hg⟩

/-- C4. Validity window: for every `int` user id, user name and issue time `t` (with
`t + 86400` representable as `long`), the token issued at time `t` decodes to a
JSON object whose `exp` is `t + 24 * 3600`; checked at time `t1` it verifies to
`(user_id, username)` when `t1 < t + 86400` and to absence when `t1 > t + 86400`.
A token is issued whenever the user name is well-formed UTF-8. -/
theorem issued_token_validity_window (F : FloatSem) (t t1 user_id : Int) (username : Str)
    (hid : -2 ^ 31 ≤ user_id ∧ user_id < 2 ^ 31)
    (ht : -2 ^ 63 ≤ t ∧ t + 86400 < 2 ^ 63) :
    (is_utf8 username = true → ∃ token, generate_jwt_token F t user_id username = .ok token) ∧
    ∀ token, generate_jwt_token F t user_id username = .ok token →
      (∃ decoded members exp,
        decode_segments (getline_segments token []) [] = .ok decoded ∧
        parse F decoded = .ok (.object members) ∧
        object_find members (lit "exp") = some exp ∧
        get_long F exp = .ok (t + 24 * 3600)) ∧
      (t1 < t + 86400 → verify_jwt_token F t1 token = some (user_id, username)) ∧
      (t + 86400 < t1 → verify_jwt_token F t1 token = none) := by
  refine ⟨generate_jwt_token_of_utf8 F t user_id username, ?_⟩
  intro token hg
  obtain ⟨esc, hesc, rfl⟩ := generate_jwt_token_eq F t user_id username token hg
  have hw : wrap64 (t + 86400) = t + 86400 := wrap64_id _ (by omega) ht.2
  have he : -2 ^ 63 ≤ t + 86400 ∧ t + 86400 < 2 ^ 63 := ⟨by omega, ht.2⟩
  have hv := verify_payload_text F t1 (t + 86400) user_id username esc hesc he hid
  refine ⟨?_, ?_, ?_⟩
  · obtain ⟨je, ji, hp, hje, _⟩ := parse_payload_text F (t + 86400) user_id username esc hesc he hid
    rw [hw]
    refine ⟨_, _, je, decode_encode _ (payload_text_bytes _ _ username esc hesc), hp, rfl, ?_⟩
    rcases hje with ⟨h0, rfl⟩ | ⟨h0, rfl⟩
    · simp only [get_long]
      rw [wrap64_id _ (by omega) (by omega)]
      congr 1; omega
    · simp only [get_long]
      rw [wrap64_id _ he.1 he.2]
      congr 1
  · intro hlt
    rw [hw, hv, if_neg (by omega)]
  · intro hgt
    rw [hw, hv, if_pos hgt]

theorem issued_token_validity_window_witness :
    ∃ token, generate_jwt_token no_floats 1700000000 42 (lit "bob") = .ok token ∧
      verify_jwt_token no_floats 1700086399 token = some (42, lit "bob") ∧
      verify_jwt_token no_floats 1700086401 token = none := by
  have h1 := issued_token_validity_window no_floats 1700000000 1700086399 42 (lit "bob")
    (by decide) (by decide)
  have h2 := issued_token_validity_window no_floats 1700000000 1700086401 42 (lit "bob")
    (by decide) (by decide)
  obtain ⟨token, hg⟩ := h1.1 (by decide)
  exact ⟨token, hg, (h1.2 token hg).2.1 (by decide), (h2.2 token hg).2.2 (by decide)⟩

/-! ## The request authenticator -/

theorem bearer_backtrack_some (s : Str) : ∀ (k : Nat) (group : Str),
    bearer_backtrack s k = some group →
    ∃ j, 1 ≤ j ∧ j ≤ k ∧ group = s.drop j ∧ group ≠ [] ∧ group.all regex_dot = true := by
  intro k
  induction k with
  | zero => intro group h; simp [bearer_backtrack] at h
  | succ k ih =>
    intro group h
    simp only [bearer_backtrack] at h
    split at h
    · rename_i hc
      simp only [Option.some.injEq] at h
      subst h
      simp only [Bool.and_eq_true, Bool.not_eq_true', List.isEmpty_eq_false] at hc
      exact ⟨k + 1, by omega, Nat.le_refl _, rfl, by simpa using hc.1, hc.2⟩
    · obtain ⟨j, h1, h2, h3⟩ := ih group h
      exact ⟨j, h1, by omega, h3⟩

theorem take_of_le_takeWhile (p : Nat → Bool) : ∀ (s : Str) (j : Nat),
    j ≤ (s.takeWhile p).length → ∀ c ∈ s.take j, p c = true := by
  intro s
  induction s with
  | nil => intro j _ c hc; simp at hc
  | cons x s ih =>
    intro j hj c hc
    cases j with
    | zero => simp at hc
    | succ j =>
      by_cases hx : p x = true
      · simp only [List.takeWhile, hx, List.length_cons] at hj
        simp only [List.take_succ_cons, List.mem_cons] at hc
        rcases hc with hc | hc
        · rw [hc]; exact hx
        · exact ih j (by omega) c hc
      · simp [List.takeWhile, hx] at hj

/-- What a header must look like for the regex to match, with the extracted group. -/
theorem bearer_regex_match_some (h token : Str) (hm : bearer_regex_match h = some token) :
    ∃ ws, h = lit "Bearer" ++ ws ++ token ∧ ws ≠ [] ∧ (∀ c ∈ ws, isspace c = true) ∧
      token ≠ [] ∧ token.all regex_dot = true := by
  unfold bearer_regex_match at hm
  split at hm
  · rename_i hpre
    obtain ⟨j, h1, h2, h3, h4, h5⟩ := bearer_backtrack_some _ _ _ hm
    refine ⟨(h.drop 6).take j, ?_, ?_, take_of_le_takeWhile isspace _ j h2, h4, h5⟩
    · rw [h3, List.append_assoc, List.take_append_drop, ← hpre, List.take_append_drop]
    · intro hnil
      have hlen : ((h.drop 6).take j).length = 0 := by rw [hnil]; rfl
      have hd : (h.drop 6).drop j ≠ [] := h3 ▸ h4
      have hl2 : j < (h.drop 6).length := by
        by_contra hcon
        exact hd (List.drop_eq_nil_of_le (by omega))
      rw [List.length_take] at hlen
      omega
  · simp at hm

theorem encode_chars (t : Str) : ∀ c ∈ encode t, isdigit c = true ∨ c = 45 ∨ c = 46 := by
  induction t with
  | nil => intro c hc; simp [encode] at hc
  | cons x t ih =>
    intro c hc
    simp only [encode, List.mem_append, List.mem_cons] at hc
    rcases hc with hc | hc | hc
    · rcases to_string_chars _ c hc with h | h
      · exact Or.inr (Or.inl h)
      · exact Or.inl h
    · exact Or.inr (Or.inr hc)
    · exact ih c hc

theorem bearer_regex_match_issued (exp user_id : Int) (esc : Str) :
    bearer_regex_match (lit "Bearer " ++ encode (payload_text exp user_id esc))
      = some (encode (payload_text exp user_id esc)) := by
  have hall : (encode (payload_text exp user_id esc)).all regex_dot = true := by
    rw [List.all_eq_true]
    intro c hc
    rcases encode_chars _ c hc with h | h | h
    · simp [isdigit] at h
      simp [regex_dot]; omega
    · subst h; decide
    · subst h; decide
  obtain ⟨rest, hrest⟩ : ∃ rest, encode (payload_text exp user_id esc) = 49 :: 50 :: 51 :: 46 :: rest :=
    ⟨_, rfl⟩
  rw [hrest] at hall ⊢
  have e1 : (lit "Bearer " ++ 49 :: 50 :: 51 :: 46 :: rest).take 6 = lit "Bearer" := rfl
  have e2 : (lit "Bearer " ++ 49 :: 50 :: 51 :: 46 :: rest).drop 6 = 32 :: 49 :: 50 :: 51 :: 46 :: rest := rfl
  have e3 : ((32 :: 49 :: 50 :: 51 :: 46 :: rest).takeWhile isspace).length = 1 := rfl
  have e4 : bearer_backtrack (32 :: 49 :: 50 :: 51 :: 46 :: rest) 1
      = some (49 :: 50 :: 51 :: 46 :: rest) := by
    have hd : (32 :: 49 :: 50 :: 51 :: 46 :: rest).drop 1 = 49 :: 50 :: 51 :: 46 :: rest := rfl
    simp only [bearer_backtrack, Nat.zero_add, hd, hall]
    rfl
  unfold bearer_regex_match
  rw [if_pos e1]
  simp only [e2]
  rw [e3, e4]

/-- C10. For every `int` user id and user name, at a clock reading `now` (with
`now + 86400` representable as `long`): the token `generate_jwt_token` issues
consists of digits, `-` and `.` only, the Bearer regex extracts it unmodified
from `"Bearer " + token`, and `authenticate_request` on that header returns the
result of `verify_jwt_token` on the token, which is `(user_id, username)`.
A token is issued whenever the user name is well-formed UTF-8. -/
theorem authenticate_request_issued_token (F : FloatSem) (now user_id : Int)
    (username body : Str)
    (hid : -2 ^ 31 ≤ user_id ∧ user_id < 2 ^ 31)
    (hnow : -2 ^ 63 ≤ now ∧ now + 86400 < 2 ^ 63) :
    (is_utf8 username = true → ∃ token, generate_jwt_token F now user_id username = .ok token) ∧
    ∀ token, generate_jwt_token F now user_id username = .ok token →
      (∀ c ∈ token, isdigit c = true ∨ c = 45 ∨ c = 46) ∧
      bearer_regex_match (lit "Bearer " ++ token) = some token ∧
      authenticate_request F now ⟨lit "Bearer " ++ token, body⟩
        = verify_jwt_token F now token ∧
      authenticate_request F now ⟨lit "Bearer " ++ token, body⟩ = some (user_id, username) := by
  refine ⟨generate_jwt_token_of_utf8 F now user_id username, ?_⟩
  intro token hg
  obtain ⟨esc, hesc, rfl⟩ := generate_jwt_token_eq F now user_id username token hg
  have hw : wrap64 (now + 86400) = now + 86400 := wrap64_id _ (by omega) hnow.2
  have hv := verify_payload_text F now (now + 86400) user_id username esc hesc
    ⟨by omega, hnow.2⟩ hid
  rw [if_neg (by omega)] at hv
  have hm := bearer_regex_match_issued (now + 86400) user_id esc
  have ha : authenticate_request F now ⟨lit "Bearer " ++ encode (payload_text (now + 86400) user_id esc), body⟩
      = verify_jwt_token F now (encode (payload_text (now + 86400) user_id esc)) := by
    unfold authenticate_request
    simp only [hm]
    have hne : (lit "Bearer " ++ encode (payload_text (now + 86400) user_id esc)).isEmpty = false := rfl
    simp [hne]
  refine ⟨?_, ?_, ?_, ?_⟩
  · exact encode_chars _
  · rw [hw]; exact hm
  · rw [hw]; exact ha
  · rw [hw, ha, hv]

theorem authenticate_request_issued_token_witness :
    ∃ token, generate_jwt_token no_floats 1700000000 3 (lit "carol") = .ok token ∧
      bearer_regex_match (lit "Bearer " ++ token) = some token ∧
      authenticate_request no_floats 1700000000 ⟨lit "Bearer " ++ token, []⟩
        = some (3, lit "carol") := by
  have h := authenticate_request_issued_token no_floats 1700000000 3 (lit "carol") []
    (by decide) (by decide)
  obtain ⟨token, hg⟩ := h.1 (by decide)
  exact ⟨token, hg, (h.2 token hg).2.1, (h.2 token hg).2.2.2⟩

/-- C9. `authenticate_request` returns absence for the Authorization header values
`""`, `"Bearer"`, `"Bearer "` and `"Basic xyz"`, and for every header value that
is not the exact prefix `Bearer`, then at least one white-space character, then
at least one further character. -/
theorem authenticate_request_absent (F : FloatSem) (now : Int) (body : Str) :
    authenticate_request F now ⟨lit "", body⟩ = none ∧
    authenticate_request F now ⟨lit "Bearer", body⟩ = none ∧
    authenticate_request F now ⟨lit "Bearer ", body⟩ = none ∧
    authenticate_request F now ⟨lit "Basic xyz", body⟩ = none ∧
    ∀ header : Str,
      (¬ ∃ ws rest, header = lit "Bearer" ++ ws ++ rest ∧ ws ≠ [] ∧
          (∀ c ∈ ws, isspace c = true) ∧ rest ≠ []) →
      authenticate_request F now ⟨header, body⟩ = none := by
  refine ⟨rfl, rfl, rfl, rfl, ?_⟩
  intro header hform
  unfold authenticate_request
  simp only
  split
  · rfl
  · cases hm : bearer_regex_match header with
    | none => rfl
    | some token =>
      exfalso
      obtain ⟨ws, h1, h2, h3, h4, _⟩ := bearer_regex_match_some header token hm
      exact hform ⟨ws, token, h1, h2, h3, h4⟩

theorem authenticate_request_absent_witness :
    authenticate_request no_floats 1700000000 ⟨lit "bearer 123.125.", []⟩ = none :=
  (authenticate_request_absent no_floats 1700000000 []).2.2.2.2 (lit "bearer 123.125.") (by
    rintro ⟨ws, rest, h, _⟩
    have h6 := congrArg (List.take 6) h
    rw [List.append_assoc, List.take_append_of_le_length (by decide)] at h6
    revert h6
    decide)

/-! ## Rejection of malformed and expired tokens -/

theorem stoi_error_of_no_digits (s : Str) (h : stoi_digits s = []) :
    stoi s = .error .invalid_argument := by
  simp [stoi, h]

theorem decode_segments_error (segs : List Str) : ∀ (seg : Str) (acc : Str), seg ∈ segs →
    seg ≠ [] → (∃ e, stoi seg = .error e) → ∃ e, decode_segments segs acc = .error e := by
  induction segs with
  | nil => intro seg acc h; simp at h
  | cons s segs ih =>
    intro seg acc hmem hne hbad
    simp only [decode_segments]
    by_cases hs : s.isEmpty = true
    · have hs1 : s ≠ seg := by
        intro e; subst e; simp at hs; exact hne hs
      have hmem1 : seg ∈ segs := by
        simp only [List.mem_cons] at hmem
        rcases hmem with h | h
        · exact absurd h.symm hs1
        · exact h
      simp only [hs, Bool.not_true, Bool.false_eq_true, if_false]
      exact ih seg acc hmem1 hne hbad
    · simp only [hs, Bool.not_false, if_true]
      cases hst : stoi s with
      | error e => exact ⟨e, rfl⟩
      | ok v =>
        have hs1 : s ≠ seg := by
          intro e; subst e
          obtain ⟨e1, he1⟩ := hbad
          rw [hst] at he1
          cases he1
        have hmem1 : seg ∈ segs := by
          simp only [List.mem_cons] at hmem
          rcases hmem with h | h
          · exact absurd h.symm hs1
          · exact h
        simp only
        exact ih seg _ hmem1 hne hbad

theorem verify_none_of_decode_error (F : FloatSem) (now : Int) (token : Str) (e : Exc)
    (h : decode_segments (getline_segments token []) [] = .error e) :
    verify_jwt_token F now token = none := by
  simp [verify_jwt_token, verify_try, h]

theorem verify_none_of_bad_segment (F : FloatSem) (now : Int) (token seg : Str)
    (hseg : seg ∈ getline_segments token []) (hne : seg ≠ [])
    (hbad : ∃ e, stoi seg = .error e) : verify_jwt_token F now token = none := by
  obtain ⟨e, he⟩ := decode_segments_error _ seg [] hseg hne hbad
  exact verify_none_of_decode_error F now token e he

/-- C6 (as stated, refuted). The token of a payload that would expire at
1700086400, with the first segment written ` +123abc` instead of `123`: that
segment is not a decimal integer literal, yet the token verifies. -/
theorem lenient_segment_accepted :
    lit " +123abc" ∈ getline_segments (lit " +123abc.34.101.120.112.34.58.49.55.48.48.48.56.54.52.48.48.44.34.117.115.101.114.95.105.100.34.58.55.44.34.117.115.101.114.110.97.109.101.34.58.34.97.34.125.") []
      ∧ stoi (lit " +123abc") = .ok 123
      ∧ verify_jwt_token no_floats 1700000000 (lit " +123abc.34.101.120.112.34.58.49.55.48.48.48.56.54.52.48.48.44.34.117.115.101.114.95.105.100.34.58.55.44.34.117.115.101.114.110.97.109.101.34.58.34.97.34.125.")
        = some (7, lit "a") := by
  refine ⟨by decide, rfl, by decide!⟩

/-- C6 (amended). For every token in which some non-empty `.`-delimited segment
cannot be read by `std::stoi` (after optional leading white space and one
optional sign there is no digit, or the digits read are outside the `int`
range), `verify_jwt_token` returns absence. -/
theorem verify_absent_of_unreadable_segment (F : FloatSem) (now : Int) (token seg : Str)
    (hseg : seg ∈ getline_segments token []) (hne : seg ≠ [])
    (hbad : stoi_digits seg = [] ∨ stoi seg = .error .out_of_range) :
    verify_jwt_token F now token = none := by
  apply verify_none_of_bad_segment F now token seg hseg hne
  rcases hbad with h | h
  · exact ⟨_, stoi_error_of_no_digits seg h⟩
  · exact ⟨_, h⟩

theorem verify_absent_of_unreadable_segment_witness :
    verify_jwt_token no_floats 1700000000 (lit "123.x4.125.") = none :=
  verify_absent_of_unreadable_segment no_floats 1700000000 (lit "123.x4.125.") (lit "x4")
    (by decide) (by decide) (Or.inl (by decide))

/-- C3 (as stated, refuted). A token whose payload has `exp` = 1700086400 still
verifies when the clock reads exactly 1700086400. -/
theorem token_valid_at_expiry_instant :
    decode_segments (getline_segments (lit "123.34.101.120.112.34.58.49.55.48.48.48.56.54.52.48.48.44.34.117.115.101.114.95.105.100.34.58.55.44.34.117.115.101.114.110.97.109.101.34.58.34.97.34.125.") []) []
        = .ok (lit "\x7b\"exp\":1700086400,\"user_id\":7,\"username\":\"a\"\x7d")
      ∧ verify_jwt_token no_floats 1700086400 (lit "123.34.101.120.112.34.58.49.55.48.48.48.56.54.52.48.48.44.34.117.115.101.114.95.105.100.34.58.55.44.34.117.115.101.114.110.97.109.101.34.58.34.97.34.125.")
        = some (7, lit "a") := by
  constructor
  · rfl
  · decide!

/-- C3 (amended). For every token whose decoded payload is a JSON object with an
integer `exp` strictly before the current time (`exp < now`),
`verify_jwt_token` returns absence; at `exp = now` the token is still accepted. -/
theorem verify_absent_of_expired (F : FloatSem) (now : Int) (token decoded : Str)
    (members : List (Str × Json)) (exp : Int)
    (hd : decode_segments (getline_segments token []) [] = .ok decoded)
    (hp : parse F decoded = .ok (.object members))
    (he : object_find members (lit "exp") = some (.number_integer exp) ∨
      (0 ≤ exp ∧ object_find members (lit "exp") = some (.number_unsigned exp.toNat)))
    (hexp : -2 ^ 63 ≤ exp) (hnow : now < 2 ^ 63) (hlt : exp < now) :
    verify_jwt_token F now token = none := by
  have hg : (index (.object members) (lit "exp")).bind (get_long F) = .ok exp := by
    rcases he with he | ⟨h0, he⟩
    · simp only [index, he, Option.getD, Except.bind, get_long]
      rw [wrap64_id _ hexp (by omega)]
    · simp only [index, he, Option.getD, Except.bind, get_long]
      rw [wrap64_id _ (by omega) (by omega)]
      congr 1; omega
  unfold verify_jwt_token verify_try
  simp only [hd, hp, hg, hlt, if_true]
  by_cases hem : decoded.isEmpty = true <;> simp [hem]

theorem verify_absent_of_expired_witness :
    verify_jwt_token no_floats 1700086401 (lit "123.34.101.120.112.34.58.49.55.48.48.48.56.54.52.48.48.44.34.117.115.101.114.95.105.100.34.58.55.44.34.117.115.101.114.110.97.109.101.34.58.34.97.34.125.") = none :=
  verify_absent_of_expired no_floats 1700086401 _
    (lit "\x7b\"exp\":1700086400,\"user_id\":7,\"username\":\"a\"\x7d")
    [(lit "exp", .number_unsigned 1700086400), (lit "user_id", .number_unsigned 7),
      (lit "username", .string (lit "a"))] 1700086400 rfl rfl (Or.inr ⟨by decide, rfl⟩)
    (by decide) (by decide) (by decide)

theorem get_long_error_of_not_number (F : FloatSem) (j : Json) (h : j.is_number = false) :
    get_long F j = .error (.type_error 302) := by
  cases j <;> simp_all [Json.is_number, get_long]

theorem get_int_error_of_not_number (F : FloatSem) (j : Json) (h : j.is_number = false)
    (hb : j.is_boolean = false) : get_int F j = .error (.type_error 302) := by
  cases j <;> simp_all [Json.is_number, Json.is_boolean, get_int]

theorem get_string_error_of_not_string (j : Json) (h : j.is_string = false) :
    get_string j = .error (.type_error 302) := by
  cases j <;> simp_all [Json.is_string, get_string]

theorem verify_none_of_not_object (F : FloatSem) (now : Int) (token decoded : Str)
    (payload : Json) (hd : decode_segments (getline_segments token []) [] = .ok decoded)
    (hp : parse F decoded = .ok payload) (ho : payload.is_object = false) :
    verify_jwt_token F now token = none := by
  unfold verify_jwt_token verify_try
  simp only [hd, hp]
  by_cases hem : decoded.isEmpty = true
  · simp [hem]
  · cases payload <;> simp_all [index, Except.bind, get_long, Json.is_object]

theorem verify_none_of_field (F : FloatSem) (now : Int) (token decoded : Str)
    (members : List (Str × Json))
    (hd : decode_segments (getline_segments token []) [] = .ok decoded)
    (hp : parse F decoded = .ok (.object members))
    (h : ((object_find members (lit "exp")).getD .null).is_number = false ∨
      (((object_find members (lit "user_id")).getD .null).is_number = false ∧
        ((object_find members (lit "user_id")).getD .null).is_boolean = false) ∨
      ((object_find members (lit "username")).getD .null).is_string = false) :
    verify_jwt_token F now token = none := by
  unfold verify_jwt_token verify_try
  simp only [hd, hp, index, Except.bind]
  by_cases hem : decoded.isEmpty = true
  · simp [hem]
  simp only [hem, Bool.false_eq_true, if_false]
  cases hl : get_long F ((object_find members (lit "exp")).getD .null) with
  | error e => rfl
  | ok exp =>
    simp only
    by_cases hlt : exp < now
    · simp [hlt]
    simp only [hlt, if_false]
    cases hi : get_int F ((object_find members (lit "user_id")).getD .null) with
    | error e => rfl
    | ok uid =>
      simp only
      cases hs : get_string ((object_find members (lit "username")).getD .null) with
      | error e => rfl
      | ok name =>
        exfalso
        rcases h with h | ⟨h1, h2⟩ | h
        · rw [get_long_error_of_not_number F _ h] at hl
          cases hl
        · rw [get_int_error_of_not_number F _ h1 h2] at hi
          cases hi
        · rw [get_string_error_of_not_string _ h] at hs
          cases hs

/-- C5 (as stated, refuted). A payload whose `user_id` is the boolean `true`
(mistyped) does not yield absence: the token verifies as user 1. -/
theorem boolean_user_id_accepted :
    decode_segments (getline_segments (lit "123.34.101.120.112.34.58.57.57.57.57.57.57.57.57.57.57.44.34.117.115.101.114.95.105.100.34.58.116.114.117.101.44.34.117.115.101.114.110.97.109.101.34.58.34.97.34.125.") []) []
        = .ok (lit "\x7b\"exp\":9999999999,\"user_id\":true,\"username\":\"a\"\x7d")
      ∧ verify_jwt_token no_floats 1700000000 (lit "123.34.101.120.112.34.58.57.57.57.57.57.57.57.57.57.57.44.34.117.115.101.114.95.105.100.34.58.116.114.117.101.44.34.117.115.101.114.110.97.109.101.34.58.34.97.34.125.")
        = some (1, lit "a") := by
  constructor
  · rfl
  · decide!

/-- C5 (amended). `verify_jwt_token` is total: for every input string and clock
reading it returns a principal or absence, and every exception raised inside
it becomes absence. In particular absence is returned when a non-empty segment
is not parseable as an integer or is out of `int` range, when the decoded bytes
are not valid JSON, when the payload is not an object, when `exp` is missing or
not a number, when `user_id` is missing or neither a number nor a boolean, and
when `username` is missing or not a string. -/
theorem verify_jwt_token_total (F : FloatSem) (now : Int) (token : Str) :
    ((∃ p, verify_jwt_token F now token = some p) ∨ verify_jwt_token F now token = none) ∧
    (∀ e, verify_try F now token = .error e → verify_jwt_token F now token = none) ∧
    (∀ seg ∈ getline_segments token [], seg ≠ [] →
      (stoi seg = .error .invalid_argument ∨ stoi seg = .error .out_of_range) →
      verify_jwt_token F now token = none) ∧
    (∀ decoded, decode_segments (getline_segments token []) [] = .ok decoded →
      (∀ e, parse F decoded = .error e → verify_jwt_token F now token = none) ∧
      (∀ payload, parse F decoded = .ok payload →
        (payload.is_object = false → verify_jwt_token F now token = none) ∧
        (∀ members, payload = .object members →
          (((object_find members (lit "exp")).getD .null).is_number = false →
            verify_jwt_token F now token = none) ∧
          (((object_find members (lit "user_id")).getD .null).is_number = false ∧
            ((object_find members (lit "user_id")).getD .null).is_boolean = false →
            verify_jwt_token F now token = none) ∧
          (((object_find members (lit "username")).getD .null).is_string = false →
            verify_jwt_token F now token = none)))) := by
  refine ⟨?_, ?_, ?_, ?_⟩
  · cases h : verify_jwt_token F now token with
    | none => exact Or.inr rfl
    | some p => exact Or.inl ⟨p, rfl⟩
  · intro e he
    simp [verify_jwt_token, he]
  · intro seg hseg hne hbad
    apply verify_none_of_bad_segment F now token seg hseg hne
    rcases hbad with h | h <;> exact ⟨_, h⟩
  · intro decoded hd
    refine ⟨?_, ?_⟩
    · intro e he
      unfold verify_jwt_token verify_try
      simp only [hd, he]
      by_cases hem : decoded.isEmpty = true <;> simp [hem]
    · intro payload hp
      refine ⟨verify_none_of_not_object F now token decoded payload hd hp, ?_⟩
      intro members hm
      subst hm
      exact ⟨fun h => verify_none_of_field F now token decoded members hd hp (Or.inl h),
        fun h => verify_none_of_field F now token decoded members hd hp (Or.inr (Or.inl h)),
        fun h => verify_none_of_field F now token decoded members hd hp (Or.inr (Or.inr h))⟩

theorem verify_jwt_token_total_witness :
    verify_jwt_token no_floats 1700000000 (lit "123.34.101.120.112.34.58.57.57.57.57.57.57.57.57.57.57.44.34.117.115.101.114.110.97.109.101.34.58.34.97.34.125.") = none :=
  ((((verify_jwt_token_total no_floats 1700000000 (lit "123.34.101.120.112.34.58.57.57.57.57.57.57.57.57.57.57.44.34.117.115.101.114.110.97.109.101.34.58.34.97.34.125.")).2.2.2
    (lit "\x7b\"exp\":9999999999,\"username\":\"a\"\x7d") rfl).2
    (.object [(lit "exp", .number_unsigned 9999999999), (lit "username", .string (lit "a"))])
    rfl).2 _ rfl).2.1 ⟨rfl, rfl⟩

/-! ## Altered tokens -/

theorem getline_segments_cur_mem (post : Str) : ∀ (cur : Str), cur ≠ [] →
    ∃ s, (cur ++ s) ∈ getline_segments post cur := by
  induction post with
  | nil =>
    intro cur hcur
    refine ⟨[], ?_⟩
    have : cur.isEmpty = false := by simpa using hcur
    simp [getline_segments, this]
  | cons x post ih =>
    intro cur hcur
    simp only [getline_segments]
    split
    · exact ⟨[], by simp⟩
    · obtain ⟨s, hs⟩ := ih (cur ++ [x]) (by simp)
      exact ⟨x :: s, by simpa using hs⟩

theorem getline_segments_after_dot (pre : Str) : ∀ (cur rest : Str) (seg : Str),
    seg ∈ getline_segments rest [] →
    seg ∈ getline_segments (pre ++ 46 :: rest) cur := by
  induction pre with
  | nil =>
    intro cur rest seg h
    simp [getline_segments, h]
  | cons x pre ih =>
    intro cur rest seg h
    simp only [List.cons_append, getline_segments]
    split
    · exact List.mem_cons_of_mem _ (ih [] rest seg h)
    · exact ih _ rest seg h

theorem stoi_digits_of_bad_start (c : Nat) (s : Str) (hd : isdigit c = false)
    (hs : isspace c = false) (h43 : c ≠ 43) (h45 : c ≠ 45) : stoi_digits (c :: s) = [] := by
  simp [stoi_digits, List.dropWhile, List.takeWhile, hs, hd, h43, h45]

/-- C2 (as stated, refuted). In the token issued at 1700000000 for user 7 named
`a`, replacing the character `7` at position 144 (in the segment `97`) by `8`
gives a token that verifies, as user 7 named `b`. -/
theorem tampered_token_accepted :
    generate_jwt_token no_floats 1700000000 7 (lit "a")
        = .ok (lit "123.34.101.120.112.34.58.49.55.48.48.48.56.54.52.48.48.44.34.117.115.101.114.95.105.100.34.58.55.44.34.117.115.101.114.110.97.109.101.34.58.34.97.34.125.")
      ∧ (lit "123.34.101.120.112.34.58.49.55.48.48.48.56.54.52.48.48.44.34.117.115.101.114.95.105.100.34.58.55.44.34.117.115.101.114.110.97.109.101.34.58.34.97.34.125.")[144]? = some 55
      ∧ verify_jwt_token no_floats 1700000000
          ((lit "123.34.101.120.112.34.58.49.55.48.48.48.56.54.52.48.48.44.34.117.115.101.114.95.105.100.34.58.55.44.34.117.115.101.114.110.97.109.101.34.58.34.97.34.125.").set 144 56)
        = some (7, lit "b") := by
  refine ⟨by decide!, by decide!, by decide!⟩

/-- In every token (issued or not), replacing the character at a position that
starts a segment (position 0 or just after a `.`) by one that cannot start an
integer (not a digit, `+`, `-`, white space or `.`) yields a string for which
`verify_jwt_token` returns absence. -/
theorem verify_none_of_damaged_segment_start (F : FloatSem) (now : Int) (token : Str)
    (pos c : Nat) (hpos : pos < token.length)
    (hstart : pos = 0 ∨ token[pos - 1]? = some 46)
    (hc : isdigit c = false ∧ isspace c = false ∧ c ≠ 43 ∧ c ≠ 45 ∧ c ≠ 46) :
    verify_jwt_token F now (token.set pos c) = none := by
  obtain ⟨hd, hs, h43, h45, h46⟩ := hc
  have hset : token.set pos c = token.take pos ++ c :: token.drop (pos + 1) := by
    rw [List.set_eq_take_append_cons_drop, if_pos hpos]
  obtain ⟨s, hmem⟩ := getline_segments_cur_mem (token.drop (pos + 1)) [c] (by simp)
  have hseg0 : ([c] ++ s) ∈ getline_segments (c :: token.drop (pos + 1)) [] := by
    simpa [getline_segments, h46] using hmem
  have hseg : ([c] ++ s) ∈ getline_segments (token.set pos c) [] := by
    rw [hset]
    by_cases h0 : pos = 0
    · subst h0
      simpa using hseg0
    · have hdot : token[pos - 1]? = some 46 := by
        rcases hstart with h | h
        · exact absurd h h0
        · exact h
      obtain ⟨k, rfl⟩ : ∃ k, pos = k + 1 := ⟨pos - 1, by omega⟩
      have htake : token.take (k + 1) = token.take k ++ [46] := by
        rw [List.take_succ]
        simp at hdot
        simp [hdot]
      rw [htake, List.append_assoc]
      exact getline_segments_after_dot _ [] _ _ hseg0
  exact verify_none_of_bad_segment F now _ ([c] ++ s) hseg (by simp)
    ⟨_, stoi_error_of_no_digits _ (stoi_digits_of_bad_start c s hd hs h43 h45)⟩

/-! ## Damaged segments -/

theorem takeWhile_append_stop (p : Nat → Bool) (l post : Str) (c : Nat) (hc : p c = false) :
    (l ++ c :: post).takeWhile p = l.takeWhile p := by
  induction l with
  | nil => simp [List.takeWhile, hc]
  | cons x l ih =>
    by_cases hx : p x = true
    · simp [List.takeWhile, hx, ih]
    · simp [List.takeWhile, hx]

/-- What `std::stoi` reads from a segment cut by a character that ends the
number depends only on the part before that character. -/
theorem stoi_cut (pre post : Str) (c : Nat) (hpre : ∀ x ∈ pre, isdigit x = true ∨ x = 45)
    (hd : isdigit c = false) (hs : isspace c = false) (h43 : c ≠ 43) (h45 : c ≠ 45) :
    stoi (pre ++ c :: post) = stoi (pre ++ [33]) := by
  cases pre with
  | nil =>
    have h1 := stoi_error_of_no_digits _ (stoi_digits_of_bad_start c post hd hs h43 h45)
    simp only [List.nil_append]
    rw [h1]
    rfl
  | cons x pre =>
    have hx : isspace x = false := by
      rcases hpre x (by simp) with h | h
      · simp [isdigit] at h
        simp [isspace]; omega
      · subst h; rfl
    have e33 : isdigit 33 = false := rfl
    have t1 := takeWhile_append_stop isdigit pre post c hd
    have t2 := takeWhile_append_stop isdigit pre [] 33 e33
    have t3 := takeWhile_append_stop isdigit (x :: pre) post c hd
    have t4 := takeWhile_append_stop isdigit (x :: pre) [] 33 e33
    simp only [List.cons_append] at t3 t4
    have hsign : stoi_sign ((x :: pre) ++ c :: post) = stoi_sign ((x :: pre) ++ [33]) := by
      simp [stoi_sign, List.dropWhile, hx]
    have hdig : stoi_digits ((x :: pre) ++ c :: post) = stoi_digits ((x :: pre) ++ [33]) := by
      simp only [stoi_digits, List.cons_append, List.dropWhile, hx, List.head?_cons, List.tail_cons]
      split
      · exact t1.trans t2.symm
      · exact t3.trans t4.symm
    unfold stoi
    rw [hsign, hdig]

/-- Every way of cutting the segment of a byte after `k` of its characters reads
as an error or as a byte related to it by `tamper_rel`. -/
theorem stoi_cut_outcome : ∀ b, b < 256 → ∀ k, k < 4 →
    k < (to_string (char_to_int b)).length →
    tamper_outcome b (stoi ((to_string (char_to_int b)).take k ++ [33])) = true := by
  decide!

theorem to_string_char_length (b : Nat) (hb : b < 256) :
    (to_string (char_to_int b)).length ≤ 4 := by
  revert b
  decide!

/-- Reading the segment of the byte `b` after one of its characters was replaced by
a character that ends the number. -/
theorem stoi_damaged_segment (b k c : Nat) (hb : b < 256)
    (hk : k < (to_string (char_to_int b)).length)
    (hd : isdigit c = false) (hs : isspace c = false) (h43 : c ≠ 43) (h45 : c ≠ 45) :
    tamper_outcome b (stoi ((to_string (char_to_int b)).set k c)) = true := by
  have hlen := to_string_char_length b hb
  have hset : (to_string (char_to_int b)).set k c
      = (to_string (char_to_int b)).take k ++ c :: (to_string (char_to_int b)).drop (k + 1) := by
    rw [List.set_eq_take_append_cons_drop, if_pos hk]
  rw [hset, stoi_cut _ _ c (fun x hx => ?_) hd hs h43 h45]
  · exact stoi_cut_outcome b hb k (by omega) hk
  · rcases to_string_chars _ x (List.mem_of_mem_take hx) with h | h
    · exact Or.inr h
    · exact Or.inl h

/-- Decoding an encoded text after one of its characters other than the `.`
separators was replaced by a character that ends a number: the decoding fails, or
gives the text with one byte replaced by a byte related to it by `tamper_rel`. -/
theorem decode_damaged (c : Nat) (hd : isdigit c = false) (hs : isspace c = false)
    (h43 : c ≠ 43) (h45 : c ≠ 45) (h46 : c ≠ 46) :
    ∀ (t : Str), (∀ b ∈ t, b < 256) → ∀ (pos : Nat) (acc : Str), pos < (encode t).length →
      (encode t)[pos]? ≠ some 46 →
      (∃ e, decode_segments (getline_segments ((encode t).set pos c) []) acc = .error e) ∨
      (∃ i b b1, t[i]? = some b ∧ tamper_rel b b1 = true ∧
        decode_segments (getline_segments ((encode t).set pos c) []) acc
          = .ok (acc ++ t.set i b1)) := by
  intro t
  induction t with
  | nil => intro _ pos acc hpos; simp [encode] at hpos
  | cons b t ih =>
    intro ht pos acc hpos hch
    have hb : b < 256 := ht b (by simp)
    have ht1 : ∀ x ∈ t, x < 256 := fun x hx => ht x (by simp [hx])
    simp only [encode] at hpos hch ⊢
    rcases Nat.lt_trichotomy pos (to_string (char_to_int b)).length with hlt | heq | hgt
    · rw [List.set_append_left _ _ hlt]
      have hnodot : ∀ x ∈ (to_string (char_to_int b)).set pos c, x ≠ 46 := by
        intro x hx
        rcases List.mem_or_eq_of_mem_set hx with h | h
        · exact to_string_no_dot _ x h
        · rw [h]; exact h46
      rw [getline_segments_append _ hnodot, getline_segments_encode]
      have hne : (to_string (char_to_int b)).set pos c ≠ [] := by
        intro h
        have h2 : ((to_string (char_to_int b)).set pos c).length = 0 := by rw [h]; rfl
        rw [List.length_set] at h2
        omega
      have hout := stoi_damaged_segment b pos c hb hlt hd hs h43 h45
      simp only [List.nil_append, decode_segments]
      cases hst : stoi ((to_string (char_to_int b)).set pos c) with
      | error e => left; exact ⟨e, by simp [hne]⟩
      | ok v =>
        right
        rw [hst] at hout
        refine ⟨0, b, int_to_char v, by simp, hout, ?_⟩
        simp [hne, decode_segments_map t ht1]
    · exfalso
      apply hch
      rw [heq, List.getElem?_append_right (le_refl _)]
      simp
    · have hset : (to_string (char_to_int b) ++ 46 :: encode t).set pos c
          = to_string (char_to_int b)
            ++ 46 :: (encode t).set (pos - (to_string (char_to_int b)).length - 1) c := by
        rw [List.set_append_right _ _ (by omega)]
        obtain ⟨m, hm⟩ : ∃ m, pos - (to_string (char_to_int b)).length = m + 1 :=
          ⟨pos - (to_string (char_to_int b)).length - 1, by omega⟩
        rw [hm]
        simp
      rw [hset, getline_segments_append _ (to_string_no_dot _)]
      have hst : stoi (to_string (char_to_int b)) = .ok (char_to_int b) := by
        apply stoi_to_string <;> (unfold char_to_int; split <;> omega)
      have hpos1 : pos - (to_string (char_to_int b)).length - 1 < (encode t).length := by
        simp at hpos; omega
      have hch1 : (encode t)[pos - (to_string (char_to_int b)).length - 1]? ≠ some 46 := by
        intro h
        apply hch
        rw [List.getElem?_append_right (by omega)]
        obtain ⟨m, hm⟩ : ∃ m, pos - (to_string (char_to_int b)).length = m + 1 :=
          ⟨pos - (to_string (char_to_int b)).length - 1, by omega⟩
        rw [hm]
        rw [hm] at h
        simpa using h
      have hdec : ∀ segs, decode_segments (([] ++ to_string (char_to_int b)) :: segs) acc
          = decode_segments segs (acc ++ [b]) := by
        intro segs
        simp [decode_segments, to_string_ne_nil, hst, int_to_char_char_to_int b hb]
      rw [hdec]
      rcases ih ht1 _ (acc ++ [b]) hpos1 hch1 with ⟨e, he⟩ | ⟨i, x, x1, hi, hrel, hok⟩
      · left; exact ⟨e, he⟩
      · right
        refine ⟨i + 1, x, x1, by simpa using hi, hrel, ?_⟩
        rw [hok]
        simp

/-! ## Damaged bytes in the text of a string -/

theorem tamper_rel_ascii (b b1 : Nat) (hb : b < 128) (h : tamper_rel b b1 = true) :
    1 ≤ b1 ∧ b1 ≤ 12 ∧ (b1 = 9 → 90 ≤ b ∧ b ≤ 99) ∧ (b1 = 10 → 100 ≤ b ∧ b ≤ 109) := by
  unfold tamper_rel at h
  rw [if_pos hb] at h
  simp only [Bool.and_eq_true, Bool.or_eq_true, decide_eq_true_eq, bne_iff_ne, ne_eq] at h
  omega

theorem tamper_rel_high (b b1 : Nat) (hb : 128 ≤ b) (h : tamper_rel b b1 = true) :
    244 ≤ b1 ∧ b1 ≤ 255 ∧ (b1 = 244 → b ≤ 136) := by
  unfold tamper_rel at h
  rw [if_neg (by omega)] at h
  simp only [Bool.and_eq_true, Bool.or_eq_true, decide_eq_true_eq, bne_iff_ne, ne_eq] at h
  omega

theorem scan_string_fail (k x : Nat) (rest acc : Str) (hx : x ≠ 34)
    (h : string_step x rest = none) :
    scan_string k (x :: rest) acc = .error .parse_error := by
  cases k with
  | zero => rfl
  | succ k => simp [scan_string, hx, h]

theorem string_step_control (b1 : Nat) (h : b1 ≤ 0x1F) (rest : Str) :
    string_step b1 rest = none := by
  have h92 : b1 ≠ 92 := by omega
  simp [string_step, h92, h]

theorem string_step_bad_escape (b1 : Nat) (h : b1 ≤ 0x1F) (rest : Str) :
    string_step 92 (b1 :: rest) = none := by
  have h117 : b1 ≠ 117 := by omega
  have hs : simple_escape b1 = none := by
    unfold simple_escape
    repeat (first | rw [if_neg (by omega)] | rfl)
  simp [string_step, h117, hs]

theorem hex_value_control (b1 : Nat) (h : b1 ≤ 0x1F) : hex_value b1 = none := by
  simp only [hex_value, in_range, Bool.and_eq_true, decide_eq_true_eq]
  repeat (first | rw [if_neg (by omega)] | rfl)

theorem get_codepoint_none (a b c d : Nat)
    (h : hex_value a = none ∨ hex_value b = none ∨ hex_value c = none ∨ hex_value d = none) :
    get_codepoint a b c d = none := by
  unfold get_codepoint
  cases ha : hex_value a <;> cases hb : hex_value b <;> cases hc : hex_value c <;>
    cases hd : hex_value d <;> simp_all

theorem string_step_bad_unicode (a b c d : Nat) (rest : Str)
    (h : hex_value a = none ∨ hex_value b = none ∨ hex_value c = none ∨ hex_value d = none) :
    string_step 92 (117 :: a :: b :: c :: d :: rest) = none := by
  simp [string_step, unicode_escape, get_codepoint_none a b c d h]

theorem hex_digit_lt (d : Nat) (h : d < 16) : hex_digit d < 128 := by
  unfold hex_digit
  split <;> omega

/-- The three shapes of what the serializer writes for an ASCII character. -/
theorem escape_ascii_shape (c : Nat) (hc : c ≤ 0x7F) :
    (∃ e, e < 128 ∧ escape_ascii c = [92, e]) ∨
    (∃ h1 h2, h1 < 128 ∧ h2 < 128 ∧ escape_ascii c = [92, 117, 48, 48, h1, h2]) ∨
    escape_ascii c = [c] := by
  unfold escape_ascii
  by_cases h8 : c = 8
  · left; exact ⟨98, by decide, by simp [h8]⟩
  by_cases h9 : c = 9
  · left; exact ⟨116, by decide, by simp [h9]⟩
  by_cases h10 : c = 10
  · left; exact ⟨110, by decide, by simp [h10]⟩
  by_cases h12 : c = 12
  · left; exact ⟨102, by decide, by simp [h12]⟩
  by_cases h13 : c = 13
  · left; exact ⟨114, by decide, by simp [h13]⟩
  by_cases h34 : c = 34
  · left; exact ⟨34, by decide, by simp [h34]⟩
  by_cases h92 : c = 92
  · left; exact ⟨92, by decide, by simp [h92]⟩
  by_cases h1f : c ≤ 0x1F
  · right; left
    exact ⟨hex_digit (c / 16), hex_digit (c % 16), hex_digit_lt _ (by omega),
      hex_digit_lt _ (by omega), by simp [*]⟩
  · right; right
    simp [*]

/-- A damaged byte in what the serializer wrote for an ASCII character stops the
lexer at that character. -/
theorem escape_ascii_damaged (c : Nat) (hc : c ≤ 0x7F) (j b b1 : Nat)
    (hj : (escape_ascii c)[j]? = some b) (hrel : tamper_rel b b1 = true) (rest : Str) :
    ∃ x r, (escape_ascii c).set j b1 ++ rest = x :: r ∧ x ≠ 34 ∧ string_step x r = none := by
  rcases escape_ascii_shape c hc with ⟨e, he, hsh⟩ | ⟨h1, h2, hh1, hh2, hsh⟩ | hsh
  · rw [hsh] at hj ⊢
    match j, hj with
    | 0, hj =>
      simp at hj
      obtain ⟨p1, p2, _, _⟩ := tamper_rel_ascii b b1 (by omega) hrel
      exact ⟨b1, e :: rest, rfl, by omega, string_step_control b1 (by omega) _⟩
    | 1, hj =>
      simp at hj
      obtain ⟨p1, p2, _, _⟩ := tamper_rel_ascii b b1 (by omega) hrel
      exact ⟨92, b1 :: rest, rfl, by decide, string_step_bad_escape b1 (by omega) _⟩
    | j + 2, hj => simp at hj
  · rw [hsh] at hj ⊢
    have hb : b < 128 := by
      match j, hj with
      | 0, hj => simp at hj; omega
      | 1, hj => simp at hj; omega
      | 2, hj => simp at hj; omega
      | 3, hj => simp at hj; omega
      | 4, hj => simp at hj; omega
      | 5, hj => simp at hj; omega
      | j + 6, hj => simp at hj
    obtain ⟨p1, p2, _, _⟩ := tamper_rel_ascii b b1 hb hrel
    have hv := hex_value_control b1 (by omega)
    match j, hj with
    | 0, hj => exact ⟨b1, _, rfl, by omega, string_step_control b1 (by omega) _⟩
    | 1, hj => exact ⟨92, _, rfl, by decide, string_step_bad_escape b1 (by omega) _⟩
    | 2, hj => exact ⟨92, _, rfl, by decide, string_step_bad_unicode _ _ _ _ _ (Or.inl hv)⟩
    | 3, hj =>
      exact ⟨92, _, rfl, by decide, string_step_bad_unicode _ _ _ _ _ (Or.inr (Or.inl hv))⟩
    | 4, hj =>
      exact ⟨92, _, rfl, by decide,
        string_step_bad_unicode _ _ _ _ _ (Or.inr (Or.inr (Or.inl hv)))⟩
    | 5, hj =>
      exact ⟨92, _, rfl, by decide,
        string_step_bad_unicode _ _ _ _ _ (Or.inr (Or.inr (Or.inr hv)))⟩
    | j + 6, hj => simp at hj
  · rw [hsh] at hj ⊢
    match j, hj with
    | 0, hj =>
      simp at hj
      obtain ⟨p1, p2, _, _⟩ := tamper_rel_ascii b b1 (by omega) hrel
      exact ⟨b1, rest, rfl, by omega, string_step_control b1 (by omega) _⟩
    | j + 1, hj => simp at hj

theorem utf8_tail_bounds (c n lo hi : Nat) (h : utf8_tail c = some (n, lo, hi)) :
    0x80 ≤ lo ∧ hi ≤ 0xBF := by
  unfold utf8_tail at h
  split at h
  · simp at h; omega
  split at h
  · simp at h; omega
  split at h
  · simp at h; omega
  split at h
  · simp at h; omega
  split at h
  · simp at h; omega
  split at h
  · simp at h; omega
  split at h
  · simp at h; omega
  · simp at h

theorem utf8_tail_none (b1 : Nat) (h : 245 ≤ b1) : utf8_tail b1 = none := by
  simp only [utf8_tail, in_range, Bool.and_eq_true, decide_eq_true_eq, Bool.or_eq_true]
  repeat (first | rw [if_neg (by omega)] | rfl)

theorem mem_set_self (b1 : Nat) : ∀ (l : Str) (i : Nat), i < l.length → b1 ∈ l.set i b1 := by
  intro l
  induction l with
  | nil => intro i h; simp at h
  | cons x l ih =>
    intro i h
    cases i with
    | zero => simp
    | succ i =>
      simp only [List.set_cons_succ, List.mem_cons]
      exact Or.inr (ih i (by simpa using h))

/-- A damaged byte in a multi-byte sequence stops the lexer at that sequence. -/
theorem utf8_sequence_damaged (c : Nat) (hc : ¬ c ≤ 0x7F) (u1 bytes rest1 : Str)
    (h : utf8_sequence c u1 = some (bytes, rest1)) (j b b1 : Nat)
    (hj : bytes[j]? = some b) (hrel : tamper_rel b b1 = true) (rest : Str) :
    ∃ x r, bytes.set j b1 ++ rest = x :: r ∧ x ≠ 34 ∧ string_step x r = none := by
  unfold utf8_sequence at h
  cases ht : utf8_tail c with
  | none => simp [ht] at h
  | some t =>
    obtain ⟨n, lo, hi⟩ := t
    simp only [ht] at h
    split at h
    · rename_i hcond
      simp only [Option.some.injEq, Prod.mk.injEq] at h
      obtain ⟨h1, _⟩ := h
      subst h1
      simp only [Bool.and_eq_true, decide_eq_true_eq] at hcond
      obtain ⟨⟨hlen, hhead⟩, htail⟩ := hcond
      obtain ⟨hlo, hhi⟩ := utf8_tail_bounds c n lo hi ht
      obtain ⟨hlead, _⟩ := utf8_tail_lead c _ ht
      cases j with
      | zero =>
        simp only [List.getElem?_cons_zero, Option.some.injEq] at hj
        subst hj
        obtain ⟨p1, p2, p3⟩ := tamper_rel_high c b1 (by omega) hrel
        have hb1 : 245 ≤ b1 := by
          rcases Nat.lt_or_ge 244 b1 with h | h
          · omega
          · have := p3 (by omega); omega
        refine ⟨b1, List.take n u1 ++ rest, rfl, by omega, ?_⟩
        have e1 : b1 ≠ 92 := by omega
        have e2 : ¬ b1 ≤ 0x1F := by omega
        have e3 : ¬ b1 ≤ 0x7F := by omega
        simp [string_step, e1, e2, e3, utf8_sequence, utf8_tail_none b1 hb1]
      | succ i =>
        simp only [List.getElem?_cons_succ] at hj
        have hi1 : i < (List.take n u1).length := by
          rcases Nat.lt_or_ge i (List.take n u1).length with h | h
          · exact h
          · rw [List.getElem?_eq_none h] at hj; simp at hj
        have hbmem : b ∈ List.take n u1 := List.mem_iff_getElem?.mpr ⟨i, hj⟩
        have hb : 0x80 ≤ b := by
          cases hbs : List.take n u1 with
          | nil => rw [hbs] at hbmem; simp at hbmem
          | cons b0 bt =>
            rw [hbs] at hhead htail hbmem
            simp only [List.head?_cons, Option.all_some, in_range, Bool.and_eq_true,
              decide_eq_true_eq] at hhead
            simp only [List.tail_cons, List.all_eq_true, in_range, Bool.and_eq_true,
              decide_eq_true_eq] at htail
            rcases List.mem_cons.mp hbmem with h | h
            · omega
            · exact (htail b h).1
        obtain ⟨p1, p2, _⟩ := tamper_rel_high b b1 (by omega) hrel
        refine ⟨c, (List.take n u1).set i b1 ++ rest, rfl, by omega, ?_⟩
        have e1 : c ≠ 92 := by omega
        have e2 : ¬ c ≤ 0x1F := by omega
        have hlen1 : ((List.take n u1).set i b1).length = n := by
          rw [List.length_set]; exact hlen
        have htk : ((List.take n u1).set i b1 ++ rest).take n = (List.take n u1).set i b1 := by
          rw [List.take_append_of_le_length (by omega)]
          exact List.take_eq_self_iff _ |>.mpr (by omega)
        have hbad : (((List.take n u1).set i b1).head?.all (fun b => in_range b lo hi)
            && ((List.take n u1).set i b1).tail.all (fun b => in_range b 0x80 0xBF)) = false := by
          cases hbs : List.take n u1 with
          | nil => rw [hbs] at hi1; simp at hi1
          | cons b0 bt =>
            cases i with
            | zero =>
              have e : in_range b1 lo hi = false := by simp [in_range]; omega
              simp [e]
            | succ i =>
              rw [hbs] at hi1
              have hm := mem_set_self b1 bt i (by simpa using hi1)
              have e : in_range b1 0x80 0xBF = false := by simp [in_range]; omega
              have : (bt.set i b1).all (fun b => in_range b 0x80 0xBF) = false := by
                rw [List.all_eq_false]
                exact ⟨b1, hm, by simp [e]⟩
              simp [this]
        simp only [string_step, e1, e2, hc, if_false, utf8_sequence, ht, htk, hlen1]
        simp [hbad]
    · simp at h

theorem set_append_cases (A B : Str) (j b1 b : Nat) (h : (A ++ B)[j]? = some b) :
    (j < A.length ∧ A[j]? = some b ∧ (A ++ B).set j b1 = A.set j b1 ++ B) ∨
    (A.length ≤ j ∧ B[j - A.length]? = some b ∧ (A ++ B).set j b1 = A ++ B.set (j - A.length) b1) := by
  by_cases hlt : j < A.length
  · left
    rw [List.getElem?_append_left hlt] at h
    exact ⟨hlt, h, List.set_append_left _ _ hlt⟩
  · right
    have hle : A.length ≤ j := by omega
    rw [List.getElem?_append_right hle] at h
    exact ⟨hle, h, List.set_append_right _ _ hle⟩

theorem scan_string_damaged_quote (j b b1 : Nat) (tail acc : Str) (fuel1 : Nat)
    (hj : ([34] : Str)[j]? = some b) (hrel : tamper_rel b b1 = true) :
    scan_string fuel1 (([34] : Str).set j b1 ++ tail) acc = .error .parse_error := by
  match j, hj with
  | 0, hj =>
    simp at hj
    obtain ⟨p1, p2, _, _⟩ := tamper_rel_ascii b b1 (by omega) hrel
    exact scan_string_fail fuel1 b1 tail acc (by omega) (string_step_control b1 (by omega) _)
  | j + 1, hj => simp at hj

/-- A damaged byte in the text of a string, closing quote included, is a lexical
error. -/
theorem scan_string_damaged (fuel : Nat) : ∀ (u esc : Str), u.length ≤ fuel →
    dump_escaped fuel u = .ok esc → ∀ (j b b1 : Nat) (tail acc : Str) (fuel1 : Nat),
    (esc ++ [34])[j]? = some b → tamper_rel b b1 = true →
    scan_string fuel1 ((esc ++ [34]).set j b1 ++ tail) acc = .error .parse_error := by
  induction fuel with
  | zero =>
    intro u esc hu h j b b1 tail acc fuel1 hj hrel
    simp only [dump_escaped, Except.ok.injEq] at h
    subst h
    exact scan_string_damaged_quote j b b1 tail acc fuel1 hj hrel
  | succ fuel ih =>
    intro u esc hu h j b b1 tail acc fuel1 hj hrel
    match u, hu, h with
    | [], _, h =>
      simp only [dump_escaped, Except.ok.injEq] at h
      subst h
      exact scan_string_damaged_quote j b b1 tail acc fuel1 hj hrel
    | c :: u1, hu, h =>
      simp only [dump_escaped] at h
      split at h
      · rename_i hc
        cases hr : dump_escaped fuel u1 with
        | error e => simp [hr] at h
        | ok r =>
          simp only [hr, Except.ok.injEq] at h
          subst h
          rw [List.append_assoc] at hj ⊢
          rcases set_append_cases (escape_ascii c) (r ++ [34]) j b1 b hj with
            ⟨_, hj1, hset⟩ | ⟨_, hj1, hset⟩
          · obtain ⟨x, r1, e, hx, hstep⟩ :=
              escape_ascii_damaged c hc j b b1 hj1 hrel ((r ++ [34]) ++ tail)
            rw [hset, List.append_assoc, e]
            exact scan_string_fail fuel1 x r1 acc hx hstep
          · rw [hset]
            cases fuel1 with
            | zero => rfl
            | succ k =>
              obtain ⟨x, out, hout, hx, hstep⟩ := string_step_escape_ascii c hc
                ((r ++ [34]).set (j - (escape_ascii c).length) b1 ++ tail)
              have e : escape_ascii c ++ (r ++ [34]).set (j - (escape_ascii c).length) b1 ++ tail
                  = x :: (out ++ ((r ++ [34]).set (j - (escape_ascii c).length) b1 ++ tail)) := by
                rw [hout]; simp
              rw [e, scan_string_step k x _ acc _ _ hx hstep]
              exact ih u1 r (by simp at hu; omega) hr _ b b1 tail _ k hj1 hrel
      · rename_i hc
        cases hs : utf8_sequence c u1 with
        | none => simp [hs] at h
        | some p =>
          obtain ⟨bytes, rest1⟩ := p
          simp only [hs] at h
          cases hr : dump_escaped fuel rest1 with
          | error e => simp [hr] at h
          | ok r =>
            simp only [hr, Except.ok.injEq] at h
            subst h
            rw [List.append_assoc] at hj ⊢
            rcases set_append_cases bytes (r ++ [34]) j b1 b hj with
              ⟨_, hj1, hset⟩ | ⟨_, hj1, hset⟩
            · obtain ⟨x, r1, e, hx, hstep⟩ :=
                utf8_sequence_damaged c hc u1 bytes rest1 hs j b b1 hj1 hrel ((r ++ [34]) ++ tail)
              rw [hset, List.append_assoc, e]
              exact scan_string_fail fuel1 x r1 acc hx hstep
            · rw [hset]
              cases fuel1 with
              | zero => rfl
              | succ k =>
                obtain ⟨bs, hb1, hb2, _, hb3⟩ := utf8_sequence_split c u1 bytes rest1 hs
                subst hb1
                have hc34 : c ≠ 34 := by omega
                have hc92 : c ≠ 92 := by omega
                have hc1f : ¬ c ≤ 0x1F := by omega
                have hstep : string_step c
                    (bs ++ ((r ++ [34]).set (j - (c :: bs).length) b1 ++ tail))
                    = some (c :: bs, (r ++ [34]).set (j - (c :: bs).length) b1 ++ tail) := by
                  simp only [string_step, hc34, hc92, hc1f, hc, if_false]
                  exact hb3 _
                have e : c :: bs ++ (r ++ [34]).set (j - (c :: bs).length) b1 ++ tail
                    = c :: (bs ++ ((r ++ [34]).set (j - (c :: bs).length) b1 ++ tail)) := by simp
                rw [e, scan_string_step k c _ acc _ _ hc34 hstep]
                have hu1 : rest1.length ≤ fuel := by
                  have : u1.length = bs.length + rest1.length := by rw [hb2]; simp
                  simp at hu
                  omega
                exact ih rest1 r hu1 hr _ b b1 tail _ k hj1 hrel

/-! ## Damaged bytes outside strings -/

/-- A control character other than white space and the zero byte starts no token. -/
theorem scan_control (b1 : Nat) (h1 : 1 ≤ b1) (h2 : b1 ≤ 12) (h9 : b1 ≠ 9) (h10 : b1 ≠ 10)
    (r : Str) : scan (b1 :: r) = .error .parse_error := by
  interval_cases b1 <;> first | rfl | omega

theorem scan_at_number (c : Nat) (r : Str) (h : c = 45 ∨ isdigit c = true) :
    scan (c :: r) = scan_number (c :: r) := by
  have hc : c = 45 ∨ (48 ≤ c ∧ c ≤ 57) := by
    rcases h with h | h
    · exact Or.inl h
    · right; simpa [isdigit] using h
  have hsp : is_json_space c = false := by simp [is_json_space]; omega
  unfold scan
  simp only [List.dropWhile, hsp]
  have e1 : c ≠ 91 := by omega
  have e2 : c ≠ 93 := by omega
  have e3 : c ≠ 123 := by omega
  have e4 : c ≠ 125 := by omega
  have e5 : c ≠ 58 := by omega
  have e6 : c ≠ 44 := by omega
  have e7 : c ≠ 116 := by omega
  have e8 : c ≠ 102 := by omega
  have e9 : c ≠ 110 := by omega
  have e10 : c ≠ 34 := by omega
  simp only [e1, e2, e3, e4, e5, e6, e7, e8, e9, e10, if_false]
  rcases h with h | h <;> simp [h]

theorem scan_number_sign_only (b1 : Nat) (hb : isdigit b1 = false) (post : Str) :
    scan_number (45 :: b1 :: post) = .error .parse_error := by
  unfold scan_number
  simp [hb]

/-- The lexer reads a number up to a control character and stops in front of it. -/
theorem scan_number_stop (neg : Bool) (d b1 : Nat) (ds post : Str) (hd : isdigit d = true)
    (hz : d = 48 → ds = []) (hds : ∀ x ∈ ds, isdigit x = true) (h1 : 1 ≤ b1) (h2 : b1 ≤ 12) :
    ∃ tok, scan_number ((if neg then [45] else []) ++ d :: (ds ++ b1 :: post))
        = .ok (tok, b1 :: post) ∧
      ((∃ n, tok = .value_unsigned n) ∨ (∃ n, tok = .value_integer n)
        ∨ (∃ t, tok = .value_float t)) := by
  have hd1 : 48 ≤ d ∧ d ≤ 57 := by simpa [isdigit] using hd
  have h45 : d ≠ 45 := by omega
  have hb : isdigit b1 = false := by simp [isdigit]; omega
  have htd := takeWhile_digits_append ds post b1 hds hb
  by_cases hd0 : d = 48
  · have hnil := hz hd0
    subst hd0 hnil
    cases neg with
    | false =>
      refine ⟨.value_unsigned 0, ?_, Or.inl ⟨_, rfl⟩⟩
      unfold scan_number
      interval_cases b1 <;> simp [isdigit, digits_value]
    | true =>
      refine ⟨.value_integer 0, ?_, Or.inr (Or.inl ⟨_, rfl⟩)⟩
      unfold scan_number
      interval_cases b1 <;> simp [isdigit, digits_value]
  cases neg with
  | false =>
    by_cases hsz : digits_value (d :: ds) < 18446744073709551616
    · refine ⟨.value_unsigned (digits_value (d :: ds)), ?_, Or.inl ⟨_, rfl⟩⟩
      unfold scan_number
      interval_cases b1 <;> simp [h45, hd, hd0, htd.1, htd.2, hsz]
    · refine ⟨.value_float (d :: ds), ?_, Or.inr (Or.inr ⟨_, rfl⟩)⟩
      unfold scan_number
      interval_cases b1 <;> simp [h45, hd, hd0, htd.1, htd.2, hsz]
  | true =>
    by_cases hsz : digits_value (d :: ds) ≤ 9223372036854775808
    · refine ⟨.value_integer (-(digits_value (d :: ds) : Int)), ?_, Or.inr (Or.inl ⟨_, rfl⟩)⟩
      unfold scan_number
      interval_cases b1 <;> simp [hd, hd0, htd.1, htd.2, hsz]
    · refine ⟨.value_float (45 :: d :: ds), ?_, Or.inr (Or.inr ⟨_, rfl⟩)⟩
      unfold scan_number
      interval_cases b1 <;> simp [hd, hd0, htd.1, htd.2, hsz]

theorem set_eq_take_cons_drop (l : Str) (i b1 : Nat) (h : i < l.length) :
    l.set i b1 = l.take i ++ b1 :: l.drop (i + 1) := by
  rw [List.set_eq_take_append_cons_drop, if_pos h]

/-- A damaged digit of a decimal text: the lexer fails, or reads a number and
stops in front of the damaged character. -/
theorem scan_number_damaged_dec (neg : Bool) (n j b b1 : Nat) (rest : Str)
    (hj : (dec n)[j]? = some b) (h1 : 1 ≤ b1) (h2 : b1 ≤ 12) (h9 : b1 ≠ 9) (h10 : b1 ≠ 10) :
    scan ((if neg then [45] else []) ++ (dec n).set j b1 ++ rest) = .error .parse_error ∨
    ∃ tok r, scan ((if neg then [45] else []) ++ (dec n).set j b1 ++ rest) = .ok (tok, b1 :: r) ∧
      ((∃ n, tok = .value_unsigned n) ∨ (∃ n, tok = .value_integer n)
        ∨ (∃ t, tok = .value_float t)) := by
  have hdig := dec_digits n
  obtain ⟨d, ds, hd, h0, hpos⟩ := dec_head n
  rw [hd] at hdig hj ⊢
  have hb : isdigit b1 = false := by simp [isdigit]; omega
  have hdd : isdigit d = true := hdig d (by simp)
  cases j with
  | zero =>
    left
    cases neg with
    | false => exact scan_control b1 h1 h2 h9 h10 _
    | true =>
      have e : (if true = true then [45] else []) ++ (d :: ds).set 0 b1 ++ rest
          = 45 :: b1 :: (ds ++ rest) := by simp
      rw [e, scan_at_number 45 _ (Or.inl rfl)]
      exact scan_number_sign_only b1 hb _
  | succ i =>
    right
    simp only [List.getElem?_cons_succ] at hj
    have hi : i < ds.length := by
      rcases Nat.lt_or_ge i ds.length with h | h
      · exact h
      · rw [List.getElem?_eq_none h] at hj; simp at hj
    have hn0 : d ≠ 48 := by
      apply hpos
      rcases Nat.eq_zero_or_pos n with h | h
      · have := (h0 h).2
        rw [this] at hi
        simp at hi
      · exact h
    have hset : (d :: ds).set (i + 1) b1 = d :: (ds.take i ++ b1 :: ds.drop (i + 1)) := by
      rw [List.set_cons_succ, set_eq_take_cons_drop ds i b1 hi]
    obtain ⟨tok, hs, hk⟩ := scan_number_stop neg d b1 (ds.take i) (ds.drop (i + 1) ++ rest) hdd
      (fun h => absurd h hn0) (fun x hx => hdig x (by simp [List.mem_of_mem_take hx])) h1 h2
    refine ⟨tok, ds.drop (i + 1) ++ rest, ?_, hk⟩
    rw [hset]
    cases neg with
    | false =>
      have e : (if false = true then [45] else []) ++ d :: (ds.take i ++ b1 :: ds.drop (i + 1)) ++ rest
          = d :: (ds.take i ++ b1 :: (ds.drop (i + 1) ++ rest)) := by simp
      rw [e, scan_at_number d _ (Or.inr hdd)]
      simpa using hs
    | true =>
      have e : (if true = true then [45] else []) ++ d :: (ds.take i ++ b1 :: ds.drop (i + 1)) ++ rest
          = 45 :: d :: (ds.take i ++ b1 :: (ds.drop (i + 1) ++ rest)) := by simp
      rw [e, scan_at_number 45 _ (Or.inl rfl)]
      simpa using hs

/-- The lexer reads a decimal text that a control character follows and stops in
front of that character. -/
theorem scan_number_then_control (neg : Bool) (n b1 : Nat) (rest : Str)
    (h1 : 1 ≤ b1) (h2 : b1 ≤ 12) :
    ∃ tok, scan ((if neg then [45] else []) ++ dec n ++ b1 :: rest) = .ok (tok, b1 :: rest) ∧
      ((∃ n, tok = .value_unsigned n) ∨ (∃ n, tok = .value_integer n)
        ∨ (∃ t, tok = .value_float t)) := by
  have hdig := dec_digits n
  obtain ⟨d, ds, hd, h0, hpos⟩ := dec_head n
  rw [hd] at hdig ⊢
  have hdd : isdigit d = true := hdig d (by simp)
  have hz : d = 48 → ds = [] := by
    intro h
    rcases Nat.eq_zero_or_pos n with hn | hn
    · exact (h0 hn).2
    · exact absurd h (hpos hn)
  obtain ⟨tok, hs, hk⟩ := scan_number_stop neg d b1 ds rest hdd hz
    (fun x hx => hdig x (by simp [hx])) h1 h2
  refine ⟨tok, ?_, hk⟩
  cases neg with
  | false =>
    have e : (if false = true then [45] else []) ++ d :: ds ++ b1 :: rest
        = d :: (ds ++ b1 :: rest) := by simp
    rw [e, scan_at_number d _ (Or.inr hdd)]
    simpa using hs
  | true =>
    have e : (if true = true then [45] else []) ++ d :: ds ++ b1 :: rest
        = 45 :: d :: (ds ++ b1 :: rest) := by simp
    rw [e, scan_at_number 45 _ (Or.inl rfl)]
    simpa using hs

theorem to_string_sign (v : Int) :
    to_string v = (if decide (v < 0) then [45] else []) ++ dec (if v < 0 then v.natAbs else v.toNat) := by
  unfold to_string
  by_cases h : v < 0 <;> simp [h]

/-- The parser on a number token. -/
theorem parse_step_number_token (F : FloatSem) (k : Nat) (inp r : Str) (tok : Token)
    (arr : List Json) (obj : List (Str × Json)) (hs : scan inp = .ok (tok, r))
    (hk : (∃ n, tok = .value_unsigned n) ∨ (∃ n, tok = .value_integer n)
      ∨ (∃ t, tok = .value_float t)) :
    (∃ e, parse_step F (k + 1) 0 inp arr obj = .error e) ∨
    (∃ jv, parse_step F (k + 1) 0 inp arr obj = .ok (jv, r)) := by
  rcases hk with ⟨n, rfl⟩ | ⟨n, rfl⟩ | ⟨t, rfl⟩
  · right; exact ⟨.number_unsigned n, by rw [parse_step]; simp [hs]⟩
  · right; exact ⟨.number_integer n, by rw [parse_step]; simp [hs]⟩
  · by_cases hf : F.finite t = true
    · right; exact ⟨.number_float t, by rw [parse_step]; simp [hs, hf]⟩
    · left; exact ⟨.json_out_of_range, by rw [parse_step]; simp [hs, hf]⟩

theorem parse_step_scan_error (F : FloatSem) (k : Nat) (inp : Str) (e : Exc) (arr : List Json)
    (obj : List (Str × Json)) (h : scan inp = .error e) :
    parse_step F (k + 1) 0 inp arr obj = .error e := by
  rw [parse_step]
  simp [h]

/-- A number with a damaged character, or followed by a damaged separator: the
parser fails, or reads a value and the lexer fails on what follows it. -/
theorem parse_step_damaged_number (F : FloatSem) (k : Nat) (v : Int) (sep j b b1 : Nat)
    (rest : Str) (arr : List Json) (obj : List (Str × Json))
    (hsep : sep = 44 ∨ sep = 125)
    (hj : (to_string v ++ [sep])[j]? = some b) (hrel : tamper_rel b b1 = true) :
    (∃ e, parse_step F (k + 1) 0 ((to_string v ++ [sep]).set j b1 ++ rest) arr obj = .error e) ∨
    (∃ jv r, parse_step F (k + 1) 0 ((to_string v ++ [sep]).set j b1 ++ rest) arr obj = .ok (jv, r)
      ∧ scan r = .error .parse_error) := by
  have hbch : b = 45 ∨ isdigit b = true ∨ b = 44 ∨ b = 125 := by
    have hm : b ∈ to_string v ++ [sep] := List.mem_iff_getElem?.mpr ⟨j, hj⟩
    rcases List.mem_append.mp hm with h | h
    · rcases to_string_chars v b h with h | h
      · exact Or.inl h
      · exact Or.inr (Or.inl h)
    · simp at h
      rcases hsep with hs | hs <;> subst hs <;> simp [h]
  have hb1 : 1 ≤ b1 ∧ b1 ≤ 12 ∧ b1 ≠ 9 ∧ b1 ≠ 10 := by
    have hb : b < 128 ∧ ¬ (90 ≤ b ∧ b ≤ 109) := by
      rcases hbch with h | h | h | h
      · omega
      · simp [isdigit] at h; omega
      · omega
      · omega
    obtain ⟨p1, p2, p3, p4⟩ := tamper_rel_ascii b b1 hb.1 hrel
    refine ⟨p1, p2, ?_, ?_⟩
    · intro h; have := p3 h; omega
    · intro h; have := p4 h; omega
  obtain ⟨q1, q2, q3, q4⟩ := hb1
  have hfin : ∀ inp tok r, scan inp = .ok (tok, b1 :: r) →
      ((∃ n, tok = .value_unsigned n) ∨ (∃ n, tok = .value_integer n)
        ∨ (∃ t, tok = .value_float t)) →
      (∃ e, parse_step F (k + 1) 0 inp arr obj = .error e) ∨
      (∃ jv r, parse_step F (k + 1) 0 inp arr obj = .ok (jv, r) ∧ scan r = .error .parse_error) := by
    intro inp tok r hs hk
    rcases parse_step_number_token F k inp (b1 :: r) tok arr obj hs hk with ⟨e, he⟩ | ⟨jv, hjv⟩
    · exact Or.inl ⟨e, he⟩
    · exact Or.inr ⟨jv, b1 :: r, hjv, scan_control b1 q1 q2 q3 q4 r⟩
  rcases set_append_cases (to_string v) [sep] j b1 b hj with ⟨hlt, hj1, hset⟩ | ⟨hle, hj1, hset⟩
  · rw [hset]
    rw [to_string_sign] at hj1 ⊢
    generalize (if v < 0 then v.natAbs else v.toNat) = n at hj1 ⊢
    cases hneg : decide (v < 0) with
    | false =>
      rw [hneg] at hj1
      simp only [Bool.false_eq_true, if_false, List.nil_append] at hj1 ⊢
      rcases scan_number_damaged_dec false n j b b1 ([sep] ++ rest) hj1 q1 q2 q3 q4 with h | ⟨tok, r, h, hk⟩
      · left
        refine ⟨.parse_error, parse_step_scan_error F k _ _ arr obj ?_⟩
        simpa using h
      · exact hfin _ tok r (by simpa using h) hk
    | true =>
      rw [hneg] at hj1
      simp only [if_true] at hj1 ⊢
      cases j with
      | zero =>
        left
        refine ⟨.parse_error, parse_step_scan_error F k _ _ arr obj ?_⟩
        simp only [List.cons_append, List.nil_append, List.set_cons_zero]
        exact scan_control b1 q1 q2 q3 q4 _
      | succ i =>
        simp only [List.cons_append, List.nil_append, List.getElem?_cons_succ] at hj1
        rcases scan_number_damaged_dec true n i b b1 ([sep] ++ rest) hj1 q1 q2 q3 q4 with
          h | ⟨tok, r, h, hk⟩
        · left
          refine ⟨.parse_error, parse_step_scan_error F k _ _ arr obj ?_⟩
          simpa using h
        · exact hfin _ tok r (by simpa using h) hk
  · rw [hset]
    have hj0 : j - (to_string v).length = 0 := by
      rcases Nat.eq_zero_or_pos (j - (to_string v).length) with h | h
      · exact h
      · rw [List.getElem?_eq_none (by simp; omega)] at hj1; simp at hj1
    rw [hj0]
    rw [to_string_sign]
    obtain ⟨tok, h, hk⟩ := scan_number_then_control (decide (v < 0))
      (if v < 0 then v.natAbs else v.toNat) b1 rest q1 q2
    exact hfin _ tok rest (by simpa using h) hk

/-! ## Damaged bytes in the payload text -/

/-- A damaged byte in a quoted string is a lexical error. -/
theorem scan_damaged_quoted (u esc : Str) (h : dump_escaped u.length u = .ok esc)
    (j b b1 : Nat) (tail : Str) (hj : (34 :: (esc ++ [34]))[j]? = some b)
    (hrel : tamper_rel b b1 = true) :
    scan ((34 :: (esc ++ [34])).set j b1 ++ tail) = .error .parse_error := by
  cases j with
  | zero =>
    simp only [List.getElem?_cons_zero, Option.some.injEq] at hj
    subst hj
    obtain ⟨p1, p2, p3, p4⟩ := tamper_rel_ascii 34 b1 (by decide) hrel
    simp only [List.set_cons_zero, List.cons_append]
    exact scan_control b1 p1 p2 (fun h => by have := p3 h; omega)
      (fun h => by have := p4 h; omega) _
  | succ i =>
    simp only [List.getElem?_cons_succ] at hj
    have hs := scan_string_damaged u.length u esc (Nat.le_refl _) h i b b1 tail []
      ((esc ++ [34]).set i b1 ++ tail).length hj hrel
    simp only [List.set_cons_succ, List.cons_append]
    unfold scan
    simp only [List.dropWhile, is_json_space]
    simp only [show ((34 : Nat) == 32 || (34 : Nat) == 9 || (34 : Nat) == 10 || (34 : Nat) == 13) = false
      by decide]
    simp only [show (34 : Nat) ≠ 91 by decide, show (34 : Nat) ≠ 93 by decide,
      show (34 : Nat) ≠ 123 by decide, show (34 : Nat) ≠ 125 by decide,
      show (34 : Nat) ≠ 58 by decide, show (34 : Nat) ≠ 44 by decide,
      show (34 : Nat) ≠ 116 by decide, show (34 : Nat) ≠ 102 by decide,
      show (34 : Nat) ≠ 110 by decide, if_false, if_true, hs]

theorem scan_quoted_append (u esc tail : Str) (h : dump_escaped u.length u = .ok esc) :
    scan (34 :: (esc ++ [34]) ++ tail) = .ok (.value_string u, tail) := by
  have := scan_quoted u esc tail h
  simpa using this

theorem parse_step_key_error (F : FloatSem) (k : Nat) (inp : Str) (e : Exc) (arr : List Json)
    (obj : List (Str × Json)) (h : scan inp = .error e) :
    parse_step F (k + 1) 2 inp arr obj = .error e := by
  rw [parse_step]
  simp [h]

theorem parse_step_colon_error (F : FloatSem) (k : Nat) (inp r1 key : Str) (e : Exc)
    (arr : List Json) (obj : List (Str × Json))
    (h1 : scan inp = .ok (.value_string key, r1)) (h2 : scan r1 = .error e) :
    parse_step F (k + 1) 2 inp arr obj = .error e := by
  rw [parse_step]
  simp [h1, h2]

theorem parse_step_value_error (F : FloatSem) (k : Nat) (inp r1 r2 key : Str) (e : Exc)
    (arr : List Json) (obj : List (Str × Json))
    (h1 : scan inp = .ok (.value_string key, r1)) (h2 : scan r1 = .ok (.name_separator, r2))
    (h3 : parse_step F k 0 r2 [] [] = .error e) :
    parse_step F (k + 1) 2 inp arr obj = .error e := by
  rw [parse_step]
  simp [h1, h2, h3]

theorem parse_step_separator_error (F : FloatSem) (k : Nat) (inp r1 r2 r3 key : Str) (v : Json)
    (e : Exc) (arr : List Json) (obj : List (Str × Json))
    (h1 : scan inp = .ok (.value_string key, r1)) (h2 : scan r1 = .ok (.name_separator, r2))
    (h3 : parse_step F k 0 r2 [] [] = .ok (v, r3)) (h4 : scan r3 = .error e) :
    parse_step F (k + 1) 2 inp arr obj = .error e := by
  rw [parse_step]
  simp [h1, h2, h3, h4]

theorem getElem?_singleton (c j b : Nat) (h : ([c] : Str)[j]? = some b) : j = 0 ∧ b = c := by
  cases j with
  | zero => simp at h; exact ⟨rfl, h.symm⟩
  | succ j => simp at h

/-- A damaged byte in a member with a number value, its separator included, makes
the parser fail at that member. -/
theorem parse_step_damaged_number_member (F : FloatSem) (k : Nat) (ku kesc : Str) (v : Int)
    (sep j b b1 : Nat) (rest : Str) (arr : List Json) (obj : List (Str × Json))
    (hk : dump_escaped ku.length ku = .ok kesc) (hsep : sep = 44 ∨ sep = 125)
    (hj : (34 :: (kesc ++ [34]) ++ (58 :: (to_string v ++ [sep])))[j]? = some b)
    (hrel : tamper_rel b b1 = true) :
    ∃ e, parse_step F (k + 2) 2
      ((34 :: (kesc ++ [34]) ++ (58 :: (to_string v ++ [sep]))).set j b1 ++ rest) arr obj
        = .error e := by
  rcases set_append_cases (34 :: (kesc ++ [34])) (58 :: (to_string v ++ [sep])) j b1 b hj with
    ⟨_, hj1, hset⟩ | ⟨_, hj1, hset⟩
  · rw [hset, List.append_assoc]
    exact ⟨_, parse_step_key_error F (k + 1) _ _ arr obj
      (scan_damaged_quoted ku kesc hk j b b1 _ hj1 hrel)⟩
  · rw [hset, List.append_assoc]
    have s1 := scan_quoted_append ku kesc
      ((58 :: (to_string v ++ [sep])).set (j - (34 :: (kesc ++ [34])).length) b1 ++ rest) hk
    generalize j - (34 :: (kesc ++ [34])).length = j1 at hj1 s1 ⊢
    cases j1 with
    | zero =>
      simp only [List.getElem?_cons_zero, Option.some.injEq] at hj1
      subst hj1
      obtain ⟨p1, p2, p3, p4⟩ := tamper_rel_ascii 58 b1 (by decide) hrel
      have s2 : scan ((58 :: (to_string v ++ [sep])).set 0 b1 ++ rest) = .error .parse_error := by
        simp only [List.set_cons_zero, List.cons_append]
        exact scan_control b1 p1 p2 (fun h => by have := p3 h; omega)
          (fun h => by have := p4 h; omega) _
      exact ⟨_, parse_step_colon_error F (k + 1) _ _ ku _ arr obj s1 s2⟩
    | succ i =>
      simp only [List.getElem?_cons_succ] at hj1
      simp only [List.set_cons_succ, List.cons_append] at s1 ⊢
      have s2 := scan_name_separator ((to_string v ++ [sep]).set i b1 ++ rest)
      rcases parse_step_damaged_number F k v sep i b b1 rest [] [] hsep hj1 hrel with
        ⟨e, he⟩ | ⟨jv, r, hv, hr⟩
      · exact ⟨e, parse_step_value_error F (k + 1) _ _ _ ku e arr obj s1 s2 he⟩
      · exact ⟨_, parse_step_separator_error F (k + 1) _ _ _ r ku jv _ arr obj s1 s2 hv hr⟩

/-- A damaged byte in a member with a string value, the closing brace included,
makes the parser fail at that member. -/
theorem parse_step_damaged_string_member (F : FloatSem) (k : Nat) (ku kesc u esc : Str)
    (j b b1 : Nat) (rest : Str) (arr : List Json) (obj : List (Str × Json))
    (hk : dump_escaped ku.length ku = .ok kesc) (hu : dump_escaped u.length u = .ok esc)
    (hj : (34 :: (kesc ++ [34]) ++ (58 :: (34 :: (esc ++ [34]) ++ [125])))[j]? = some b)
    (hrel : tamper_rel b b1 = true) :
    ∃ e, parse_step F (k + 2) 2
      ((34 :: (kesc ++ [34]) ++ (58 :: (34 :: (esc ++ [34]) ++ [125]))).set j b1 ++ rest) arr obj
        = .error e := by
  rcases set_append_cases (34 :: (kesc ++ [34])) (58 :: (34 :: (esc ++ [34]) ++ [125])) j b1 b hj
    with ⟨_, hj1, hset⟩ | ⟨_, hj1, hset⟩
  · rw [hset, List.append_assoc]
    exact ⟨_, parse_step_key_error F (k + 1) _ _ arr obj
      (scan_damaged_quoted ku kesc hk j b b1 _ hj1 hrel)⟩
  · rw [hset, List.append_assoc]
    have s1 := scan_quoted_append ku kesc
      ((58 :: (34 :: (esc ++ [34]) ++ [125])).set (j - (34 :: (kesc ++ [34])).length) b1 ++ rest) hk
    generalize j - (34 :: (kesc ++ [34])).length = j1 at hj1 s1 ⊢
    cases j1 with
    | zero =>
      simp only [List.getElem?_cons_zero, Option.some.injEq] at hj1
      subst hj1
      obtain ⟨p1, p2, p3, p4⟩ := tamper_rel_ascii 58 b1 (by decide) hrel
      have s2 : scan ((58 :: (34 :: (esc ++ [34]) ++ [125])).set 0 b1 ++ rest)
          = .error .parse_error := by
        simp only [List.set_cons_zero, List.cons_append]
        exact scan_control b1 p1 p2 (fun h => by have := p3 h; omega)
          (fun h => by have := p4 h; omega) _
      exact ⟨_, parse_step_colon_error F (k + 1) _ _ ku _ arr obj s1 s2⟩
    | succ i =>
      simp only [List.getElem?_cons_succ] at hj1
      have e0 : (58 :: (34 :: (esc ++ [34]) ++ [125])).set (i + 1) b1 ++ rest
          = 58 :: ((34 :: (esc ++ [34]) ++ [125]).set i b1 ++ rest) := by
        simp
      rw [e0] at s1 ⊢
      have s2 := scan_name_separator ((34 :: (esc ++ [34]) ++ [125]).set i b1 ++ rest)
      rcases set_append_cases (34 :: (esc ++ [34])) [125] i b1 b hj1 with
        ⟨_, hj2, hset2⟩ | ⟨_, hj2, hset2⟩
      · rw [hset2, List.append_assoc] at s1 s2 ⊢
        have he := parse_step_scan_error F k _ _ [] []
          (scan_damaged_quoted u esc hu i b b1 ([125] ++ rest) hj2 hrel)
        exact ⟨_, parse_step_value_error F (k + 1) _ _ _ ku _ arr obj s1 s2 he⟩
      · rw [hset2, List.append_assoc] at s1 s2 ⊢
        obtain ⟨hz, hb⟩ := getElem?_singleton 125 _ b hj2
        rw [hz] at s1 s2 ⊢
        subst hb
        obtain ⟨p1, p2, p3, p4⟩ := tamper_rel_ascii 125 b1 (by decide) hrel
        have hv : parse_step F (k + 1) 0 (34 :: (esc ++ [34]) ++ (([125] : Str).set 0 b1 ++ rest))
            [] [] = .ok (.string u, b1 :: rest) := by
          have := parse_step_string F k u esc (b1 :: rest) [] [] hu
          simpa using this
        have hr : scan (b1 :: rest) = .error .parse_error :=
          scan_control b1 p1 p2 (fun h => by have := p3 h; omega)
            (fun h => by have := p4 h; omega) _
        exact ⟨_, parse_step_separator_error F (k + 1) _ _ _ _ ku _ _ arr obj s1 s2 hv hr⟩

theorem scan_quote_not_end_object (X r1 : Str) : scan (34 :: X) ≠ .ok (.end_object, r1) := by
  unfold scan
  simp only [List.dropWhile, is_json_space]
  simp only [show ((34 : Nat) == 32 || (34 : Nat) == 9 || (34 : Nat) == 10 || (34 : Nat) == 13) = false
    by decide]
  simp only [show (34 : Nat) ≠ 91 by decide, show (34 : Nat) ≠ 93 by decide,
    show (34 : Nat) ≠ 123 by decide, show (34 : Nat) ≠ 125 by decide,
    show (34 : Nat) ≠ 58 by decide, show (34 : Nat) ≠ 44 by decide,
    show (34 : Nat) ≠ 116 by decide, show (34 : Nat) ≠ 102 by decide,
    show (34 : Nat) ≠ 110 by decide, if_false, if_true]
  cases scan_string X.length X [] with
  | error e => simp
  | ok p => simp

theorem parse_step_open_object_of (F : FloatSem) (k : Nat) (r : Str) (arr : List Json)
    (obj : List (Str × Json)) (h : ∀ r1, scan r ≠ .ok (.end_object, r1)) :
    parse_step F (k + 1) 0 (123 :: r) arr obj = parse_step F k 2 r [] [] := by
  rw [parse_step]
  simp only [scan_begin_object, if_true, h]

/-- An intact member with an integer value, followed by a comma. -/
theorem parse_step_number_member (F : FloatSem) (k : Nat) (ku kesc : Str) (v : Int) (rest : Str)
    (arr : List Json) (obj : List (Str × Json)) (hk : dump_escaped ku.length ku = .ok kesc)
    (hlo : -2 ^ 63 ≤ v) (hhi : v < 2 ^ 64) :
    ∃ jv, parse_step F (k + 2) 2
        (34 :: (kesc ++ [34]) ++ (58 :: (to_string v ++ [44])) ++ rest) arr obj
      = parse_step F (k + 1) 2 rest [] (object_set obj ku jv) := by
  obtain ⟨jv, pv, _⟩ := parse_step_integer F k v hlo hhi 44 rest (Or.inl rfl) [] []
  refine ⟨jv, ?_⟩
  have e : 34 :: (kesc ++ [34]) ++ (58 :: (to_string v ++ [44])) ++ rest
      = 34 :: (kesc ++ 34 :: (58 :: (to_string v ++ 44 :: rest))) := by simp
  rw [e]
  exact parse_step_member F (k + 1) _ _ _ _ rest ku jv arr obj
    (scan_quoted ku kesc _ hk) (scan_name_separator _) pv (scan_value_separator _)

theorem payload_text_members (exp user_id : Int) (esc : Str) :
    payload_text exp user_id esc
      = 123 :: ((34 :: (lit "exp" ++ [34]) ++ (58 :: (to_string exp ++ [44])))
        ++ ((34 :: (lit "user_id" ++ [34]) ++ (58 :: (to_string user_id ++ [44])))
        ++ (34 :: (lit "username" ++ [34]) ++ (58 :: (34 :: (esc ++ [34]) ++ [125]))))) := by
  have m1 : lit "\x7b\"exp\":" = 123 :: 34 :: (lit "exp" ++ [34, 58]) := rfl
  have m2 : lit ",\"user_id\":" = 44 :: 34 :: (lit "user_id" ++ [34, 58]) := rfl
  have m3 : lit ",\"username\":\"" = 44 :: 34 :: (lit "username" ++ [34, 58, 34]) := rfl
  have m4 : lit "\"\x7d" = [34, 125] := rfl
  simp only [payload_text]
  rw [m1, m2, m3, m4]
  simp

theorem set_take_three (x y b1 i : Nat) (X : Str) (hx : x ≠ 0xEF) (hy : y ≠ 0xBB) :
    ((x :: y :: X).set i b1).take 3 ≠ [0xEF, 0xBB, 0xBF] := by
  cases i with
  | zero =>
    simp only [List.set_cons_zero]
    intro h
    cases X with
    | nil => simp at h
    | cons z Z => simp at h; exact hy h.2.1
  | succ i =>
    simp only [List.set_cons_succ]
    intro h
    cases hX : (y :: X).set i b1 with
    | nil => rw [hX] at h; simp at h
    | cons z Z =>
      rw [hX] at h
      cases Z with
      | nil => simp at h
      | cons w W => simp at h; exact hx h.1

/-- The parser rejects the payload text once one of its bytes is replaced by a
byte related to it by `tamper_rel`. -/
theorem parse_damaged_payload (F : FloatSem) (exp user_id : Int) (u esc : Str)
    (h : dump_escaped u.length u = .ok esc)
    (he : -2 ^ 63 ≤ exp ∧ exp < 2 ^ 63) (hid : -2 ^ 31 ≤ user_id ∧ user_id < 2 ^ 31)
    (i b b1 : Nat) (hi : (payload_text exp user_id esc)[i]? = some b)
    (hrel : tamper_rel b b1 = true) :
    ∃ e, parse F ((payload_text exp user_id esc).set i b1) = .error e := by
  have hstep : ∀ n, ∃ e, parse_step F (n + 5) 0 ((payload_text exp user_id esc).set i b1) [] []
      = .error e := by
    intro n
    rw [payload_text_members] at hi ⊢
    have k1 : dump_escaped (lit "exp").length (lit "exp") = .ok (lit "exp") := rfl
    have k2 : dump_escaped (lit "user_id").length (lit "user_id") = .ok (lit "user_id") := rfl
    have k3 : dump_escaped (lit "username").length (lit "username") = .ok (lit "username") := rfl
    cases i with
    | zero =>
      simp only [List.getElem?_cons_zero, Option.some.injEq] at hi
      subst hi
      obtain ⟨p1, p2, p3, p4⟩ := tamper_rel_ascii 123 b1 (by decide) hrel
      simp only [List.set_cons_zero]
      exact ⟨_, parse_step_scan_error F _ _ _ [] [] (scan_control b1 p1 p2
        (fun h => by have := p3 h; omega) (fun h => by have := p4 h; omega) _)⟩
    | succ i =>
      simp only [List.getElem?_cons_succ] at hi
      simp only [List.set_cons_succ]
      rcases set_append_cases _ _ i b1 b hi with ⟨_, hj1, hset⟩ | ⟨_, hj1, hset⟩
      · rw [hset]
        rw [parse_step_open_object_of F (n + 4) _ [] [] ?_]
        · exact parse_step_damaged_number_member F (n + 2) (lit "exp") (lit "exp") exp 44 i b b1 _
            [] [] k1 (Or.inl rfl) hj1 hrel
        · intro r1
          cases i with
          | zero =>
            simp only [List.cons_append, List.getElem?_cons_zero, Option.some.injEq] at hj1
            subst hj1
            obtain ⟨p1, p2, p3, p4⟩ := tamper_rel_ascii 34 b1 (by decide) hrel
            simp only [List.cons_append, List.set_cons_zero]
            rw [scan_control b1 p1 p2 (fun h => by have := p3 h; omega)
              (fun h => by have := p4 h; omega) _]
            simp
          | succ i =>
            simp only [List.cons_append, List.set_cons_succ]
            exact scan_quote_not_end_object _ _
      · rw [hset]
        rw [parse_step_open_object_of F (n + 4) _ [] []
          (fun r1 => by simp only [List.cons_append]; exact scan_quote_not_end_object _ _)]
        obtain ⟨je, hm1⟩ := parse_step_number_member F (n + 2) (lit "exp") (lit "exp") exp
          (((34 :: (lit "user_id" ++ [34]) ++ (58 :: (to_string user_id ++ [44])))
            ++ (34 :: (lit "username" ++ [34]) ++ (58 :: (34 :: (esc ++ [34]) ++ [125])))).set
              (i - (34 :: (lit "exp" ++ [34]) ++ (58 :: (to_string exp ++ [44]))).length) b1)
          [] [] k1 he.1 (by omega)
        rw [hm1]
        generalize i - (34 :: (lit "exp" ++ [34]) ++ (58 :: (to_string exp ++ [44]))).length = i1
          at hj1 ⊢
        rcases set_append_cases _ _ i1 b1 b hj1 with ⟨_, hj2, hset2⟩ | ⟨_, hj2, hset2⟩
        · rw [hset2]
          exact parse_step_damaged_number_member F (n + 1) (lit "user_id") (lit "user_id") user_id
            44 i1 b b1 _ [] _ k2 (Or.inl rfl) hj2 hrel
        · rw [hset2]
          obtain ⟨ji, hm2⟩ := parse_step_number_member F (n + 1) (lit "user_id") (lit "user_id")
            user_id
            ((34 :: (lit "username" ++ [34]) ++ (58 :: (34 :: (esc ++ [34]) ++ [125]))).set
              (i1 - (34 :: (lit "user_id" ++ [34]) ++ (58 :: (to_string user_id ++ [44]))).length)
              b1)
            [] (object_set [] (lit "exp") je) k2 (by omega) (by omega)
          rw [hm2]
          have := parse_step_damaged_string_member F n (lit "username") (lit "username") u esc
            (i1 - (34 :: (lit "user_id" ++ [34]) ++ (58 :: (to_string user_id ++ [44]))).length)
            b b1 [] [] (object_set (object_set [] (lit "exp") je) (lit "user_id") ji) k3 h hj2 hrel
          simpa using this
  have hlen : 5 ≤ ((payload_text exp user_id esc).set i b1).length := by
    rw [List.length_set, payload_text_members]
    simp
    omega
  obtain ⟨n, hn⟩ : ∃ n, 2 * ((payload_text exp user_id esc).set i b1).length + 2 = n + 5 :=
    ⟨2 * ((payload_text exp user_id esc).set i b1).length - 3, by omega⟩
  obtain ⟨e, hstepn⟩ := hstep n
  have hbom : ((payload_text exp user_id esc).set i b1).take 3 ≠ [0xEF, 0xBB, 0xBF] := by
    rw [payload_text_members]
    exact set_take_three 123 34 b1 i _ (by decide) (by decide)
  refine ⟨e, ?_⟩
  unfold parse
  simp only [hbom, if_false, hn, hstepn]

/-! ## Damaged issued tokens -/

theorem wrap64_range (v : Int) : -2 ^ 63 ≤ wrap64 v ∧ wrap64 v < 2 ^ 63 := by
  unfold wrap64
  omega

/-- C2 (amended). The token carries no signature; what `verify_jwt_token` detects
is damage to the encoding. For every token issued by `generate_jwt_token` and
every position of it that does not hold a `.` separator (so it holds a digit or
a `-`), replacing the character there by one that is not a digit, `+`, `-`,
white space or `.` yields a string for which `verify_jwt_token` returns
absence, at the issue time and at any other time. -/
theorem verify_absent_of_damaged_issued_token (F : FloatSem) (t now user_id : Int)
    (username token : Str) (pos c : Nat)
    (hid : -2 ^ 31 ≤ user_id ∧ user_id < 2 ^ 31)
    (hg : generate_jwt_token F t user_id username = .ok token)
    (hpos : pos < token.length) (hdot : token[pos]? ≠ some 46)
    (hc : isdigit c = false ∧ isspace c = false ∧ c ≠ 43 ∧ c ≠ 45 ∧ c ≠ 46) :
    verify_jwt_token F now (token.set pos c) = none := by
  obtain ⟨hd, hs, h43, h45, h46⟩ := hc
  obtain ⟨esc, hesc, rfl⟩ := generate_jwt_token_eq F t user_id username token hg
  have hbytes := payload_text_bytes (wrap64 (t + 86400)) user_id username esc hesc
  rcases decode_damaged c hd hs h43 h45 h46 _ hbytes pos [] hpos hdot with
    ⟨e, he⟩ | ⟨i, b, b1, hi, hrel, hok⟩
  · exact verify_none_of_decode_error F now _ e he
  · obtain ⟨e, hp⟩ := parse_damaged_payload F (wrap64 (t + 86400)) user_id username esc hesc
      (wrap64_range _) hid i b b1 hi hrel
    have hne : ((payload_text (wrap64 (t + 86400)) user_id esc).set i b1).isEmpty = false := by
      cases hl : (payload_text (wrap64 (t + 86400)) user_id esc).set i b1 with
      | nil =>
        have h0 : ((payload_text (wrap64 (t + 86400)) user_id esc).set i b1).length = 0 := by
          rw [hl]; rfl
        rw [List.length_set] at h0
        have hlt : i < (payload_text (wrap64 (t + 86400)) user_id esc).length := by
          rcases Nat.lt_or_ge i (payload_text (wrap64 (t + 86400)) user_id esc).length with h | h
          · exact h
          · rw [List.getElem?_eq_none h] at hi; simp at hi
        omega
      | cons x l => rfl
    simp only [List.nil_append] at hok
    simp [verify_jwt_token, verify_try, hok, hne, hp]

theorem verify_absent_of_damaged_issued_token_witness :
    generate_jwt_token no_floats 1700000000 7 (lit "a")
        = .ok (lit "123.34.101.120.112.34.58.49.55.48.48.48.56.54.52.48.48.44.34.117.115.101.114.95.105.100.34.58.55.44.34.117.115.101.114.110.97.109.101.34.58.34.97.34.125.")
      ∧ verify_jwt_token no_floats 1700000000
          ((lit "123.34.101.120.112.34.58.49.55.48.48.48.56.54.52.48.48.44.34.117.115.101.114.95.105.100.34.58.55.44.34.117.115.101.114.110.97.109.101.34.58.34.97.34.125.").set 144 120)
        = none :=
  ⟨by decide!, verify_absent_of_damaged_issued_token no_floats 1700000000 1700000000 7 (lit "a") _
    144 120 (by decide) (by decide!) (by decide!) (by decide!) (by decide)⟩

/-! ## Headers that hold no token -/

theorem getline_segments_no_dot : ∀ (s cur : Str), (∀ c ∈ s, c ≠ 46) →
    getline_segments s cur = if (cur ++ s).isEmpty then [] else [cur ++ s] := by
  intro s
  induction s with
  | nil => intro cur _; simp [getline_segments]
  | cons c s ih =>
    intro cur h
    have hc : c ≠ 46 := h c (by simp)
    simp only [getline_segments, hc, if_false]
    rw [ih (cur ++ [c]) (fun x hx => h x (by simp [hx]))]
    simp

theorem verify_none_of_whitespace (F : FloatSem) (now : Int) (token : Str)
    (hne : token ≠ []) (hws : ∀ c ∈ token, isspace c = true) :
    verify_jwt_token F now token = none := by
  have hnodot : ∀ c ∈ token, c ≠ 46 := by
    intro c hc h
    have := hws c hc
    rw [h] at this
    exact absurd this (by decide)
  have hseg : token ∈ getline_segments token [] := by
    rw [getline_segments_no_dot token [] hnodot]
    simp [hne]
  have hdig : stoi_digits token = [] := by
    have hd : token.dropWhile isspace = [] := by
      rw [List.dropWhile_eq_nil_iff]
      exact hws
    simp [stoi_digits, hd]
  exact verify_none_of_bad_segment F now token token hseg hne
    ⟨_, stoi_error_of_no_digits token hdig⟩

/-- C11 (as stated, refuted). For the header `Bearer` followed by two spaces the
regex gives one space back to the group: the token `" "` is extracted and
`authenticate_request` returns what `verify_jwt_token` returns for it. -/
theorem bearer_whitespace_token_extracted :
    bearer_regex_match (lit "Bearer  ") = some (lit " ") ∧
    ∀ (F : FloatSem) (now : Int) (body : Str),
      authenticate_request F now ⟨lit "Bearer  ", body⟩ = verify_jwt_token F now (lit " ") := by
  refine ⟨by decide, ?_⟩
  intro F now body
  rfl

/-- C11 (amended). For every header value made of `Bearer` followed only by
white-space characters, `authenticate_request` yields absence. When at most one
white-space character follows `Bearer`, no token is extracted and
`verify_jwt_token` is not invoked. Otherwise whatever token the regex extracts
is a non-empty run of white space, on which `verify_jwt_token` returns absence. -/
theorem authenticate_request_whitespace_only (F : FloatSem) (now : Int) (ws body : Str)
    (hws : ∀ c ∈ ws, isspace c = true) :
    authenticate_request F now ⟨lit "Bearer" ++ ws, body⟩ = none ∧
    (ws.length ≤ 1 → bearer_regex_match (lit "Bearer" ++ ws) = none) ∧
    ∀ token, bearer_regex_match (lit "Bearer" ++ ws) = some token →
      token ≠ [] ∧ (∀ c ∈ token, isspace c = true) ∧ verify_jwt_token F now token = none := by
  have hsome : ∀ token, bearer_regex_match (lit "Bearer" ++ ws) = some token →
      ∃ ws1, ws = ws1 ++ token ∧ ws1 ≠ [] ∧ token ≠ [] := by
    intro token hm
    obtain ⟨ws1, h1, h2, _, h4, _⟩ := bearer_regex_match_some _ token hm
    rw [List.append_assoc] at h1
    exact ⟨ws1, List.append_cancel_left h1, h2, h4⟩
  have htok : ∀ token, bearer_regex_match (lit "Bearer" ++ ws) = some token →
      token ≠ [] ∧ (∀ c ∈ token, isspace c = true) ∧ verify_jwt_token F now token = none := by
    intro token hm
    obtain ⟨ws1, h1, _, h3⟩ := hsome token hm
    have hsp : ∀ c ∈ token, isspace c = true := fun c hc => hws c (by rw [h1]; simp [hc])
    exact ⟨h3, hsp, verify_none_of_whitespace F now token h3 hsp⟩
  refine ⟨?_, ?_, htok⟩
  · unfold authenticate_request
    simp only
    split
    · rfl
    · cases hm : bearer_regex_match (lit "Bearer" ++ ws) with
      | none => rfl
      | some token => exact (htok token hm).2.2
  · intro hlen
    cases hm : bearer_regex_match (lit "Bearer" ++ ws) with
    | none => rfl
    | some token =>
      exfalso
      obtain ⟨ws1, h1, h2, h3⟩ := hsome token hm
      have l1 : 1 ≤ ws1.length := List.length_pos.mpr h2
      have l2 : 1 ≤ token.length := List.length_pos.mpr h3
      rw [h1, List.length_append] at hlen
      omega

theorem authenticate_request_whitespace_only_witness :
    authenticate_request no_floats 1700000000 ⟨lit "Bearer" ++ lit " \t ", []⟩ = none ∧
    bearer_regex_match (lit "Bearer" ++ lit " \t ") = some (lit " ") :=
  ⟨(authenticate_request_whitespace_only no_floats 1700000000 (lit " \t ") []
    (by decide)).1, by decide⟩

/-! ## Verification as time passes -/

/-- C18. For every token string and all clock readings `t1 ≤ t2`: if
`verify_jwt_token` returns absence at `t1` it returns absence at `t2`, and when
it returns a principal at both times the principal is the same. -/
theorem verify_no_return_to_valid (F : FloatSem) (token : Str) (t1 t2 : Int) (h : t1 ≤ t2) :
    (verify_jwt_token F t1 token = none → verify_jwt_token F t2 token = none) ∧
    ∀ p1 p2, verify_jwt_token F t1 token = some p1 → verify_jwt_token F t2 token = some p2 →
      p1 = p2 := by
  unfold verify_jwt_token verify_try
  cases decode_segments (getline_segments token []) [] with
  | error e => simp
  | ok decoded =>
    by_cases hemp : decoded.isEmpty = true
    · simp [hemp]
    · simp only [hemp, if_false]
      cases parse F decoded with
      | error e => simp
      | ok payload =>
        simp only
        cases (index payload (lit "exp")).bind (get_long F) with
        | error e => simp
        | ok exp =>
          simp only
          cases (index payload (lit "user_id")).bind (get_int F) with
          | error e =>
            by_cases h1 : exp < t1 <;> by_cases h2 : exp < t2 <;> simp [h1, h2]
          | ok user_id =>
            cases (index payload (lit "username")).bind get_string with
            | error e =>
              by_cases h1 : exp < t1 <;> by_cases h2 : exp < t2 <;> simp [h1, h2]
            | ok username =>
              by_cases h1 : exp < t1 <;> by_cases h2 : exp < t2 <;> simp [h1, h2]
              omega

theorem verify_no_return_to_valid_witness :
    verify_jwt_token no_floats 1700086401
      (lit "123.34.101.120.112.34.58.49.55.48.48.48.56.54.52.48.48.44.34.117.115.101.114.95.105.100.34.58.55.44.34.117.115.101.114.110.97.109.101.34.58.34.97.34.125.")
      = none ∧
    verify_jwt_token no_floats 1800000000
      (lit "123.34.101.120.112.34.58.49.55.48.48.48.56.54.52.48.48.44.34.117.115.101.114.95.105.100.34.58.55.44.34.117.115.101.114.110.97.109.101.34.58.34.97.34.125.")
      = none :=
  ⟨by decide!, (verify_no_return_to_valid no_floats _ 1700086401 1800000000 (by decide)).1
    (by decide!)⟩

/-! ## Replies and the error envelope -/

/-- The dump of the error envelope. -/
theorem dump_error_envelope (F : FloatSem) (message esc : Str)
    (h : dump_escaped message.length message = .ok esc) :
    dump F (create_error_response message 400) = .ok (error_body esc) := by
  have k1 : dump_string (lit "error") = .ok (lit "\"error\"") := rfl
  have k2 : dump_string (lit "success") = .ok (lit "\"success\"") := rfl
  have k3 : dump_string (lit "code") = .ok (lit "\"code\"") := rfl
  have k4 : dump_string (lit "message") = .ok (lit "\"message\"") := rfl
  have k5 : dump_string message = .ok (34 :: esc ++ [34]) := by simp [dump_string, h]
  have hobj : create_error_response message 400
      = .object [(lit "error", .object [(lit "code", .number_integer 400),
          (lit "message", .string message)]), (lit "success", .boolean false)] := rfl
  have l1 : lit "\"error\"" = [34, 101, 114, 114, 111, 114, 34] := rfl
  have l2 : lit "\"success\"" = [34, 115, 117, 99, 99, 101, 115, 115, 34] := rfl
  have l3 : lit "\"code\"" = [34, 99, 111, 100, 101, 34] := rfl
  have l4 : lit "\"message\"" = [34, 109, 101, 115, 115, 97, 103, 101, 34] := rfl
  have l5 : to_string 400 = [52, 48, 48] := rfl
  have l6 : lit "false" = [102, 97, 108, 115, 101] := rfl
  have m1 : lit "\x7b\"error\":\x7b\"code\":400,\"message\":\""
      = [123, 34, 101, 114, 114, 111, 114, 34, 58, 123, 34, 99, 111, 100, 101, 34, 58, 52, 48, 48,
        44, 34, 109, 101, 115, 115, 97, 103, 101, 34, 58, 34] := rfl
  have m2 : lit "\"\x7d,\"success\":false\x7d"
      = [34, 125, 44, 34, 115, 117, 99, 99, 101, 115, 115, 34, 58, 102, 97, 108, 115, 101, 125] := rfl
  rw [hobj]
  simp only [dump, dump_members, k1, k2, k3, k4, k5, error_body, l1, l2, l3, l4, l5, l6, m1, m2]
  simp

theorem error_reply_ok (F : FloatSem) (code : Int) (message esc : Str)
    (h : dump_escaped message.length message = .ok esc) :
    error_reply F code message = .ok ⟨code, error_body esc, []⟩ := by
  simp [error_reply, reply, dump_error_envelope F message esc h]

theorem reply_code (F : FloatSem) (code : Int) (j : Json) (headers : List (Str × Str))
    (res : Response) (h : reply F code j headers = .ok res) :
    res.code = code ∧ dump F j = .ok res.body := by
  unfold reply at h
  cases hd : dump F j with
  | error e => simp [hd] at h
  | ok body =>
    simp only [hd, Except.ok.injEq] at h
    subst h
    exact ⟨rfl, rfl⟩

theorem catch_json_std_cases (F : FloatSem) (r : Except Exc Response) :
    (∃ res, r = .ok res ∧ catch_json_std F r = .ok res) ∨
    ((∃ e, r = .error e) ∧
      (catch_json_std F r = .ok ⟨400, error_body (lit "Invalid JSON format"), []⟩ ∨
       catch_json_std F r = .ok ⟨500, error_body (lit "Internal server error"), []⟩)) := by
  cases r with
  | ok res => exact Or.inl ⟨res, rfl, rfl⟩
  | error e =>
    right
    refine ⟨⟨e, rfl⟩, ?_⟩
    unfold catch_json_std
    by_cases hj : is_json_exception e = true
    · left
      simp only [hj, if_true]
      exact error_reply_ok F 400 (lit "Invalid JSON format") (lit "Invalid JSON format") rfl
    · right
      simp only [hj, if_false]
      exact error_reply_ok F 500 (lit "Internal server error") (lit "Internal server error") rfl

theorem catch_std_cases (F : FloatSem) (r : Except Exc Response) :
    (∃ res, r = .ok res ∧ catch_std F r = .ok res) ∨
    ((∃ e, r = .error e) ∧
       catch_std F r = .ok ⟨500, error_body (lit "Internal server error"), []⟩) := by
  cases r with
  | ok res => exact Or.inl ⟨res, rfl, rfl⟩
  | error e =>
    exact Or.inr ⟨⟨e, rfl⟩,
      error_reply_ok F 500 (lit "Internal server error") (lit "Internal server error") rfl⟩

theorem envelope_of_literal (F : FloatSem) (message : Str)
    (h : dump_escaped message.length message = .ok message) :
    ∃ m, dump F (create_error_response m 400) = .ok (error_body message) :=
  ⟨message, dump_error_envelope F message message h⟩

/-- A `try` block followed by the two `catch` clauses always answers, with a
success status, one of the statuses of the block, 400 or 500. -/
theorem handler_outcome_of_try (F : FloatSem) (codes : List Int) (r : Except Exc Response)
    (h : try_outcome F codes r) : handler_outcome F (400 :: 500 :: codes) (catch_json_std F r) := by
  rcases catch_json_std_cases F r with ⟨res, hr, hc⟩ | ⟨_, hc | hc⟩
  · refine ⟨res, hc, ?_⟩
    rcases h with ⟨e, he⟩ | ⟨c, m, hmem, he⟩ | ⟨c, j, hd, hcode, he⟩
    · rw [he] at hr; cases hr
    · rw [he] at hr
      obtain ⟨h1, h2⟩ := reply_code F c _ _ res hr
      right; right
      exact ⟨by rw [h1]; simp [hmem], m, h2⟩
    · rw [he] at hr
      obtain ⟨h1, _⟩ := reply_code F c _ _ res hr
      rcases hcode with h | h
      · left; rw [h1, h]
      · right; left; rw [h1, h]
  · exact ⟨_, hc, Or.inr (Or.inr ⟨by simp, envelope_of_literal F _ rfl⟩)⟩
  · exact ⟨_, hc, Or.inr (Or.inr ⟨by simp, envelope_of_literal F _ rfl⟩)⟩

theorem handler_outcome_of_try_std (F : FloatSem) (codes : List Int) (r : Except Exc Response)
    (h : try_outcome F codes r) : handler_outcome F (500 :: codes) (catch_std F r) := by
  rcases catch_std_cases F r with ⟨res, hr, hc⟩ | ⟨_, hc⟩
  · refine ⟨res, hc, ?_⟩
    rcases h with ⟨e, he⟩ | ⟨c, m, hmem, he⟩ | ⟨c, j, hd, hcode, he⟩
    · rw [he] at hr; cases hr
    · rw [he] at hr
      obtain ⟨h1, h2⟩ := reply_code F c _ _ res hr
      right; right
      exact ⟨by rw [h1]; simp [hmem], m, h2⟩
    · rw [he] at hr
      obtain ⟨h1, _⟩ := reply_code F c _ _ res hr
      rcases hcode with h | h
      · left; rw [h1, h]
      · right; left; rw [h1, h]
  · exact ⟨_, hc, Or.inr (Or.inr ⟨by simp, envelope_of_literal F _ rfl⟩)⟩

theorem handler_outcome_mono (F : FloatSem) (codes codes1 : List Int)
    (r : Except Exc Response) (hsub : ∀ c ∈ codes, c ∈ codes1)
    (h : handler_outcome F codes r) : handler_outcome F codes1 r := by
  obtain ⟨res, hr, hg⟩ := h
  refine ⟨res, hr, ?_⟩
  rcases hg with h | h | ⟨h1, h2⟩
  · exact Or.inl h
  · exact Or.inr (Or.inl h)
  · exact Or.inr (Or.inr ⟨hsub _ h1, h2⟩)

theorem handler_outcome_of_error_reply (F : FloatSem) (code : Int) (message : Str)
    (h : dump_escaped message.length message = .ok message) :
    handler_outcome F [code] (error_reply F code message) :=
  ⟨_, error_reply_ok F code message message h,
    Or.inr (Or.inr ⟨by simp, envelope_of_literal F message h⟩)⟩

/-! ## The outcomes of the handlers -/

theorem register_user_try_outcome {σ : Type} (F : FloatSem) (S : Sqlite σ) (w : World σ)
    (req : Request) : try_outcome F [400, 409, 500] (register_user_try F S w req).1 := by
  unfold register_user_try
  repeat' first | split | (dsimp only)
  all_goals first
    | exact Or.inl ⟨_, rfl⟩
    | (refine Or.inr (Or.inl ⟨_, _, ?_, rfl⟩); decide)
    | (refine Or.inr (Or.inr ⟨_, _, _, ?_, rfl⟩); decide)

theorem login_try_outcome {σ : Type} (F : FloatSem) (now : Int) (S : Sqlite σ) (w : World σ)
    (req : Request) : try_outcome F [400, 401] (login_try F now S w req).1 := by
  unfold login_try
  repeat' first | split | (dsimp only)
  all_goals first
    | exact Or.inl ⟨_, rfl⟩
    | (refine Or.inr (Or.inl ⟨_, _, ?_, rfl⟩); decide)
    | (refine Or.inr (Or.inr ⟨_, _, _, ?_, rfl⟩); decide)

theorem update_user_try_outcome {σ : Type} (F : FloatSem) (S : Sqlite σ) (w : World σ)
    (req : Request) (user_id : Int) :
    try_outcome F [400, 500] (update_user_try F S w req user_id).1 := by
  unfold update_user_try
  repeat' first | split | (dsimp only)
  all_goals first
    | exact Or.inl ⟨_, rfl⟩
    | (refine Or.inr (Or.inl ⟨_, _, ?_, rfl⟩); decide)
    | (refine Or.inr (Or.inr ⟨_, _, _, ?_, rfl⟩); decide)

theorem create_task_try_outcome {σ : Type} (F : FloatSem) (S : Sqlite σ) (w : World σ)
    (req : Request) (user_id : Int) :
    try_outcome F [400, 500] (create_task_try F S w req user_id).1 := by
  unfold create_task_try
  repeat' first | split | (dsimp only)
  all_goals first
    | exact Or.inl ⟨_, rfl⟩
    | (refine Or.inr (Or.inl ⟨_, _, ?_, rfl⟩); decide)
    | (refine Or.inr (Or.inr ⟨_, _, _, ?_, rfl⟩); decide)

theorem update_task_try_outcome {σ : Type} (F : FloatSem) (S : Sqlite σ) (w : World σ)
    (req : Request) (task_id p : Int) :
    try_outcome F [404, 403, 500] (update_task_try F S w req task_id p).1 := by
  unfold update_task_try
  repeat' first | split | (dsimp only)
  all_goals first
    | exact Or.inl ⟨_, rfl⟩
    | (refine Or.inr (Or.inl ⟨_, _, ?_, rfl⟩); decide)
    | (refine Or.inr (Or.inr ⟨_, _, _, ?_, rfl⟩); decide)

theorem delete_task_try_outcome {σ : Type} (F : FloatSem) (S : Sqlite σ) (w : World σ)
    (task_id p : Int) :
    try_outcome F [404, 403, 500] (delete_task_try F S w task_id p).1 := by
  unfold delete_task_try
  repeat' first | split | (dsimp only)
  all_goals first
    | exact Or.inl ⟨_, rfl⟩
    | (refine Or.inr (Or.inl ⟨_, _, ?_, rfl⟩); decide)
    | (refine Or.inr (Or.inr ⟨_, _, _, ?_, rfl⟩); decide)

theorem register_user_outcome {σ : Type} (F : FloatSem) (S : Sqlite σ) (w : World σ)
    (req : Request) :
    handler_outcome F [400, 401, 403, 404, 409, 500] (register_user F S w req).1 :=
  handler_outcome_mono F _ _ _ (by decide)
    (handler_outcome_of_try F _ _ (register_user_try_outcome F S w req))

theorem login_outcome {σ : Type} (F : FloatSem) (now : Int) (S : Sqlite σ) (w : World σ)
    (req : Request) :
    handler_outcome F [400, 401, 403, 404, 409, 500] (login F now S w req).1 :=
  handler_outcome_mono F _ _ _ (by decide)
    (handler_outcome_of_try F _ _ (login_try_outcome F now S w req))

theorem get_users_outcome {σ : Type} (F : FloatSem) (S : Sqlite σ) (w : World σ) :
    handler_outcome F [400, 401, 403, 404, 409, 500] (get_users F S w).1 :=
  handler_outcome_mono F _ _ _ (by decide)
    (handler_outcome_of_try_std F [] _ (Or.inr (Or.inr ⟨_, _, _, Or.inl rfl, rfl⟩)))

theorem get_tasks_outcome {σ : Type} (F : FloatSem) (S : Sqlite σ) (w : World σ) :
    handler_outcome F [400, 401, 403, 404, 409, 500] (get_tasks F S w).1 :=
  handler_outcome_mono F _ _ _ (by decide)
    (handler_outcome_of_try_std F [] _ (Or.inr (Or.inr ⟨_, _, _, Or.inl rfl, rfl⟩)))

theorem get_user_tasks_outcome {σ : Type} (F : FloatSem) (S : Sqlite σ) (w : World σ)
    (user_id : Int) :
    handler_outcome F [400, 401, 403, 404, 409, 500] (get_user_tasks F S w user_id).1 :=
  handler_outcome_mono F _ _ _ (by decide)
    (handler_outcome_of_try_std F [] _ (Or.inr (Or.inr ⟨_, _, _, Or.inl rfl, rfl⟩)))

theorem get_user_outcome {σ : Type} (F : FloatSem) (S : Sqlite σ) (w : World σ)
    (user_id : Int) :
    handler_outcome F [400, 401, 403, 404, 409, 500] (get_user F S w user_id).1 := by
  refine handler_outcome_mono F (500 :: [404]) _ _ (by decide)
    (handler_outcome_of_try_std F [404] _ ?_)
  split
  · refine Or.inr (Or.inl ⟨_, _, ?_, rfl⟩); decide
  · exact Or.inr (Or.inr ⟨_, _, _, Or.inl rfl, rfl⟩)

theorem get_task_outcome {σ : Type} (F : FloatSem) (S : Sqlite σ) (w : World σ)
    (task_id : Int) :
    handler_outcome F [400, 401, 403, 404, 409, 500] (get_task F S w task_id).1 := by
  refine handler_outcome_mono F (500 :: [404]) _ _ (by decide)
    (handler_outcome_of_try_std F [404] _ ?_)
  split
  · refine Or.inr (Or.inl ⟨_, _, ?_, rfl⟩); decide
  · exact Or.inr (Or.inr ⟨_, _, _, Or.inl rfl, rfl⟩)

theorem update_user_outcome {σ : Type} (F : FloatSem) (now : Int) (S : Sqlite σ) (w : World σ)
    (req : Request) (user_id : Int) :
    handler_outcome F [400, 401, 403, 404, 409, 500] (update_user F now S w req user_id).1 := by
  unfold update_user
  repeat' first | split | (dsimp only)
  · exact handler_outcome_mono F _ _ _ (by decide) (handler_outcome_of_error_reply F 401 (lit "Authentication required") rfl)
  · exact handler_outcome_mono F _ _ _ (by decide) (handler_outcome_of_error_reply F 403 (lit "Unauthorized to update this user") rfl)
  · exact handler_outcome_mono F _ _ _ (by decide)
      (handler_outcome_of_try F _ _ (update_user_try_outcome F S w req user_id))

theorem delete_user_outcome {σ : Type} (F : FloatSem) (now : Int) (S : Sqlite σ) (w : World σ)
    (req : Request) (user_id : Int) :
    handler_outcome F [400, 401, 403, 404, 409, 500] (delete_user F now S w req user_id).1 := by
  unfold delete_user
  cases authenticate_request F now req with
  | none =>
    exact handler_outcome_mono F _ _ _ (by decide) (handler_outcome_of_error_reply F 401 (lit "Authentication required") rfl)
  | some auth_result =>
    dsimp only
    by_cases hne : auth_result.1 ≠ user_id
    · rw [if_pos hne]
      exact handler_outcome_mono F _ _ _ (by decide) (handler_outcome_of_error_reply F 403 (lit "Unauthorized to delete this user") rfl)
    · rw [if_neg hne]
      refine handler_outcome_mono F (500 :: [500]) _ _ (by decide)
        (handler_outcome_of_try_std F [500] _ ?_)
      split
      · exact Or.inr (Or.inr ⟨_, _, _, Or.inl rfl, rfl⟩)
      · refine Or.inr (Or.inl ⟨_, _, ?_, rfl⟩); decide

theorem create_task_outcome {σ : Type} (F : FloatSem) (now : Int) (S : Sqlite σ) (w : World σ)
    (req : Request) :
    handler_outcome F [400, 401, 403, 404, 409, 500] (create_task F now S w req).1 := by
  unfold create_task
  cases authenticate_request F now req with
  | none =>
    exact handler_outcome_mono F _ _ _ (by decide) (handler_outcome_of_error_reply F 401 (lit "Authentication required") rfl)
  | some auth_result =>
    exact handler_outcome_mono F _ _ _ (by decide)
      (handler_outcome_of_try F _ _ (create_task_try_outcome F S w req auth_result.1))

theorem update_task_outcome {σ : Type} (F : FloatSem) (now : Int) (S : Sqlite σ) (w : World σ)
    (req : Request) (task_id : Int) :
    handler_outcome F [400, 401, 403, 404, 409, 500] (update_task F now S w req task_id).1 := by
  unfold update_task
  cases authenticate_request F now req with
  | none =>
    exact handler_outcome_mono F _ _ _ (by decide) (handler_outcome_of_error_reply F 401 (lit "Authentication required") rfl)
  | some auth_result =>
    exact handler_outcome_mono F _ _ _ (by decide)
      (handler_outcome_of_try F _ _ (update_task_try_outcome F S w req task_id auth_result.1))

theorem delete_task_outcome {σ : Type} (F : FloatSem) (now : Int) (S : Sqlite σ) (w : World σ)
    (req : Request) (task_id : Int) :
    handler_outcome F [400, 401, 403, 404, 409, 500] (delete_task F now S w req task_id).1 := by
  unfold delete_task
  cases authenticate_request F now req with
  | none =>
    exact handler_outcome_mono F _ _ _ (by decide) (handler_outcome_of_error_reply F 401 (lit "Authentication required") rfl)
  | some auth_result =>
    exact handler_outcome_mono F _ _ _ (by decide)
      (handler_outcome_of_try_std F _ _ (delete_task_try_outcome F S w task_id auth_result.1))

/-- C20. Whatever the route, the request, the content of the database and the
answers of SQLite, the handler returns a response, and a response whose status
is not 200 or 201 has one of the statuses 400, 401, 403, 404, 409, 500 and as
body the dump of `create_error_response(message, 400)` for some message: the
envelope holds `success = false` and `error.code = 400`, whatever the status. -/
theorem error_envelope_code_is_400 {σ : Type} (F : FloatSem) (now : Int) (S : Sqlite σ)
    (w : World σ) (route : Route) (req : Request) :
    ∃ res, (setup_routes F now S w route req).1 = .ok res ∧
      (res.code = 200 ∨ res.code = 201 ∨
        (res.code ∈ [400, 401, 403, 404, 409, 500] ∧
          ∃ message, dump F (create_error_response message 400) = .ok res.body ∧
            index (create_error_response message 400) (lit "success") = .ok (.boolean false) ∧
            (index (create_error_response message 400) (lit "error")).bind
              (fun e => index e (lit "code")) = .ok (.number_integer 400))) := by
  have hout : handler_outcome F [400, 401, 403, 404, 409, 500]
      (setup_routes F now S w route req).1 := by
    cases route with
    | options => exact ⟨_, rfl, Or.inl rfl⟩
    | health => exact ⟨_, rfl, Or.inl rfl⟩
    | register => exact register_user_outcome F S w req
    | login => exact login_outcome F now S w req
    | get_users => exact get_users_outcome F S w
    | get_user user_id => exact get_user_outcome F S w user_id
    | update_user user_id => exact update_user_outcome F now S w req user_id
    | delete_user user_id => exact delete_user_outcome F now S w req user_id
    | get_tasks => exact get_tasks_outcome F S w
    | create_task => exact create_task_outcome F now S w req
    | get_task task_id => exact get_task_outcome F S w task_id
    | update_task task_id => exact update_task_outcome F now S w req task_id
    | delete_task task_id => exact delete_task_outcome F now S w req task_id
    | get_user_tasks user_id => exact get_user_tasks_outcome F S w user_id
  obtain ⟨res, hr, hg⟩ := hout
  refine ⟨res, hr, ?_⟩
  rcases hg with h | h | ⟨h1, message, h2⟩
  · exact Or.inl h
  · exact Or.inr (Or.inl h)
  · exact Or.inr (Or.inr ⟨h1, message, h2, rfl, rfl⟩)

/-! ## Authentication and ownership gates -/

/-- C14. When `authenticate_request` yields absence, each of `update_user`,
`delete_user`, `create_task`, `update_task` and `delete_task` returns status 401
with the envelope `Authentication required`, whatever the body and the target
id, and leaves the content of the database and the list of calls on the
`Database` object as they were: no store read or write is performed. -/
theorem unauthenticated_is_401 {σ : Type} (F : FloatSem) (now : Int) (S : Sqlite σ)
    (w : World σ) (req : Request) (user_id task_id : Int)
    (h : authenticate_request F now req = none) :
    update_user F now S w req user_id
      = (.ok ⟨401, error_body (lit "Authentication required"), []⟩, w) ∧
    delete_user F now S w req user_id
      = (.ok ⟨401, error_body (lit "Authentication required"), []⟩, w) ∧
    create_task F now S w req
      = (.ok ⟨401, error_body (lit "Authentication required"), []⟩, w) ∧
    update_task F now S w req task_id
      = (.ok ⟨401, error_body (lit "Authentication required"), []⟩, w) ∧
    delete_task F now S w req task_id
      = (.ok ⟨401, error_body (lit "Authentication required"), []⟩, w) := by
  have he := error_reply_ok F 401 (lit "Authentication required") (lit "Authentication required") rfl
  refine ⟨?_, ?_, ?_, ?_, ?_⟩
  · simp only [update_user, h, he]
  · simp only [delete_user, h, he]
  · simp only [create_task, h, he]
  · simp only [update_task, h, he]
  · simp only [delete_task, h, he]

theorem unauthenticated_is_401_witness :
    authenticate_request no_floats 1700000000 ⟨lit "Bearer 12x", lit "\x7b\"title\":\"t\"\x7d"⟩
      = none ∧
    create_task no_floats 1700000000 tables_sqlite ⟨⟨[], []⟩, []⟩
        ⟨lit "Bearer 12x", lit "\x7b\"title\":\"t\"\x7d"⟩
      = (.ok ⟨401, error_body (lit "Authentication required"), []⟩, ⟨⟨[], []⟩, []⟩) :=
  ⟨by decide, (unauthenticated_is_401 no_floats 1700000000 tables_sqlite ⟨⟨[], []⟩, []⟩
    ⟨lit "Bearer 12x", lit "\x7b\"title\":\"t\"\x7d"⟩ 0 0 (by decide)).2.2.1⟩

theorem not_403_of_outcome (F : FloatSem) (codes : List Int) (r : Except Exc Response)
    (h : handler_outcome F codes r) (h403 : (403 : Int) ∉ codes) :
    ∃ res, r = .ok res ∧ res.code ≠ 403 := by
  obtain ⟨res, hr, hg⟩ := h
  refine ⟨res, hr, ?_⟩
  rcases hg with h | h | ⟨h1, _⟩
  · rw [h]; decide
  · rw [h]; decide
  · intro h
    rw [h] at h1
    exact h403 h1

/-- C12. For a request to `update_user` or `delete_user` that authenticates to the
principal `p` and targets the user id `u`: if `p ≠ u` the handler answers 403 and
leaves the content of the database and the list of calls on the `Database`
object as they were; if `p = u` the handler returns a response whose status is
not 403. -/
theorem user_ownership_gate {σ : Type} (F : FloatSem) (now : Int) (S : Sqlite σ)
    (w : World σ) (req : Request) (u p : Int) (name : Str)
    (h : authenticate_request F now req = some (p, name)) :
    (p ≠ u →
      update_user F now S w req u
        = (.ok ⟨403, error_body (lit "Unauthorized to update this user"), []⟩, w) ∧
      delete_user F now S w req u
        = (.ok ⟨403, error_body (lit "Unauthorized to delete this user"), []⟩, w)) ∧
    (p = u →
      (∃ res, (update_user F now S w req u).1 = .ok res ∧ res.code ≠ 403) ∧
      (∃ res, (delete_user F now S w req u).1 = .ok res ∧ res.code ≠ 403)) := by
  constructor
  · intro hne
    have h1 := error_reply_ok F 403 (lit "Unauthorized to update this user") (lit "Unauthorized to update this user") rfl
    have h2 := error_reply_ok F 403 (lit "Unauthorized to delete this user") (lit "Unauthorized to delete this user") rfl
    constructor
    · simp only [update_user, h, ne_eq, hne, not_false_eq_true, if_true, h1]
    · simp only [delete_user, h, ne_eq, hne, not_false_eq_true, if_true, h2]
  · intro heq
    subst heq
    constructor
    · have e : (update_user F now S w req p).1
          = catch_json_std F (update_user_try F S w req p).1 := by
        simp only [update_user, h, ne_eq, not_true_eq_false, if_false]
      rw [e]
      exact not_403_of_outcome F _ _
        (handler_outcome_of_try F _ _ (update_user_try_outcome F S w req p)) (by decide)
    · have e : (delete_user F now S w req p).1
          = catch_std F (if (Database.delete_user S w p).1 then
              reply F 200 (create_success_response (lit "User deleted successfully") (.object []))
                [content_type]
             else error_reply F 500 (lit "Failed to delete user")) := by
        simp only [delete_user, h, ne_eq, not_true_eq_false, if_false]
      rw [e]
      refine not_403_of_outcome F (500 :: [500]) _ (handler_outcome_of_try_std F [500] _ ?_)
        (by decide)
      split
      · exact Or.inr (Or.inr ⟨_, _, _, Or.inl rfl, rfl⟩)
      · refine Or.inr (Or.inl ⟨_, _, ?_, rfl⟩); decide

theorem user_ownership_gate_witness :
    update_user no_floats 1700000000 tables_sqlite ⟨⟨[], []⟩, []⟩
        ⟨lit "Bearer 123.34.101.120.112.34.58.49.55.48.48.48.56.54.52.48.48.44.34.117.115.101.114.95.105.100.34.58.55.44.34.117.115.101.114.110.97.109.101.34.58.34.97.34.125.", []⟩ 8
      = (.ok ⟨403, error_body (lit "Unauthorized to update this user"), []⟩, ⟨⟨[], []⟩, []⟩) :=
  ((user_ownership_gate no_floats 1700000000 tables_sqlite ⟨⟨[], []⟩, []⟩
    ⟨lit "Bearer 123.34.101.120.112.34.58.49.55.48.48.48.56.54.52.48.48.44.34.117.115.101.114.95.105.100.34.58.55.44.34.117.115.101.114.110.97.109.101.34.58.34.97.34.125.", []⟩
    8 7 (lit "a") (by decide!)).1 (by decide)).1

theorem get_task_by_id_row {σ : Type} (S : Sqlite σ) (w : World σ) (task_id : Int)
    (row : TaskRow) (hrow : S.select_task_by_id w.store task_id = some row) :
    Database.get_task_by_id S w task_id
      = (row_to_json_task row, ⟨w.store, w.calls ++ [.get_task_by_id task_id]⟩) := by
  simp [Database.get_task_by_id, hrow]

theorem row_to_json_task_empty (row : TaskRow) : (row_to_json_task row).empty = false := rfl

theorem row_to_json_task_user_id (F : FloatSem) (row : TaskRow)
    (hr : -2 ^ 31 ≤ row.user_id ∧ row.user_id < 2 ^ 31) :
    (index (row_to_json_task row) (lit "user_id")).bind (get_int F) = .ok row.user_id := by
  have e : (index (row_to_json_task row) (lit "user_id")).bind (get_int F)
      = .ok (wrap32 row.user_id) := rfl
  rw [e, wrap32_id _ hr.1 hr.2]

/-- C13. For a request to `update_task` or `delete_task` that authenticates to the
principal `p` and targets a task for which SQLite yields a row whose `user_id`
column is `o`: if `o ≠ p` the handler answers 403, the only call on the
`Database` object is `get_task_by_id` and the content of the database is as it
was; if `o = p` the handler returns a response whose status is not 403. -/
theorem task_ownership_gate {σ : Type} (F : FloatSem) (now : Int) (S : Sqlite σ)
    (w : World σ) (req : Request) (task_id p : Int) (name : Str) (row : TaskRow)
    (h : authenticate_request F now req = some (p, name))
    (hrow : S.select_task_by_id w.store task_id = some row)
    (hr : -2 ^ 31 ≤ row.user_id ∧ row.user_id < 2 ^ 31) :
    (row.user_id ≠ p →
      update_task F now S w req task_id
        = (.ok ⟨403, error_body (lit "Unauthorized to update this task"), []⟩,
            ⟨w.store, w.calls ++ [.get_task_by_id task_id]⟩) ∧
      delete_task F now S w req task_id
        = (.ok ⟨403, error_body (lit "Unauthorized to delete this task"), []⟩,
            ⟨w.store, w.calls ++ [.get_task_by_id task_id]⟩)) ∧
    (row.user_id = p →
      (∃ res, (update_task F now S w req task_id).1 = .ok res ∧ res.code ≠ 403) ∧
      (∃ res, (delete_task F now S w req task_id).1 = .ok res ∧ res.code ≠ 403)) := by
  have hget := get_task_by_id_row S w task_id row hrow
  have hemp := row_to_json_task_empty row
  have huid := row_to_json_task_user_id F row hr
  constructor
  · intro hne
    have h1 := error_reply_ok F 403 (lit "Unauthorized to update this task")
      (lit "Unauthorized to update this task") rfl
    have h2 := error_reply_ok F 403 (lit "Unauthorized to delete this task")
      (lit "Unauthorized to delete this task") rfl
    constructor
    · simp only [update_task, h, update_task_try, hget, hemp, huid, ne_eq, hne, not_false_eq_true,
        if_true, Bool.false_eq_true, if_false, h1, catch_json_std]
    · simp only [delete_task, h, delete_task_try, hget, hemp, huid, ne_eq, hne, not_false_eq_true,
        if_true, Bool.false_eq_true, if_false, h2, catch_std]
  · intro heq
    constructor
    · have e : (update_task F now S w req task_id).1
          = catch_json_std F (update_task_try F S w req task_id p).1 := by
        simp only [update_task, h]
      rw [e]
      refine not_403_of_outcome F _ _ (handler_outcome_of_try F [500] _ ?_) (by decide)
      simp only [update_task_try, hget, hemp, huid, ne_eq, heq, not_true_eq_false,
        Bool.false_eq_true, if_false]
      repeat' first | split | (dsimp only)
      all_goals first
        | exact Or.inl ⟨_, rfl⟩
        | (refine Or.inr (Or.inl ⟨_, _, ?_, rfl⟩); decide)
        | (refine Or.inr (Or.inr ⟨_, _, _, ?_, rfl⟩); decide)
    · have e : (delete_task F now S w req task_id).1
          = catch_std F (delete_task_try F S w task_id p).1 := by
        simp only [delete_task, h]
      rw [e]
      refine not_403_of_outcome F _ _ (handler_outcome_of_try_std F [500] _ ?_) (by decide)
      simp only [delete_task_try, hget, hemp, huid, ne_eq, heq, not_true_eq_false,
        Bool.false_eq_true, if_false]
      repeat' first | split | (dsimp only)
      all_goals first
        | exact Or.inl ⟨_, rfl⟩
        | (refine Or.inr (Or.inl ⟨_, _, ?_, rfl⟩); decide)
        | (refine Or.inr (Or.inr ⟨_, _, _, ?_, rfl⟩); decide)

theorem task_ownership_gate_witness :
    delete_task no_floats 1700000000 tables_sqlite
        ⟨⟨[], [⟨1, lit "t", lit "d", 0, 8, [], []⟩]⟩, []⟩
        ⟨lit "Bearer 123.34.101.120.112.34.58.49.55.48.48.48.56.54.52.48.48.44.34.117.115.101.114.95.105.100.34.58.55.44.34.117.115.101.114.110.97.109.101.34.58.34.97.34.125.", []⟩ 1
      = (.ok ⟨403, error_body (lit "Unauthorized to delete this task"), []⟩,
          ⟨⟨[], [⟨1, lit "t", lit "d", 0, 8, [], []⟩]⟩, [.get_task_by_id 1]⟩) :=
  ((task_ownership_gate no_floats 1700000000 tables_sqlite
    ⟨⟨[], [⟨1, lit "t", lit "d", 0, 8, [], []⟩]⟩, []⟩
    ⟨lit "Bearer 123.34.101.120.112.34.58.49.55.48.48.48.56.54.52.48.48.44.34.117.115.101.114.95.105.100.34.58.55.44.34.117.115.101.114.110.97.109.101.34.58.34.97.34.125.", []⟩
    1 7 (lit "a") ⟨1, lit "t", lit "d", 0, 8, [], []⟩ (by decide!) (by decide) (by decide)).1
    (by decide)).2

/-! ## The exceptions of the parser and of the conversions -/

theorem scan_string_error (fuel : Nat) : ∀ (inp acc : Str) (e : Exc),
    scan_string fuel inp acc = .error e → e = .parse_error := by
  induction fuel with
  | zero => intro inp acc e h; simp [scan_string] at h; exact h.symm
  | succ fuel ih =>
    intro inp acc e h
    cases inp with
    | nil => simp [scan_string] at h; exact h.symm
    | cons c rest =>
      simp only [scan_string] at h
      split at h
      · simp at h
      · split at h
        · simp at h; exact h.symm
        · exact ih _ _ _ h

theorem scan_exponent_error (inp : Str) (e : Exc) (h : scan_exponent inp = .error e) :
    e = .parse_error := by
  unfold scan_exponent at h
  dsimp only at h
  generalize (if (inp.head? == some 43 || inp.head? == some 45) = true then inp.take 1
    else ([] : Str)) = sign at h
  split at h
  · simp only [Except.error.injEq] at h
    exact h.symm
  · simp at h

theorem scan_number_error (inp : Str) (e : Exc) (h : scan_number inp = .error e) :
    e = .parse_error := by
  unfold scan_number at h
  dsimp only at h
  split at h
  · simp at h; exact h.symm
  split at h
  · simp at h; exact h.symm
  generalize (if _ = 48 then _ else List.dropWhile isdigit _) = s2 at h
  generalize (if _ = 48 then [_] else _ :: List.takeWhile isdigit _) = int_ds at h
  generalize (if (inp.head? == some 45) = true then [45] else ([] : Str)) = sign at h
  split at h
  · split at h
    · simp at h; exact h.symm
    split at h
    · split at h
      · rename_i e1 hex
        simp only [Except.error.injEq] at h
        subst h
        exact scan_exponent_error _ _ hex
      · simp at h
    · simp at h
  · split at h
    · split at h
      · rename_i e1 hex
        simp only [Except.error.injEq] at h
        subst h
        exact scan_exponent_error _ _ hex
      · simp at h
    · split at h
      · split at h <;> simp at h
      · split at h <;> simp at h

theorem scan_literal_error (text : Str) (t : Token) (inp : Str) (e : Exc)
    (h : scan_literal text t inp = .error e) : e = .parse_error := by
  unfold scan_literal at h
  split at h
  · simp at h
  · simp at h; exact h.symm

/-- The lexer raises nothing but `parse_error`. -/
theorem scan_error (inp : Str) (e : Exc) (h : scan inp = .error e) : e = .parse_error := by
  unfold scan at h
  generalize inp.dropWhile is_json_space = l at h
  cases l with
  | nil => simp at h
  | cons c rest0 =>
    dsimp only at h
    by_cases e1 : c = 91
    · rw [if_pos e1] at h; simp at h
    rw [if_neg e1] at h
    by_cases e2 : c = 93
    · rw [if_pos e2] at h; simp at h
    rw [if_neg e2] at h
    by_cases e3 : c = 123
    · rw [if_pos e3] at h; simp at h
    rw [if_neg e3] at h
    by_cases e4 : c = 125
    · rw [if_pos e4] at h; simp at h
    rw [if_neg e4] at h
    by_cases e5 : c = 58
    · rw [if_pos e5] at h; simp at h
    rw [if_neg e5] at h
    by_cases e6 : c = 44
    · rw [if_pos e6] at h; simp at h
    rw [if_neg e6] at h
    by_cases e7 : c = 116
    · rw [if_pos e7] at h
      exact scan_literal_error _ _ _ _ h
    rw [if_neg e7] at h
    by_cases e8 : c = 102
    · rw [if_pos e8] at h
      exact scan_literal_error _ _ _ _ h
    rw [if_neg e8] at h
    by_cases e9 : c = 110
    · rw [if_pos e9] at h
      exact scan_literal_error _ _ _ _ h
    rw [if_neg e9] at h
    by_cases e10 : c = 34
    · rw [if_pos e10] at h
      cases hss : scan_string rest0.length rest0 [] with
      | error e0 =>
        rw [hss] at h
        simp only [Except.error.injEq] at h
        subst h
        exact scan_string_error _ _ _ _ hss
      | ok p => rw [hss] at h; simp at h
    rw [if_neg e10] at h
    by_cases e11 : (decide (c = 45) || isdigit c) = true
    · rw [if_pos e11] at h
      exact scan_number_error _ _ h
    rw [if_neg e11] at h
    by_cases e12 : c = 0
    · rw [if_pos e12] at h; simp at h
    · rw [if_neg e12] at h
      simp at h
      exact h.symm

/-- The parser raises nothing but exceptions of the JSON library. -/
theorem parse_step_error (F : FloatSem) (fuel : Nat) : ∀ (mode : Nat) (inp : Str)
    (arr : List Json) (obj : List (Str × Json)) (e : Exc),
    parse_step F fuel mode inp arr obj = .error e → is_json_exception e = true := by
  induction fuel with
  | zero =>
    intro mode inp arr obj e h
    simp only [parse_step, Except.error.injEq] at h
    subst h
    rfl
  | succ fuel ih =>
    intro mode inp arr obj e h
    rw [parse_step] at h
    repeat' split at h
    all_goals first
      | exact ih _ _ _ _ _ h
      | (simp at h; done)
      | (simp only [Except.error.injEq] at h
         subst h
         first
           | rfl
           | exact ih _ _ _ _ _ (by assumption)
           | (have hs := scan_error _ _ (by assumption)
              rw [hs]
              rfl))

theorem parse_error_is_json (F : FloatSem) (text : Str) (e : Exc)
    (h : parse F text = .error e) : is_json_exception e = true := by
  unfold parse at h
  dsimp only at h
  generalize (if text.take 3 = [0xEF, 0xBB, 0xBF] then text.drop 3 else text) = inp at h
  cases hp : parse_step F (2 * inp.length + 2) 0 inp [] [] with
  | error e1 =>
    rw [hp] at h
    simp only [Except.error.injEq] at h
    subst h
    exact parse_step_error F _ _ _ _ _ _ hp
  | ok p =>
    obtain ⟨v, rest⟩ := p
    rw [hp] at h
    dsimp only at h
    repeat' split at h
    all_goals first
      | (simp at h; done)
      | (simp only [Except.error.injEq] at h
         subst h
         first
           | rfl
           | (have hs := scan_error _ _ (by assumption)
              rw [hs]
              rfl))

theorem get_string_error (v : Json) (e : Exc) (h : get_string v = .error e) :
    is_json_exception e = true := by
  cases v <;> simp [get_string] at h <;> (subst h; rfl)

theorem index_error (j : Json) (key : Str) (e : Exc) (h : index j key = .error e) :
    is_json_exception e = true := by
  cases j <;> simp [index] at h <;> (subst h; rfl)

theorem get_string_error_is_json (j : Json) (key : Str) (e : Exc)
    (h : (index j key).bind get_string = .error e) : is_json_exception e = true := by
  cases hi : index j key with
  | error e1 =>
    rw [hi] at h
    simp only [Except.bind, Except.error.injEq] at h
    subst h
    exact index_error j key _ hi
  | ok v =>
    rw [hi] at h
    exact get_string_error v e h

theorem contains_of_get_string (j : Json) (key s : Str)
    (h : (index j key).bind get_string = .ok s) : j.contains key = true := by
  cases j with
  | object m =>
    cases hf : object_find m key with
    | none => simp [index, hf, Except.bind, get_string] at h
    | some v => simp [Json.contains, hf]
  | null => simp [index, Except.bind, get_string] at h
  | _ => simp [index, Except.bind] at h

/-! ## Registration and login -/

theorem catch_json_std_json_error (F : FloatSem) (e : Exc) (h : is_json_exception e = true) :
    catch_json_std F (.error e) = .ok ⟨400, error_body (lit "Invalid JSON format"), []⟩ := by
  simp only [catch_json_std, h, if_true]
  exact error_reply_ok F 400 (lit "Invalid JSON format") (lit "Invalid JSON format") rfl

theorem get_user_by_username_row {σ : Type} (S : Sqlite σ) (w : World σ) (username : Str)
    (row : UserRow) (hrow : S.select_user_by_username w.store (c_str username) = some row) :
    ∃ user, Database.get_user_by_username S w username
        = (user, ⟨w.store, w.calls ++ [.get_user_by_username username]⟩) ∧
      user.empty = false ∧
      (index user (lit "password_hash")).bind get_string = .ok row.password_hash := by
  unfold Database.get_user_by_username
  rw [hrow]
  exact ⟨_, rfl, rfl, rfl⟩

theorem get_user_by_username_none {σ : Type} (S : Sqlite σ) (w : World σ) (username : Str)
    (hno : S.select_user_by_username w.store (c_str username) = none) :
    Database.get_user_by_username S w username
      = (.null, ⟨w.store, w.calls ++ [.get_user_by_username username]⟩) := by
  unfold Database.get_user_by_username
  rw [hno]

/-- C15. For a login request whose body parses and holds a string `username` and
a string `password`: the response when SQLite yields no row for the user name
and the response when it yields a row whose stored hash `verify_password`
rejects are the same, status 401 with the envelope `Invalid credentials`. -/
theorem login_failure_indistinguishable {σ : Type} (F : FloatSem) (now : Int) (S : Sqlite σ)
    (w1 w2 : World σ) (req : Request) (json_data : Json) (username password : Str)
    (row : UserRow)
    (hparse : parse F req.body = .ok json_data)
    (hu : (index json_data (lit "username")).bind get_string = .ok username)
    (hp : (index json_data (lit "password")).bind get_string = .ok password)
    (hno : S.select_user_by_username w1.store (c_str username) = none)
    (hrow : S.select_user_by_username w2.store (c_str username) = some row)
    (hbad : verify_password password row.password_hash = false) :
    (login F now S w1 req).1 = .ok ⟨401, error_body (lit "Invalid credentials"), []⟩ ∧
    (login F now S w2 req).1 = (login F now S w1 req).1 := by
  have c1 := contains_of_get_string _ _ _ hu
  have c2 := contains_of_get_string _ _ _ hp
  have he := error_reply_ok F 401 (lit "Invalid credentials") (lit "Invalid credentials") rfl
  have hnone := get_user_by_username_none S w1 username hno
  obtain ⟨user, hget, hemp, hhash⟩ := get_user_by_username_row S w2 username row hrow
  have e1 : (login F now S w1 req).1
      = .ok ⟨401, error_body (lit "Invalid credentials"), []⟩ := by
    simp only [login, login_try, hparse, c1, c2, hu, hp, hnone, Json.empty, Bool.not_true,
      Bool.or_self, Bool.false_eq_true, if_false, if_true, he, catch_json_std]
  have e2 : (login F now S w2 req).1
      = .ok ⟨401, error_body (lit "Invalid credentials"), []⟩ := by
    simp only [login, login_try, hparse, c1, c2, hu, hp, hget, hemp, hhash, hbad, Bool.not_true,
      Bool.not_false, Bool.or_self, Bool.false_eq_true, if_false, if_true, he, catch_json_std]
  exact ⟨e1, e2.trans e1.symm⟩

/-- C16. For a register request whose body parses and holds the strings
`username`, `email` (matching the e-mail regex) and `password`: when SQLite
yields a row for the user name, `register_user` answers 409, its only call on
the `Database` object is `get_user_by_username` and the content of the
database is as it was; when SQLite yields no row, the calls are
`get_user_by_username(username)` and then `create_user(username, email,
hash_password(password))`, and the answer is 201 or 500 as the insertion
succeeds or not. -/
theorem register_conflict {σ : Type} (F : FloatSem) (S : Sqlite σ) (w : World σ)
    (req : Request) (json_data : Json) (username email password : Str)
    (hparse : parse F req.body = .ok json_data)
    (hu : (index json_data (lit "username")).bind get_string = .ok username)
    (he : (index json_data (lit "email")).bind get_string = .ok email)
    (hp : (index json_data (lit "password")).bind get_string = .ok password)
    (hmail : email_regex_match email = true) :
    (∀ row, S.select_user_by_username w.store (c_str username) = some row →
      register_user F S w req
        = (.ok ⟨409, error_body (lit "Username already exists"), []⟩,
            ⟨w.store, w.calls ++ [.get_user_by_username username]⟩)) ∧
    (S.select_user_by_username w.store (c_str username) = none →
      (register_user F S w req).2
        = ⟨(S.insert_user w.store (c_str username) (c_str email)
              (c_str (hash_password password))).2,
            w.calls ++ [.get_user_by_username username,
              .create_user username email (hash_password password)]⟩ ∧
      (register_user F S w req).1
        = if (S.insert_user w.store (c_str username) (c_str email)
              (c_str (hash_password password))).1
          then .ok ⟨201, lit "\x7b\"message\":\"User registered successfully\",\"success\":true\x7d",
            [content_type]⟩
          else .ok ⟨500, error_body (lit "Failed to create user"), []⟩) := by
  have c1 := contains_of_get_string _ _ _ hu
  have c2 := contains_of_get_string _ _ _ he
  have c3 := contains_of_get_string _ _ _ hp
  constructor
  · intro row hrow
    obtain ⟨user, hget, hemp, _⟩ := get_user_by_username_row S w username row hrow
    have h409 := error_reply_ok F 409 (lit "Username already exists")
      (lit "Username already exists") rfl
    simp only [register_user, register_user_try, hparse, c1, c2, c3, hu, he, hp, hmail, hget, hemp,
      Bool.not_true, Bool.not_false, Bool.or_self, Bool.false_eq_true, if_false, if_true, h409,
      catch_json_std]
  · intro hno
    have hnone := get_user_by_username_none S w username hno
    have h500 := error_reply_ok F 500 (lit "Failed to create user")
      (lit "Failed to create user") rfl
    have h201 : reply F 201 (create_success_response (lit "User registered successfully")
        (.object [])) [content_type]
        = .ok ⟨201, lit "\x7b\"message\":\"User registered successfully\",\"success\":true\x7d",
            [content_type]⟩ := rfl
    constructor
    · simp only [register_user, register_user_try, hparse, c1, c2, c3, hu, he, hp, hmail, hnone,
        Json.empty, Bool.not_true, Bool.or_self, Bool.false_eq_true, if_false,
        Database.create_user]
      split <;> simp
    · simp only [register_user, register_user_try, hparse, c1, c2, c3, hu, he, hp, hmail, hnone,
        Json.empty, Bool.not_true, Bool.or_self, Bool.false_eq_true, if_false,
        Database.create_user]
      split <;> simp only [h201, h500, catch_json_std]

/-- C17. A register request whose body is not valid JSON, or lacks `username`,
`email` or `password`, or whose `email` string does not match the e-mail
regex, is answered 400, and the content of the database and the list of calls
on the `Database` object are as they were: neither `get_user_by_username` nor
`create_user` is called. -/
theorem register_malformed_is_400 {σ : Type} (F : FloatSem) (S : Sqlite σ) (w : World σ)
    (req : Request)
    (h : (∃ e, parse F req.body = .error e) ∨
      (∃ j, parse F req.body = .ok j ∧ (j.contains (lit "username") = false
        ∨ j.contains (lit "email") = false ∨ j.contains (lit "password") = false)) ∨
      (∃ j email, parse F req.body = .ok j ∧
        (index j (lit "email")).bind get_string = .ok email ∧ email_regex_match email = false)) :
    ∃ res, register_user F S w req = (.ok res, w) ∧ res.code = 400 := by
  have hmiss := error_reply_ok F 400 (lit "Missing required fields: username, email, password")
    (lit "Missing required fields: username, email, password") rfl
  have hmail := error_reply_ok F 400 (lit "Invalid email format") (lit "Invalid email format") rfl
  have hmissing : ∀ j, parse F req.body = .ok j →
      (!j.contains (lit "username") || !j.contains (lit "email")
        || !j.contains (lit "password")) = true →
      ∃ res, register_user F S w req = (.ok res, w) ∧ res.code = 400 := by
    intro j hparse hc
    refine ⟨⟨400, error_body (lit "Missing required fields: username, email, password"), []⟩, ?_, rfl⟩
    simp only [register_user, register_user_try, hparse, hc, if_true, hmiss, catch_json_std]
  rcases h with ⟨e, hparse⟩ | ⟨j, hparse, hc⟩ | ⟨j, email, hparse, he, hno⟩
  · refine ⟨⟨400, error_body (lit "Invalid JSON format"), []⟩, ?_, rfl⟩
    simp only [register_user, register_user_try, hparse,
      catch_json_std_json_error F e (parse_error_is_json F _ e hparse)]
  · apply hmissing j hparse
    rcases hc with hc | hc | hc <;> simp [hc]
  · by_cases hc : (!j.contains (lit "username") || !j.contains (lit "email")
        || !j.contains (lit "password")) = true
    · exact hmissing j hparse hc
    · cases hu : (index j (lit "username")).bind get_string with
      | error e =>
        refine ⟨⟨400, error_body (lit "Invalid JSON format"), []⟩, ?_, rfl⟩
        simp only [register_user, register_user_try, hparse, hc, Bool.false_eq_true, if_false, hu,
          catch_json_std_json_error F e (get_string_error_is_json _ _ e hu)]
      | ok username =>
        cases hp : (index j (lit "password")).bind get_string with
        | error e =>
          refine ⟨⟨400, error_body (lit "Invalid JSON format"), []⟩, ?_, rfl⟩
          simp only [register_user, register_user_try, hparse, hc, Bool.false_eq_true, if_false, hu, he, hp,
            catch_json_std_json_error F e (get_string_error_is_json _ _ e hp)]
        | ok password =>
          refine ⟨⟨400, error_body (lit "Invalid email format"), []⟩, ?_, rfl⟩
          simp only [register_user, register_user_try, hparse, hc, Bool.false_eq_true, if_false,
            hu, he, hp, hno,
            Bool.not_false, if_true, hmail, catch_json_std]

/-! ## The owner of a created task -/

/-- C19. For a `create_task` request that authenticates to the principal `p`:
either the handler calls nothing on the `Database` object, or its only call is
`create_task(title, description, p)`, whatever the body holds. When the body
parses and holds a string `title` (and no `description` that is not a string),
that call is made. -/
theorem create_task_owner {σ : Type} (F : FloatSem) (now : Int) (S : Sqlite σ) (w : World σ)
    (req : Request) (p : Int) (name : Str)
    (h : authenticate_request F now req = some (p, name)) :
    ((create_task F now S w req).2 = w ∨
      ∃ title description, (create_task F now S w req).2
        = ⟨(S.insert_task w.store (c_str title) (c_str description) p).2,
            w.calls ++ [.create_task title description p]⟩) ∧
    ∀ json_data title description, parse F req.body = .ok json_data →
      (index json_data (lit "title")).bind get_string = .ok title →
      (value json_data (lit "description") (.string (lit ""))).bind get_string
        = .ok description →
      (create_task F now S w req).2
        = ⟨(S.insert_task w.store (c_str title) (c_str description) p).2,
            w.calls ++ [.create_task title description p]⟩ := by
  have e : (create_task F now S w req).2 = (create_task_try F S w req p).2 := by
    simp only [create_task, h]
  rw [e]
  constructor
  · unfold create_task_try
    repeat' first | split | (dsimp only)
    all_goals first
      | exact Or.inl rfl
      | exact Or.inr ⟨_, _, rfl⟩
  · intro json_data title description hparse ht hd
    have c1 := contains_of_get_string _ _ _ ht
    simp only [create_task_try, hparse, c1, ht, hd, Bool.not_true, Bool.false_eq_true, if_false,
      Database.create_task]
    split <;> rfl

/-! ## Closed examples of the handlers -/

theorem login_failure_indistinguishable_witness :
    (login no_floats 1700000000 tables_sqlite ⟨⟨[], []⟩, []⟩
        ⟨[], lit "\x7b\"username\":\"alice\",\"password\":\"no\"\x7d"⟩).1
      = .ok ⟨401, error_body (lit "Invalid credentials"), []⟩ ∧
    (login no_floats 1700000000 tables_sqlite
        ⟨⟨[⟨1, lit "alice", lit "a@x.io", hash_password (lit "pw"), []⟩], []⟩, []⟩
        ⟨[], lit "\x7b\"username\":\"alice\",\"password\":\"no\"\x7d"⟩).1
      = (login no_floats 1700000000 tables_sqlite ⟨⟨[], []⟩, []⟩
        ⟨[], lit "\x7b\"username\":\"alice\",\"password\":\"no\"\x7d"⟩).1 :=
  login_failure_indistinguishable no_floats 1700000000 tables_sqlite ⟨⟨[], []⟩, []⟩
    ⟨⟨[⟨1, lit "alice", lit "a@x.io", hash_password (lit "pw"), []⟩], []⟩, []⟩
    ⟨[], lit "\x7b\"username\":\"alice\",\"password\":\"no\"\x7d"⟩
    (.object [(lit "password", .string (lit "no")), (lit "username", .string (lit "alice"))])
    (lit "alice") (lit "no") ⟨1, lit "alice", lit "a@x.io", hash_password (lit "pw"), []⟩
    rfl rfl rfl (by decide) (by decide) (by decide!)

theorem register_conflict_witness :
    register_user no_floats tables_sqlite
        ⟨⟨[⟨1, lit "alice", lit "a@x.io", hash_password (lit "pw"), []⟩], []⟩, []⟩
        ⟨[], lit "\x7b\"username\":\"alice\",\"email\":\"b@x.io\",\"password\":\"p\"\x7d"⟩
      = (.ok ⟨409, error_body (lit "Username already exists"), []⟩,
          ⟨⟨[⟨1, lit "alice", lit "a@x.io", hash_password (lit "pw"), []⟩], []⟩,
            [.get_user_by_username (lit "alice")]⟩) :=
  (register_conflict no_floats tables_sqlite
    ⟨⟨[⟨1, lit "alice", lit "a@x.io", hash_password (lit "pw"), []⟩], []⟩, []⟩
    ⟨[], lit "\x7b\"username\":\"alice\",\"email\":\"b@x.io\",\"password\":\"p\"\x7d"⟩
    (.object [(lit "email", .string (lit "b@x.io")), (lit "password", .string (lit "p")),
      (lit "username", .string (lit "alice"))])
    (lit "alice") (lit "b@x.io") (lit "p") rfl rfl rfl rfl (by decide)).1
    ⟨1, lit "alice", lit "a@x.io", hash_password (lit "pw"), []⟩ (by decide)

theorem register_malformed_is_400_witness :
    ∃ res, register_user no_floats tables_sqlite ⟨⟨[], []⟩, []⟩
        ⟨[], lit "\x7b\"username\":\"bob\",\"email\":\"b@x\",\"password\":\"p\"\x7d"⟩
      = (.ok res, ⟨⟨[], []⟩, []⟩) ∧ res.code = 400 :=
  register_malformed_is_400 no_floats tables_sqlite ⟨⟨[], []⟩, []⟩
    ⟨[], lit "\x7b\"username\":\"bob\",\"email\":\"b@x\",\"password\":\"p\"\x7d"⟩
    (Or.inr (Or.inr ⟨.object [(lit "email", .string (lit "b@x")),
      (lit "password", .string (lit "p")), (lit "username", .string (lit "bob"))],
      lit "b@x", rfl, rfl, by decide⟩))

theorem create_task_owner_witness :
    (create_task no_floats 1700000000 tables_sqlite ⟨⟨[], []⟩, []⟩
        ⟨lit "Bearer 123.34.101.120.112.34.58.49.55.48.48.48.56.54.52.48.48.44.34.117.115.101.114.95.105.100.34.58.55.44.34.117.115.101.114.110.97.109.101.34.58.34.97.34.125.",
          lit "\x7b\"title\":\"x\",\"user_id\":99\x7d"⟩).2
      = ⟨⟨[], [⟨1, lit "x", [], 0, 7, [], []⟩]⟩, [.create_task (lit "x") [] 7]⟩ :=
  (create_task_owner no_floats 1700000000 tables_sqlite ⟨⟨[], []⟩, []⟩
    ⟨lit "Bearer 123.34.101.120.112.34.58.49.55.48.48.48.56.54.52.48.48.44.34.117.115.101.114.95.105.100.34.58.55.44.34.117.115.101.114.110.97.109.101.34.58.34.97.34.125.",
      lit "\x7b\"title\":\"x\",\"user_id\":99\x7d"⟩ 7 (lit "a") (by decide!)).2
    (.object [(lit "title", .string (lit "x")), (lit "user_id", .number_unsigned 99)])
    (lit "x") [] rfl rfl rfl

end RestApi
